import Mathlib

/-!
# DragonBones standalone WebGL renderer: batcher and slot geometry

A shallow embedding of `src/dragonBonesWebGLRenderer.js`.

Conventions of the embedding.

* JavaScript numbers that carry geometry (positions, UVs, colours, matrix entries) are
  rationals: arithmetic is exact, the rounding of a `Float32Array` store is not modelled.
* Counts and offsets are natural numbers.  A `Uint16Array` store keeps the value modulo `65536`.
* The two staging buffers of the renderer have a fixed length; they are functions from the
  position to the stored value, and a store outside the length is dropped, as a typed array does.
* The typed arrays held by a slot are lists; `List.set` drops a store outside the length.
* Reading a typed array outside its length yields `undefined` in JavaScript.  The model reads `0`
  there; statements about contents carry the length conditions under which no such read occurs.
* `vertices.length / 2` is natural-number division; the model follows the source on vertex
  arrays of even length (every array the slot allocates has length `vertexCount * 2`).
* The WebGL context is a log: the number of `clear` calls and the list of `drawElements` calls,
  each with the texture bound and the two buffer prefixes uploaded just before it.
* A JavaScript `TypeError` (property access on `null`) is the result `none`.
-/

namespace DragonBonesWebGL

/-! ## Batcher: `DragonBonesRenderer` -/

/-- A texture handle as the renderer sees it: `none` is `null`. -/
abbrev Texture := Option Nat

/-- Constant `this.MAX_VERTICES`. -/
def MAX_VERTICES : Nat := 8000

/-- Constant `this.MAX_INDICES`. -/
def MAX_INDICES : Nat := 24000

/-- Constant `this.VERTEX_SIZE`. -/
def VERTEX_SIZE : Nat := 8

/-- Length of `this.vertices`, a `Float32Array(MAX_VERTICES * VERTEX_SIZE)`. -/
def VERTICES_LENGTH : Nat := MAX_VERTICES * VERTEX_SIZE

/-- Length of `this.indices`, a `Uint16Array(MAX_INDICES)`. -/
def INDICES_LENGTH : Nat := MAX_INDICES

/-- Conversion of a number to an element of a `Uint16Array`. -/
def toUint16 (n : Nat) : Nat := n % 65536

/-- Typed-array store `buf[k] = v` on a buffer of length `len`: dropped when `k` is outside. -/
def store {α : Type} (buf : Nat → α) (len k : Nat) (v : α) : Nat → α :=
  fun j => if j = k ∧ k < len then v else buf j

/-- Typed-array view `buf.subarray(0, e)` of a buffer of length `len`, as a list. -/
def subarray {α : Type} (buf : Nat → α) (len e : Nat) : List α :=
  (List.range (min e len)).map buf

/-- One `gl.drawElements(TRIANGLES, count, UNSIGNED_SHORT, 0)` call, with the texture bound and
the vertex and index data uploaded by the two `bufferSubData` calls that precede it. -/
structure DrawCall where
  texture : Texture
  vertexData : List ℚ
  indexData : List Nat
  count : Nat

/-- State of a `DragonBonesRenderer`: staging buffers, counts, bound texture and the log of
the WebGL context. -/
structure DragonBonesRenderer where
  vertices : Nat → ℚ
  indices : Nat → Nat
  vertexCount : Nat
  indexCount : Nat
  currentTexture : Texture
  clears : Nat
  draws : List DrawCall

/-- A submission to `renderMesh`: the four array arguments. -/
structure Mesh where
  vertices : List ℚ
  uvs : List ℚ
  indices : List Nat
  color : List ℚ

namespace DragonBonesRenderer

/-- The renderer as `constructor(canvas)` leaves it. -/
def create : DragonBonesRenderer :=
  { vertices := fun _ => 0
    indices := fun _ => 0
    vertexCount := 0
    indexCount := 0
    currentTexture := none
    clears := 0
    draws := [] }

/-- Method `begin()`. -/
def begin (r : DragonBonesRenderer) : DragonBonesRenderer :=
  { r with vertexCount := 0, indexCount := 0, clears := r.clears + 1 }

/-- Method `flush()`. -/
def flush (r : DragonBonesRenderer) : DragonBonesRenderer :=
  if r.vertexCount = 0 then r
  else
    { r with
      draws := r.draws ++
        [{ texture := r.currentTexture
           vertexData := subarray r.vertices VERTICES_LENGTH (r.vertexCount * VERTEX_SIZE)
           indexData := subarray r.indices INDICES_LENGTH r.indexCount
           count := r.indexCount }]
      vertexCount := 0
      indexCount := 0 }

/-- Body of the first loop of `renderMesh`: the eight stores for vertex `i`. The loop state is
the staging buffer and `vOffset`. -/
def vertexLoopBody (vertices uvs color : List ℚ) (st : (Nat → ℚ) × Nat) (i : Nat) :
    (Nat → ℚ) × Nat :=
  let vBuf := st.1
  let vOffset := st.2
  let vBuf := store vBuf VERTICES_LENGTH vOffset (vertices.getD (i * 2) 0)
  let vBuf := store vBuf VERTICES_LENGTH (vOffset + 1) (vertices.getD (i * 2 + 1) 0)
  let vBuf := store vBuf VERTICES_LENGTH (vOffset + 2) (uvs.getD (i * 2) 0)
  let vBuf := store vBuf VERTICES_LENGTH (vOffset + 3) (uvs.getD (i * 2 + 1) 0)
  let vBuf := store vBuf VERTICES_LENGTH (vOffset + 4) (color.getD 0 0)
  let vBuf := store vBuf VERTICES_LENGTH (vOffset + 5) (color.getD 1 0)
  let vBuf := store vBuf VERTICES_LENGTH (vOffset + 6) (color.getD 2 0)
  let vBuf := store vBuf VERTICES_LENGTH (vOffset + 7) (color.getD 3 0)
  (vBuf, vOffset + 8)

/-- Body of the second loop of `renderMesh`: the store for index `i`. The loop state is the
staging buffer and `iOffset`. -/
def indexLoopBody (baseIndex : Nat) (indices : List Nat) (st : (Nat → Nat) × Nat) (i : Nat) :
    (Nat → Nat) × Nat :=
  (store st.1 INDICES_LENGTH st.2 (toUint16 (baseIndex + indices.getD i 0)), st.2 + 1)

/-- The guarded block that opens `renderMesh`: flush and rebind when the texture differs or the
submission would exceed a capacity. -/
def renderMeshFlush (r : DragonBonesRenderer) (texture : Texture) (numVerts numIndices : Nat) :
    DragonBonesRenderer :=
  if r.currentTexture ≠ texture ∨ r.vertexCount + numVerts > MAX_VERTICES ∨
      r.indexCount + numIndices > MAX_INDICES then
    { flush r with currentTexture := texture }
  else r

/-- The rest of `renderMesh`: the two append loops and the advance of both counts. -/
def renderMeshAppend (r : DragonBonesRenderer) (vertices uvs : List ℚ) (indices : List Nat)
    (color : List ℚ) : DragonBonesRenderer :=
  let numVerts := vertices.length / 2
  let numIndices := indices.length
  let vBuf := ((List.range numVerts).foldl (vertexLoopBody vertices uvs color)
    (r.vertices, r.vertexCount * VERTEX_SIZE)).1
  let baseIndex := r.vertexCount
  let iBuf := ((List.range numIndices).foldl (indexLoopBody baseIndex indices)
    (r.indices, r.indexCount)).1
  { r with
    vertices := vBuf
    indices := iBuf
    vertexCount := r.vertexCount + numVerts
    indexCount := r.indexCount + numIndices }

/-- Method `renderMesh(texture, vertices, uvs, indices, color)`. -/
def renderMesh (r : DragonBonesRenderer) (texture : Texture) (vertices uvs : List ℚ)
    (indices : List Nat) (color : List ℚ) : DragonBonesRenderer :=
  renderMeshAppend (renderMeshFlush r texture (vertices.length / 2) indices.length)
    vertices uvs indices color

/-- Submission of a mesh: `renderMesh` on its four arrays. -/
def submit (r : DragonBonesRenderer) (texture : Texture) (m : Mesh) : DragonBonesRenderer :=
  renderMesh r texture m.vertices m.uvs m.indices m.color

end DragonBonesRenderer

/-! ## Sequences of calls and conditions on submissions -/

/-- A call on the public batching interface of the renderer. -/
inductive Call where
  | begin : Call
  | flush : Call
  | renderMesh : Texture → Mesh → Call

/-- Effect of one call. -/
def Call.apply (r : DragonBonesRenderer) : Call → DragonBonesRenderer
  | Call.begin => r.begin
  | Call.flush => r.flush
  | Call.renderMesh t m => r.submit t m

/-- Effect of a sequence of calls, first call first. -/
def runCalls (r : DragonBonesRenderer) (calls : List Call) : DragonBonesRenderer :=
  calls.foldl Call.apply r

/-- Consecutive `renderMesh` calls with one texture. -/
def submitAll (r : DragonBonesRenderer) (t : Texture) (ms : List Mesh) : DragonBonesRenderer :=
  ms.foldl (fun acc m => acc.submit t m) r

/-- Number of vertices of a submission, `vertices.length / 2`. -/
def Mesh.numVerts (m : Mesh) : Nat := m.vertices.length / 2

/-- Number of indices of a submission, `indices.length`. -/
def Mesh.numIndices (m : Mesh) : Nat := m.indices.length

/-- The vertex array holds whole `(x, y)` pairs. -/
def Mesh.EvenLength (m : Mesh) : Prop := m.vertices.length % 2 = 0

/-- The submission fits the capacity by itself: `vertices.length / 2 <= MAX_VERTICES` and
`indices.length <= MAX_INDICES`. -/
def Mesh.Fits (m : Mesh) : Prop :=
  m.vertices.length ≤ 2 * MAX_VERTICES ∧ m.indices.length ≤ MAX_INDICES

/-- A submission that has an index has a vertex. -/
def Mesh.IndexedHasVertex (m : Mesh) : Prop :=
  m.indices.length = 0 ∨ 2 ≤ m.vertices.length

/-- The arrays of a submission as a slot passes them: whole vertex pairs, one UV pair per
vertex, four colour components, indices that are `Uint16Array` elements. -/
def Mesh.Typed (m : Mesh) : Prop :=
  m.vertices.length % 2 = 0 ∧ m.uvs.length = m.vertices.length ∧ m.color.length = 4 ∧
    ∀ k ∈ m.indices, k < 65536

/-- Condition on one call: a submission holds whole vertex pairs and fits the capacity by
itself. -/
def Call.Fits : Call → Prop
  | Call.renderMesh _ m => m.EvenLength ∧ m.Fits
  | _ => True

/-- Condition on one call: a submission that has an index has a vertex. -/
def Call.IndexedHasVertex : Call → Prop
  | Call.renderMesh _ m => m.IndexedHasVertex
  | _ => True

/-- The capacity part of the guard of `renderMesh`: appending `m` would exceed a capacity. -/
def Overflows (r : DragonBonesRenderer) (m : Mesh) : Prop :=
  r.vertexCount + m.numVerts > MAX_VERTICES ∨ r.indexCount + m.numIndices > MAX_INDICES

/-! ## What a batch holds -/

/-- The eight floats `[x, y, u, v, color0, color1, color2, color3]` of vertex `i`. -/
def vertexRecord (vertices uvs color : List ℚ) (i : Nat) : List ℚ :=
  [vertices.getD (2 * i) 0, vertices.getD (2 * i + 1) 0, uvs.getD (2 * i) 0,
   uvs.getD (2 * i + 1) 0, color.getD 0 0, color.getD 1 0, color.getD 2 0, color.getD 3 0]

/-- The interleaved vertex records of a submission, vertex `0` first. -/
def Mesh.records (m : Mesh) : List ℚ :=
  (List.range m.numVerts).flatMap (vertexRecord m.vertices m.uvs m.color)

/-- The index values of a submission as `renderMesh` stages them while `base` vertices are
pending: each offset by `base` and stored as a `Uint16Array` element. -/
def Mesh.stagedIndices (base : Nat) (m : Mesh) : List Nat :=
  m.indices.map (fun k => toUint16 (base + k))

/-- The vertex data of a batch: the records of its submissions, in submission order. -/
def batchRecords : List Mesh → List ℚ
  | [] => []
  | m :: ms => m.records ++ batchRecords ms

/-- The index data of a batch that starts while `base` vertices are pending: the staged indices
of its submissions, in submission order, each submission offset by the vertices before it. -/
def batchIndices (base : Nat) : List Mesh → List Nat
  | [] => []
  | m :: ms => m.stagedIndices base ++ batchIndices (base + m.numVerts) ms

/-! ## Data handed over by the animation runtime -/

/-- A rectangle of the runtime: `region` and `frame` of a texture. -/
structure Rectangle where
  x : ℚ
  y : ℚ
  width : ℚ
  height : ℚ

/-- A point of the runtime: the pivot of an image display. -/
structure Point where
  x : ℚ
  y : ℚ

/-- A 2x3 affine matrix `{a, b, c, d, tx, ty}` of the runtime. -/
structure Matrix where
  a : ℚ
  b : ℚ
  c : ℚ
  d : ℚ
  tx : ℚ
  ty : ℚ

/-- A bone, as far as the slot reads it. -/
structure Bone where
  globalTransformMatrix : Matrix

/-- Class `WebGLTextureAtlasData`: atlas dimensions and the texture handle to render with. -/
structure WebGLTextureAtlasData where
  width : ℚ
  height : ℚ
  renderTexture : Texture

/-- Texture data of a frame: region in the atlas, rotation flag, optional trim frame, atlas. -/
structure TextureData where
  region : Rectangle
  rotated : Bool
  frame : Option Rectangle
  parent : WebGLTextureAtlasData

/-- The weight table header of a geometry: `weight.offset` and `weight.bones`. -/
structure WeightData where
  offset : Nat
  bones : List Nat

/-- Geometry of a mesh display: the shared `data.intArray` and `data.floatArray`, the offset of
this geometry in `intArray`, and the weight table when the mesh is skinned. -/
structure GeometryData where
  intArray : List Nat
  floatArray : List ℚ
  offset : Nat
  weight : Option WeightData

/-- Display data: `type` (`0` image, `2` mesh), the pivot read for an image, the geometry read
for a mesh. -/
structure DisplayData where
  type : Nat
  pivot : Point
  geometry : GeometryData

/-- The display frame of a slot. Field `textureData` is what `getTextureData()` returns. -/
structure DisplayFrame where
  textureData : Option TextureData
  displayData : Option DisplayData
  rawDisplayData : Option DisplayData
  deformVertices : List ℚ

/-! ## Slot: `WebGLSlot` -/

/-- Class `WebGLSlot`: the fields the renderer adds and the fields of `dragonBones.Slot` it
reads. A typed array that is `null` is `none`. -/
structure WebGLSlot where
  _renderDisplay : Bool
  _displayIndex : Int
  _visible : Bool
  _color : List ℚ
  _indices : Option (List Nat)
  _uvs : Option (List ℚ)
  _localVertices : Option (List ℚ)
  _resultVertices : Option (List ℚ)
  _displayFrame : Option DisplayFrame
  _geometryBones : List (Option Bone)
  globalTransformMatrix : Matrix

/-- A slot of an armature: a `WebGLSlot`, or a slot of another class. -/
inductive ArmatureSlot where
  | webgl : WebGLSlot → ArmatureSlot
  | other : ArmatureSlot

/-- An armature, as far as the display reads it: `getSlots()`. -/
structure Armature where
  slots : List ArmatureSlot

/-- Class `WebGLArmatureDisplay`: the container transform and the armature. -/
structure WebGLArmatureDisplay where
  _armature : Option Armature
  x : ℚ
  y : ℚ
  scaleX : ℚ
  scaleY : ℚ

/-- The expression `frame.displayData || frame.rawDisplayData`. -/
def DisplayFrame.display (frame : DisplayFrame) : Option DisplayData :=
  match frame.displayData with
  | some d => some d
  | none => frame.rawDisplayData

/-- The expression `displayData && displayData.type === 2`. -/
def isMesh (displayData : Option DisplayData) : Bool :=
  match displayData with
  | some d => d.type == 2
  | none => false

/-- The expression `isMesh && displayData.geometry.weight` of `render`, as a truth value. -/
def hasWeight (displayData : Option DisplayData) : Bool :=
  match displayData with
  | some d => d.type == 2 && d.geometry.weight.isSome
  | none => false

/-- The expression `value || 1` on a number. -/
def orOne (value : ℚ) : ℚ := if value = 0 then 1 else value

/-- Typed-array method `target.set(source)`: the first `source.length` elements are overwritten;
a source longer than the target raises. -/
def typedSet {α : Type} (target source : List α) : Option (List α) :=
  if source.length ≤ target.length then some (source ++ target.drop source.length) else none

namespace WebGLSlot

/-- The slot as `constructor()` leaves it, with the fields of the base class as given. -/
def create (displayIndex : Int) (visible : Bool) (displayFrame : Option DisplayFrame)
    (geometryBones : List (Option Bone)) (matrix : Matrix) : WebGLSlot :=
  { _renderDisplay := false
    _displayIndex := displayIndex
    _visible := visible
    _color := [1, 1, 1, 1]
    _indices := none
    _uvs := none
    _localVertices := none
    _resultVertices := none
    _displayFrame := displayFrame
    _geometryBones := geometryBones
    globalTransformMatrix := matrix }

/-- Method `_onClear()`, on the fields of the renderer. -/
def _onClear (s : WebGLSlot) : WebGLSlot :=
  { s with
    _renderDisplay := false
    _indices := none
    _uvs := none
    _localVertices := none
    _resultVertices := none }

/-- The index part of `_updateFrame` for a mesh: reuse or allocate the `Uint16Array`, then copy
`indexCount` indices from `intArray`. -/
def meshIndices (old : Option (List Nat)) (geom : GeometryData) : List Nat :=
  let intArray := geom.intArray
  let indexOffset := geom.offset + 4
  let indexCount := intArray.getD (geom.offset + 1) 0 * 3
  let indices := match old with
    | some a => if a.length ≠ indexCount then List.replicate indexCount 0 else a
    | none => List.replicate indexCount 0
  (List.range indexCount).foldl
    (fun acc i => acc.set i (toUint16 (intArray.getD (indexOffset + i) 0))) indices

/-- The index part of `_updateFrame` for a quad: allocate `[0, 1, 2, 0, 2, 3]` unless an index
array of length `6` is there. -/
def quadIndices (old : Option (List Nat)) : List Nat :=
  match old with
  | some a => if a.length ≠ 6 then [0, 1, 2, 0, 2, 3] else a
  | none => [0, 1, 2, 0, 2, 3]

/-- The three float buffers after the guarded allocation of `_updateFrame`: fresh zero-filled
arrays of the required length when `_uvs` is unset or has another length, else as they are. -/
def allocate (s : WebGLSlot) (length : Nat) :
    Option (List ℚ) × Option (List ℚ) × Option (List ℚ) :=
  let fresh : Option (List ℚ) × Option (List ℚ) × Option (List ℚ) :=
    (some (List.replicate length 0), some (List.replicate length 0),
      some (List.replicate length 0))
  match s._uvs with
  | some u => if u.length ≠ length then fresh else (s._uvs, s._localVertices, s._resultVertices)
  | none => fresh

/-- Body of the UV loop of `_updateFrame` for a mesh. -/
def meshUvBody (textureData : TextureData) (w h : ℚ) (floatArray : List ℚ) (uvOffset : Nat)
    (uvs : List ℚ) (i : Nat) : List ℚ :=
  let region := textureData.region
  let u := floatArray.getD (uvOffset + i * 2) 0
  let v := floatArray.getD (uvOffset + i * 2 + 1) 0
  if textureData.rotated then
    (uvs.set (i * 2) ((region.x + (1 - v) * region.width) / w)).set (i * 2 + 1)
      ((region.y + u * region.height) / h)
  else
    (uvs.set (i * 2) ((region.x + u * region.width) / w)).set (i * 2 + 1)
      ((region.y + v * region.height) / h)

/-- The eight UV floats of `_updateFrame` for a quad. -/
def quadUvs (textureData : TextureData) (w h : ℚ) : List ℚ :=
  let region := textureData.region
  if textureData.rotated then
    let l := region.x / w
    let t := region.y / h
    let r := (region.x + region.height) / w
    let b := (region.y + region.width) / h
    [r, t, r, b, l, b, l, t]
  else
    let l := region.x / w
    let t := region.y / h
    let r := (region.x + region.width) / w
    let b := (region.y + region.height) / h
    [l, t, r, t, r, b, l, b]

/-- The eight local vertex floats of `_updateFrame` for a quad. -/
def quadLocalVertices (textureData : TextureData) (displayData : Option DisplayData) : List ℚ :=
  let pivot : ℚ × ℚ := match displayData with
    | some d => if d.type = 0 then (d.pivot.x, d.pivot.y) else (0, 0)
    | none => (0, 0)
  let rect := match textureData.frame with
    | some f => f
    | none => textureData.region
  let size : ℚ × ℚ :=
    if textureData.rotated ∧ textureData.frame.isNone then (rect.height, rect.width)
    else (rect.width, rect.height)
  let rw := size.1
  let rh := size.2
  let pX := pivot.1 * rw
  let pY := pivot.2 * rh
  let pX := match textureData.frame with
    | some f => pX + f.x
    | none => pX
  let pY := match textureData.frame with
    | some f => pY + f.y
    | none => pY
  [-pX, -pY, rw - pX, -pY, rw - pX, rh - pY, -pX, rh - pY]

/-- Method `_updateFrame()`. -/
def _updateFrame (s : WebGLSlot) : Option WebGLSlot :=
  match s._displayFrame with
  | none => none
  | some frame =>
    match frame.textureData with
    | none => some s
    | some textureData =>
      let displayData := frame.display
      let w := orOne textureData.parent.width
      let h := orOne textureData.parent.height
      if isMesh displayData then
        match displayData with
        | none => none
        | some d =>
          let geom := d.geometry
          let indices := meshIndices s._indices geom
          let vertexCount := geom.intArray.getD (geom.offset + 0) 0
          let floatArray := geom.floatArray
          let uvOffset := geom.intArray.getD (geom.offset + 2) 0 + vertexCount * 2
          let bufs := allocate s (vertexCount * 2)
          match bufs.1 with
          | none => none
          | some uvs0 =>
            let uvs := (List.range vertexCount).foldl
              (meshUvBody textureData w h floatArray uvOffset) uvs0
            some { s with
              _indices := some indices
              _uvs := some uvs
              _localVertices := bufs.2.1
              _resultVertices := bufs.2.2 }
      else
        let indices := quadIndices s._indices
        let bufs := allocate s 8
        match bufs.1, bufs.2.1 with
        | some uvs0, some local0 =>
          match typedSet uvs0 (quadUvs textureData w h),
              typedSet local0 (quadLocalVertices textureData displayData) with
          | some uvs, some loc =>
            some { s with
              _indices := some indices
              _uvs := some uvs
              _localVertices := some loc
              _resultVertices := bufs.2.2 }
          | _, _ => none
        | _, _ => none

/-- Body of the inner loop of the skinning path of `_updateMesh`: one listed influence. The loop
state is `iB`, `weightFloatIndex`, `xG`, `yG`. -/
def skinInfluenceBody (geometryBones : List (Option Bone)) (boneIndices : List Nat)
    (rawVertices : List ℚ) (st : Nat × Nat × ℚ × ℚ) (_j : Nat) : Nat × Nat × ℚ × ℚ :=
  let iB := st.1
  let weightFloatIndex := st.2.1
  let xG := st.2.2.1
  let yG := st.2.2.2
  let bone : Option Bone := match boneIndices[iB]? with
    | some boneIndex => (geometryBones[boneIndex]?).join
    | none => none
  match bone with
  | some bone =>
    let m := bone.globalTransformMatrix
    let w := rawVertices.getD weightFloatIndex 0
    let vx := rawVertices.getD (weightFloatIndex + 1) 0
    let vy := rawVertices.getD (weightFloatIndex + 2) 0
    (iB + 1, weightFloatIndex + 3, xG + (m.a * vx + m.c * vy + m.tx) * w,
      yG + (m.b * vx + m.d * vy + m.ty) * w)
  | none => (iB + 1, weightFloatIndex + 3, xG, yG)

/-- Body of the outer loop of the skinning path of `_updateMesh`: vertex `i`. The loop state is
`iB`, `weightFloatIndex` and the array `result`. -/
def skinVertexBody (geometryBones : List (Option Bone)) (boneIndices : List Nat)
    (rawVertices : List ℚ) (st : Nat × Nat × List ℚ) (i : Nat) : Nat × Nat × List ℚ :=
  let iB := st.1
  let weightFloatIndex := st.2.1
  let result := st.2.2
  let boneCount := boneIndices.getD iB 0
  let inner := (List.range boneCount).foldl
    (skinInfluenceBody geometryBones boneIndices rawVertices) (iB + 1, weightFloatIndex, 0, 0)
  (inner.1, inner.2.1, (result.set (i * 2) inner.2.2.1).set (i * 2 + 1) inner.2.2.2)

/-- Body of the loop of the unweighted path of `_updateMesh`: vertex `i`. -/
def deformVertexBody (rawVertices : List ℚ) (verticesOffset : Nat) (deformVertices : List ℚ)
    (result : List ℚ) (i : Nat) : List ℚ :=
  let hasDeform := deformVertices.length > 0
  let x := rawVertices.getD (verticesOffset + i * 2) 0
  let y := rawVertices.getD (verticesOffset + i * 2 + 1) 0
  let x := if hasDeform then x + deformVertices.getD (i * 2) 0 else x
  let y := if hasDeform then y + deformVertices.getD (i * 2 + 1) 0 else y
  (result.set (i * 2) x).set (i * 2 + 1) y

/-- Method `_updateMesh()`. The stores into the `Float32Array` `_localVertices` are exact here;
`_updateMeshWith` carries their conversion. -/
def _updateMesh (s : WebGLSlot) : Option WebGLSlot :=
  match s._displayFrame with
  | none => some s
  | some frame =>
    match frame.display with
    | none => some s
    | some displayData =>
      if displayData.type ≠ 2 then some s
      else
        let geom := displayData.geometry
        let rawVertices := geom.floatArray
        let verticesOffset := geom.intArray.getD (geom.offset + 2) 0
        let deformVertices := frame.deformVertices
        match s._localVertices with
        | none => none
        | some result =>
          match geom.weight with
          | some weight =>
            let boneIndices := geom.intArray
            let iB := weight.offset + 2 + weight.bones.length
            let weightFloatIndex := geom.intArray.getD (weight.offset + 1) 0
            let numVerts := result.length / 2
            let out := (List.range numVerts).foldl
              (skinVertexBody s._geometryBones boneIndices rawVertices)
              (iB, weightFloatIndex, result)
            some { s with _localVertices := some out.2.2 }
          | none =>
            let numVerts := result.length / 2
            let out := (List.range numVerts).foldl
              (deformVertexBody rawVertices verticesOffset deformVertices) result
            some { s with _localVertices := some out }

/-- Body of the loop of the skinned branch of `render`: vertex `i`. -/
def skinnedResultBody (loc : List ℚ) (x y sx sy : ℚ) (result : List ℚ) (i : Nat) : List ℚ :=
  (result.set (i * 2) (loc.getD (i * 2) 0 * sx + x)).set (i * 2 + 1)
    (loc.getD (i * 2 + 1) 0 * sy + y)

/-- Body of the loop of the rigid branch of `render`: vertex `i`. -/
def rigidResultBody (loc : List ℚ) (m : Matrix) (x y sx sy : ℚ) (result : List ℚ) (i : Nat) :
    List ℚ :=
  let lx := loc.getD (i * 2) 0
  let ly := loc.getD (i * 2 + 1) 0
  let rawX := m.a * lx + m.c * ly + m.tx
  let rawY := m.b * lx + m.d * ly + m.ty
  (result.set (i * 2) (rawX * sx + x)).set (i * 2 + 1) (rawY * sy + y)

/-- The first guard of `render`: no render display, negative display index, not visible, or
alpha not positive. -/
def hidden (s : WebGLSlot) : Bool :=
  !s._renderDisplay || decide (s._displayIndex < 0) || !s._visible ||
    decide (s._color.getD 3 0 ≤ 0)

/-- Method `render(renderer, display)`. The result is the slot and the renderer afterwards. The
stores into the `Float32Array` `_resultVertices` are exact here; `renderWith` carries their
conversion. -/
def render (s : WebGLSlot) (renderer : DragonBonesRenderer) (display : WebGLArmatureDisplay) :
    Option (WebGLSlot × DragonBonesRenderer) :=
  if s.hidden then some (s, renderer)
  else
    match s._localVertices with
    | none => some (s, renderer)
    | some loc =>
      match s._displayFrame with
      | none => none
      | some frame =>
        let displayData := frame.display
        let count := loc.length / 2
        let x := display.x
        let y := display.y
        let sx := display.scaleX
        let sy := display.scaleY
        match s._resultVertices with
        | none => none
        | some result0 =>
          let result :=
            if hasWeight displayData then
              (List.range count).foldl (skinnedResultBody loc x y sx sy) result0
            else
              (List.range count).foldl
                (rigidResultBody loc s.globalTransformMatrix x y sx sy) result0
          match frame.textureData with
          | none => none
          | some textureData =>
            let textureAtlasData := textureData.parent
            match s._indices with
            | none => none
            | some indices =>
              match s._uvs with
              | some uvs =>
                some ({ s with _resultVertices := some result },
                  renderer.renderMesh textureAtlasData.renderTexture result uvs indices s._color)
              | none =>
                if result.length / 2 = 0 then
                  some ({ s with _resultVertices := some result },
                    renderer.renderMesh textureAtlasData.renderTexture result [] indices
                      s._color)
                else none

end WebGLSlot

/-! ## Container: `WebGLArmatureDisplay` -/

/-- Method `render(renderer)` of `WebGLArmatureDisplay`: every `WebGLSlot` of the armature is
rendered, in the order of `getSlots()`. The slots are returned as they are afterwards. -/
def WebGLArmatureDisplay.renderSlots (display : WebGLArmatureDisplay) :
    List ArmatureSlot → DragonBonesRenderer → Option (List ArmatureSlot × DragonBonesRenderer)
  | [], renderer => some ([], renderer)
  | ArmatureSlot.other :: rest, renderer =>
    match WebGLArmatureDisplay.renderSlots display rest renderer with
    | some (rest1, renderer1) => some (ArmatureSlot.other :: rest1, renderer1)
    | none => none
  | ArmatureSlot.webgl slot :: rest, renderer =>
    match slot.render renderer display with
    | none => none
    | some (slot1, renderer1) =>
      match WebGLArmatureDisplay.renderSlots display rest renderer1 with
      | some (rest1, renderer2) => some (ArmatureSlot.webgl slot1 :: rest1, renderer2)
      | none => none

/-- Method `render(renderer)` of `WebGLArmatureDisplay`. -/
def WebGLArmatureDisplay.render (display : WebGLArmatureDisplay)
    (renderer : DragonBonesRenderer) : Option (WebGLArmatureDisplay × DragonBonesRenderer) :=
  match display._armature with
  | none => some (display, renderer)
  | some armature =>
    match WebGLArmatureDisplay.renderSlots display armature.slots renderer with
    | none => none
    | some (slots1, renderer1) =>
      some ({ display with _armature := some { slots := slots1 } }, renderer1)

/-! ## Buffer invariant and weight tables -/

/-- The buffer invariant of a slot: `_uvs`, `_localVertices` and `_resultVertices` are all unset,
or all set with equal lengths. -/
def WebGLSlot.Aligned (s : WebGLSlot) : Prop :=
  (s._uvs = none ∧ s._localVertices = none ∧ s._resultVertices = none) ∨
    ∃ u l r, s._uvs = some u ∧ s._localVertices = some l ∧ s._resultVertices = some r ∧
      u.length = l.length ∧ l.length = r.length

/-- One listed influence of a vertex in a weight table: the index of the bone in
`_geometryBones`, the weight, and the offset of the vertex local to that bone. -/
structure Influence where
  bone : Nat
  weight : ℚ
  x : ℚ
  y : ℚ

/-- The integers of a weight table: per vertex, the number of influences, then their bones. -/
def encodeBoneIndices (table : List (List Influence)) : List Nat :=
  table.flatMap (fun infl => infl.length :: infl.map Influence.bone)

/-- The floats of a weight table: per listed influence, in order, `weight, x, y`. -/
def encodeWeights (table : List (List Influence)) : List ℚ :=
  table.flatMap (fun infl => infl.flatMap (fun f => [f.weight, f.x, f.y]))

/-- The weight table of a geometry is well formed and lists `table`: the integers of the table
start in `intArray` at `weight.offset + 2 + weight.bones.length`, its floats start in
`floatArray` at the position stored in `intArray[weight.offset + 1]`. -/
def WeightTableOf (geom : GeometryData) (weight : WeightData)
    (table : List (List Influence)) : Prop :=
  ∃ pre post fpre fpost,
    geom.intArray = pre ++ encodeBoneIndices table ++ post ∧
    pre.length = weight.offset + 2 + weight.bones.length ∧
    geom.floatArray = fpre ++ encodeWeights table ++ fpost ∧
    fpre.length = geom.intArray.getD (weight.offset + 1) 0

/-- The bone an index resolves to: `none` when the bone array has no bone there. -/
def resolvedBone (bones : List (Option Bone)) (b : Nat) : Option Bone := (bones[b]?).join

/-- Sum over the listed influences with a resolved bone of `w * (a * x + c * y + tx)`. -/
def skinnedX (bones : List (Option Bone)) (infl : List Influence) : ℚ :=
  (infl.filterMap (fun f => (resolvedBone bones f.bone).map (fun bone =>
    f.weight * (bone.globalTransformMatrix.a * f.x + bone.globalTransformMatrix.c * f.y +
      bone.globalTransformMatrix.tx)))).sum

/-- Sum over the listed influences with a resolved bone of `w * (b * x + d * y + ty)`. -/
def skinnedY (bones : List (Option Bone)) (infl : List Influence) : ℚ :=
  (infl.filterMap (fun f => (resolvedBone bones f.bone).map (fun bone =>
    f.weight * (bone.globalTransformMatrix.b * f.x + bone.globalTransformMatrix.d * f.y +
      bone.globalTransformMatrix.ty)))).sum

/-! ## Concrete renderers and submissions -/

/-- A submission with indices and no vertex. -/
def degenerateMesh : Mesh :=
  { vertices := [], uvs := [], indices := List.replicate 24000 0, color := [1, 1, 1, 1] }

/-- Two submissions of `degenerateMesh` with one texture. -/
def degenerateCalls : List Call :=
  [Call.renderMesh (some 0) degenerateMesh, Call.renderMesh (some 0) degenerateMesh]

/-- A quad as a slot submits it. -/
def quadMesh : Mesh :=
  { vertices := [0, 0, 64, 0, 64, 64, 0, 64]
    uvs := [0, 0, 1 / 2, 0, 1 / 2, 1 / 2, 0, 1 / 2]
    indices := [0, 1, 2, 0, 2, 3]
    color := [1, 1, 1, 1] }

/-- A submission of one vertex and the one index `k`. -/
def pointMesh (k : Nat) : Mesh :=
  { vertices := [3, 5], uvs := [1 / 4, 3 / 4], indices := [k], color := [1, 1, 1, 1 / 2] }

/-- A renderer with one vertex and one index pending. -/
def onePending : DragonBonesRenderer :=
  DragonBonesRenderer.create.submit (some 0) (pointMesh 0)

/-- A submission of one vertex and 12001 indices, all of them `0`. -/
def fanMesh : Mesh :=
  { vertices := [0, 0], uvs := [0, 0], indices := List.replicate 12001 0, color := [1, 1, 1, 1] }

/-- An idle renderer bound to texture `0`: one quad submitted and flushed. -/
def idleRenderer : DragonBonesRenderer :=
  (DragonBonesRenderer.create.submit (some 0) quadMesh).flush

/-- The renderer `idleRenderer` after one submission of `fanMesh` with texture `0`: one vertex
and 12001 indices pending. -/
def pendingFan : DragonBonesRenderer := idleRenderer.submit (some 0) fanMesh

/-! ## Concrete slots -/

/-- A 128 x 128 atlas with texture handle `0`. -/
def atlas128 : WebGLTextureAtlasData := { width := 128, height := 128, renderTexture := some 0 }

/-- A geometry with no data, for displays that are not meshes. -/
def noGeometry : GeometryData := { intArray := [], floatArray := [], offset := 0, weight := none }

/-- An image display with the given pivot. -/
def imageDisplay (pivotX pivotY : ℚ) : DisplayData :=
  { type := 0, pivot := { x := pivotX, y := pivotY }, geometry := noGeometry }

/-- An untrimmed texture of the given region in `atlas128`. -/
def plainTexture (x y width height : ℚ) (rotated : Bool) : TextureData :=
  { region := { x := x, y := y, width := width, height := height }
    rotated := rotated
    frame := none
    parent := atlas128 }

/-- The frame of an image display with pivot `(0, 0)` on an untrimmed texture. -/
def imageFrame (textureData : TextureData) : DisplayFrame :=
  { textureData := some textureData
    displayData := some (imageDisplay 0 0)
    rawDisplayData := none
    deformVertices := [] }

/-- The identity matrix. -/
def identityMatrix : Matrix := { a := 1, b := 0, c := 0, d := 1, tx := 0, ty := 0 }

/-- A visible slot, fresh from the constructor, showing the given frame. -/
def freshSlot (frame : DisplayFrame) : WebGLSlot :=
  { WebGLSlot.create 0 true (some frame) [] identityMatrix with _renderDisplay := true }

/-- A container at the origin with scale `(1, 1)`. -/
def plainDisplay : WebGLArmatureDisplay :=
  { _armature := none, x := 0, y := 0, scaleX := 1, scaleY := 1 }

/-- A container at `(5, 7)` with scale `(2, 1/2)`. -/
def movedDisplay : WebGLArmatureDisplay :=
  { _armature := none, x := 5, y := 7, scaleX := 2, scaleY := 1 / 2 }

/-- A visible fresh slot showing a rotated, untrimmed 64 x 32 region with pivot `(0, 0)`. -/
def rotatedSlot : WebGLSlot := freshSlot (imageFrame (plainTexture 0 0 64 32 true))

/-- A visible fresh slot showing the region `{0, 0, 64, 64}` of a 128 x 128 atlas, not rotated,
not trimmed, with pivot `(0, 0)`. -/
def quadSlot : WebGLSlot := freshSlot (imageFrame (plainTexture 0 0 64 64 false))

/-- A visible slot with the buffers of a 64 x 64 quad, a slot matrix that scales by `(2, 3)` and
translates by `(10, 20)`. -/
def scaledQuadSlot : WebGLSlot :=
  { quadSlot with
    _indices := some [0, 1, 2, 0, 2, 3]
    _uvs := some [0, 0, 1 / 2, 0, 1 / 2, 1 / 2, 0, 1 / 2]
    _localVertices := some [0, 0, 64, 0, 64, 64, 0, 64]
    _resultVertices := some [0, 0, 0, 0, 0, 0, 0, 0]
    globalTransformMatrix := { a := 2, b := 0, c := 0, d := 3, tx := 10, ty := 20 } }

/-- A bone whose global matrix translates by `(10, 20)`. -/
def bone0 : Bone :=
  { globalTransformMatrix := { a := 1, b := 0, c := 0, d := 1, tx := 10, ty := 20 } }

/-- A weight table for two vertices with two influences each, over the bones `0` and `1`. -/
def skinTable : List (List Influence) :=
  [[{ bone := 0, weight := 1 / 2, x := 2, y := 0 }, { bone := 1, weight := 1 / 2, x := 4, y := 6 }],
   [{ bone := 1, weight := 1, x := 1, y := 1 }, { bone := 0, weight := 1, x := 3, y := 5 }]]

/-- A geometry of two vertices and one triangle that carries `skinTable`: the header and the
triangle take `intArray[0..6]`, the weight header `intArray[7..10]`, the table the rest; the
floats hold two vertices, two UVs and then the weights from position `8`. -/
def skinGeometry : GeometryData :=
  { intArray := [2, 1, 0, 7, 0, 1, 0, 2, 8, 0, 1, 2, 0, 1, 2, 1, 0]
    floatArray := [0, 0, 1, 1, 0, 0, 1, 1, 1 / 2, 2, 0, 1 / 2, 4, 6, 1, 1, 1, 1, 3, 5]
    offset := 0
    weight := some { offset := 7, bones := [0, 1] } }

/-- One influence per vertex, bone `0` at weight `1`, for the points `(2, 3)` and `(4, 5)`. -/
def oneBoneInfluences : List Influence :=
  [{ bone := 0, weight := 1, x := 2, y := 3 }, { bone := 0, weight := 1, x := 4, y := 5 }]

/-- A geometry of two vertices that carries `oneBoneInfluences`, one influence per vertex. -/
def oneBoneGeometry : GeometryData :=
  { intArray := [2, 1, 0, 7, 0, 1, 0, 1, 8, 0, 1, 0, 1, 0]
    floatArray := [0, 0, 0, 0, 0, 0, 0, 0, 1, 2, 3, 1, 4, 5]
    offset := 0
    weight := some { offset := 7, bones := [0] } }

/-- A mesh display over the given geometry. -/
def meshDisplay (geometry : GeometryData) : DisplayData :=
  { type := 2, pivot := { x := 0, y := 0 }, geometry := geometry }

/-- The frame of a mesh display over the given geometry, on a 64 x 64 texture. -/
def meshFrame (geometry : GeometryData) : DisplayFrame :=
  { textureData := some (plainTexture 0 0 64 64 false)
    displayData := some (meshDisplay geometry)
    rawDisplayData := none
    deformVertices := [] }

/-- A visible slot with the buffers of a two-vertex mesh over the given geometry. -/
def meshSlot (geometry : GeometryData) (bones : List (Option Bone)) : WebGLSlot :=
  { freshSlot (meshFrame geometry) with
    _geometryBones := bones
    _indices := some [0, 1, 0]
    _uvs := some [0, 0, 1, 1]
    _localVertices := some [0, 0, 0, 0]
    _resultVertices := some [0, 0, 0, 0] }

/-- A visible slot with the slot matrix of `bone0` and the local vertices `(2, 3)`, `(4, 5)`. -/
def rigidSlot : WebGLSlot :=
  { freshSlot (imageFrame (plainTexture 0 0 64 64 false)) with
    _indices := some [0, 1, 0]
    _uvs := some [0, 0, 1, 1]
    _localVertices := some [2, 3, 4, 5]
    _resultVertices := some [0, 0, 0, 0]
    globalTransformMatrix := bone0.globalTransformMatrix }

/-- The runtime assigns a new display frame to the slot. -/
def WebGLSlot.setDisplayFrame (s : WebGLSlot) (frame : DisplayFrame) : WebGLSlot :=
  { s with _displayFrame := some frame }

/-- A frame of an image display whose `getTextureData()` is `null`. -/
def texturelessFrame : DisplayFrame :=
  { textureData := none
    displayData := some (imageDisplay 0 0)
    rawDisplayData := none
    deformVertices := [] }

/-- The slot `quadSlot` after `_updateFrame`: the buffers of the 64 x 64 quad. -/
def builtQuadSlot : WebGLSlot :=
  { quadSlot with
    _indices := some [0, 1, 2, 0, 2, 3]
    _uvs := some [0, 0, 1 / 2, 0, 1 / 2, 1 / 2, 0, 1 / 2]
    _localVertices := some [0, 0, 64, 0, 64, 64, 0, 64]
    _resultVertices := some [0, 0, 0, 0, 0, 0, 0, 0] }

/-- A built quad slot that the runtime has made invisible. -/
def invisibleSlot : WebGLSlot := { builtQuadSlot with _visible := false }

/-- A built quad slot whose frame the runtime has replaced by one without texture data. -/
def staleSlot : WebGLSlot := builtQuadSlot.setDisplayFrame texturelessFrame

/-- A fresh visible slot showing a frame without texture data. -/
def emptySlot : WebGLSlot := freshSlot texturelessFrame

/-- The two floats the UV loop of `_updateFrame` stores for a geometry UV `(u, v)` of a mesh. -/
def WebGLSlot.meshUv (textureData : TextureData) (w h u v : ℚ) : ℚ × ℚ :=
  let region := textureData.region
  if textureData.rotated then
    ((region.x + (1 - v) * region.width) / w, (region.y + u * region.height) / h)
  else
    ((region.x + u * region.width) / w, (region.y + v * region.height) / h)

/-- The vertex count of the geometry a frame builds: `intArray[geom.offset + 0]` for a mesh,
`4` for a quad. -/
def DisplayFrame.vertexCount (frame : DisplayFrame) : Nat :=
  match frame.display with
  | some d => if d.type = 2 then d.geometry.intArray.getD (d.geometry.offset + 0) 0 else 4
  | none => 4

/-- The UV buffer of a mesh of `n` vertices after the UV loop of `_updateFrame`: one remapped
pair per vertex, read from `floatArray` at `uvOffset`. -/
def WebGLSlot.meshUvs (textureData : TextureData) (w h : ℚ) (floatArray : List ℚ)
    (uvOffset n : Nat) : List ℚ :=
  (List.range n).flatMap (fun i =>
    [(WebGLSlot.meshUv textureData w h (floatArray.getD (uvOffset + i * 2) 0)
        (floatArray.getD (uvOffset + i * 2 + 1) 0)).1,
     (WebGLSlot.meshUv textureData w h (floatArray.getD (uvOffset + i * 2) 0)
        (floatArray.getD (uvOffset + i * 2 + 1) 0)).2])

/-- A mesh geometry of four vertices and two triangles with the indices `0 1 3` and `1 2 3`;
the floats hold the four vertices, then the UVs `(0,0) (1,0) (1,1) (0,1)`. -/
def twoTriangleGeometry : GeometryData :=
  { intArray := [4, 2, 0, 0, 0, 1, 3, 1, 2, 3]
    floatArray := [0, 0, 10, 0, 10, 10, 0, 10, 0, 0, 1, 0, 1, 1, 0, 1]
    offset := 0
    weight := none }

/-- A fresh visible slot showing the mesh `twoTriangleGeometry`. -/
def twoTriangleSlot : WebGLSlot := freshSlot (meshFrame twoTriangleGeometry)

/-- The slot `twoTriangleSlot` after `_updateFrame`. -/
def builtMeshSlot : WebGLSlot :=
  { twoTriangleSlot with
    _indices := some [0, 1, 3, 1, 2, 3]
    _uvs := some [0, 0, 1 / 2, 0, 1 / 2, 1 / 2, 0, 1 / 2]
    _localVertices := some [0, 0, 0, 0, 0, 0, 0, 0]
    _resultVertices := some [0, 0, 0, 0, 0, 0, 0, 0] }

/-- A 64 x 64 region in `atlas128` trimmed from a 100 x 80 original: the trim frame is
`{x: -5, y: -3, width: 100, height: 80}`. -/
def trimmedTexture : TextureData :=
  { region := { x := 0, y := 0, width := 64, height := 64 }
    rotated := false
    frame := some { x := -5, y := -3, width := 100, height := 80 }
    parent := atlas128 }

/-- A fresh visible slot showing an image with pivot `(0, 0)` on `trimmedTexture`. -/
def trimmedSlot : WebGLSlot := freshSlot (imageFrame trimmedTexture)

/-- Display data of type `1`, neither image nor mesh. -/
def otherDisplay : DisplayData :=
  { type := 1, pivot := { x := 1 / 2, y := 1 / 2 }, geometry := noGeometry }

/-- A frame with texture data whose display data has type `1`. -/
def otherFrame : DisplayFrame :=
  { textureData := some (plainTexture 0 0 64 64 false)
    displayData := some otherDisplay
    rawDisplayData := none
    deformVertices := [] }

/-- A fresh visible slot showing `otherFrame`. -/
def otherSlot : WebGLSlot := freshSlot otherFrame

/-- The frame of the mesh `twoTriangleGeometry` with the deform offsets
`1, 2, 3, 4, 5, 6, 7, 8` set by the runtime. -/
def deformedFrame : DisplayFrame :=
  { meshFrame twoTriangleGeometry with deformVertices := [1, 2, 3, 4, 5, 6, 7, 8] }

/-- The slot `builtMeshSlot` after the runtime has set the deform offsets of its frame. -/
def deformedMeshSlot : WebGLSlot := builtMeshSlot.setDisplayFrame deformedFrame

/-- The frame of the mesh `twoTriangleGeometry` on a rotated 64 x 32 region at `(0, 0)` of
`atlas128`. -/
def rotatedMeshFrame : DisplayFrame :=
  { meshFrame twoTriangleGeometry with textureData := some (plainTexture 0 0 64 32 true) }

/-- A fresh visible slot showing `rotatedMeshFrame`. -/
def rotatedMeshSlot : WebGLSlot := freshSlot rotatedMeshFrame

/-- The candidate inverse of the mesh UV remap, written from the remap formulas solved for the
geometry UV: it takes an atlas UV `(U, V)` back to `(u, v)`. -/
def meshUvInverse (textureData : TextureData) (w h : ℚ) (uv : ℚ × ℚ) : ℚ × ℚ :=
  let region := textureData.region
  if textureData.rotated then
    ((uv.2 * h - region.y) / region.height, 1 - (uv.1 * w - region.x) / region.width)
  else
    ((uv.1 * w - region.x) / region.width, (uv.2 * h - region.y) / region.height)

/-- The atlas pixel `(U * W, V * H)` that the mesh UV remap assigns to a geometry UV `(u, v)`. -/
def meshUvPixel (textureData : TextureData) (w h u v : ℚ) : ℚ × ℚ :=
  ((WebGLSlot.meshUv textureData w h u v).1 * w, (WebGLSlot.meshUv textureData w h u v).2 * h)

/-- One step in the life of a slot: a call of one of its methods, or the animation runtime
writing the fields it owns between two calls. -/
inductive SlotOp where
  | onClear : SlotOp
  | updateFrame : SlotOp
  | updateMesh : SlotOp
  | render : DragonBonesRenderer → WebGLArmatureDisplay → SlotOp
  | runtime : WebGLSlot → SlotOp

/-- The slot after one step; `none` when the call raises. The step `runtime t` takes every field
the runtime owns from `t` (display frame, visibility, colour, bones, matrix, render display) and
leaves the four buffers of the renderer as they are. -/
def SlotOp.apply (op : SlotOp) (s : WebGLSlot) : Option WebGLSlot :=
  match op with
  | SlotOp.onClear => some s._onClear
  | SlotOp.updateFrame => s._updateFrame
  | SlotOp.updateMesh => s._updateMesh
  | SlotOp.render renderer display => (s.render renderer display).map Prod.fst
  | SlotOp.runtime t =>
    some { t with
      _indices := s._indices
      _uvs := s._uvs
      _localVertices := s._localVertices
      _resultVertices := s._resultVertices }

/-- The slot after a sequence of steps; the sequence ends at the first call that raises. -/
def runOps (s : WebGLSlot) : List SlotOp → Option WebGLSlot
  | [] => some s
  | op :: rest =>
    match op.apply s with
    | some s1 => runOps s1 rest
    | none => none

/-- A container at the origin whose armature has the one slot `builtQuadSlot`. -/
def quadArmatureDisplay : WebGLArmatureDisplay :=
  { plainDisplay with _armature := some { slots := [ArmatureSlot.webgl builtQuadSlot] } }

/-- Rendering the slots one after the other, written as a left fold over `getSlots()`: each
`WebGLSlot` is rendered with the renderer as the slots before it left it; a slot of another
class is passed over; a raise ends the frame. -/
def renderInOrder (display : WebGLArmatureDisplay) (slots : List ArmatureSlot)
    (renderer : DragonBonesRenderer) : Option (List ArmatureSlot × DragonBonesRenderer) :=
  slots.foldl (fun acc slot => acc.bind (fun p =>
    match slot with
    | ArmatureSlot.other => some (p.1 ++ [ArmatureSlot.other], p.2)
    | ArmatureSlot.webgl s =>
      (s.render p.2 display).map (fun q => (p.1 ++ [ArmatureSlot.webgl q.1], q.2))))
    (some ([], renderer))

/-- A slot that submits a vertex whenever it submits an index: a non-empty `_indices` comes with
a `_resultVertices` of at least one pair. -/
def WebGLSlot.SubmitsVertex (s : WebGLSlot) : Prop :=
  ∀ idx res, s._indices = some idx → s._resultVertices = some res → idx ≠ [] → 2 ≤ res.length

/-- What one draw call draws: for each of its `count` indices, in order, the bound texture and
the eight floats the index resolves to in the uploaded vertex data, read with a stride of
`VERTEX_SIZE` floats as the three `vertexAttribPointer` calls of `flush` set it. -/
def DrawCall.drawn (d : DrawCall) : List (Texture × List ℚ) :=
  (d.indexData.take d.count).map
    (fun k => (d.texture, (d.vertexData.drop (k * VERTEX_SIZE)).take VERTEX_SIZE))

/-- What a submission draws by itself: for each of its indices, in order, its texture and the
record `[x, y, u, v, color0, color1, color2, color3]` of the vertex the index names. -/
def Mesh.drawnAlone (t : Texture) (m : Mesh) : List (Texture × List ℚ) :=
  m.indices.map (fun k => (t, vertexRecord m.vertices m.uvs m.color k))

/-- The draw call of a mesh drawn with its own draw call: its records, its indices as they
are, its texture. -/
def Mesh.ownDraw (t : Texture) (m : Mesh) : DrawCall :=
  { texture := t, vertexData := m.records, indexData := m.indices, count := m.numIndices }

/-- The draw call that `flush()` issues when vertices are pending. -/
def DragonBonesRenderer.pendingDraw (r : DragonBonesRenderer) : DrawCall :=
  { texture := r.currentTexture
    vertexData := subarray r.vertices VERTICES_LENGTH (r.vertexCount * VERTEX_SIZE)
    indexData := subarray r.indices INDICES_LENGTH r.indexCount
    count := r.indexCount }

/-- A renderer state between two calls of a frame: both counts within capacity, no index
pending without a vertex, and every pending index below the number of pending vertices. -/
def DragonBonesRenderer.WellStaged (r : DragonBonesRenderer) : Prop :=
  r.vertexCount ≤ MAX_VERTICES ∧ r.indexCount ≤ MAX_INDICES ∧
    (r.vertexCount = 0 → r.indexCount = 0) ∧ ∀ j, j < r.indexCount → r.indices j < r.vertexCount

/-- The conditions on a submission: whole vertex pairs, one UV pair per vertex, four colour
components, within the capacity by itself, and every index below its own vertex count. -/
def Mesh.Submittable (m : Mesh) : Prop :=
  m.vertices.length % 2 = 0 ∧ m.uvs.length = m.vertices.length ∧ m.color.length = 4 ∧
    m.numVerts ≤ MAX_VERTICES ∧ m.numIndices ≤ MAX_INDICES ∧ ∀ k ∈ m.indices, k < m.numVerts

/-- The calls of one frame: `begin()`, the submissions in order, one `flush()`. -/
def frameCalls (subs : List (Texture × Mesh)) : List Call :=
  Call.begin :: subs.map (fun p => Call.renderMesh p.1 p.2) ++ [Call.flush]

/-- A frame of three submissions: two quads with texture `0`, then one point with texture `1`. -/
def twoTextureFrame : List (Texture × Mesh) :=
  [(some 0, quadMesh), (some 0, quadMesh), (some 1, pointMesh 0)]

/-! ## Stores into a `Float32Array` -/

/-- Rounding of a rational to the nearest integer, a tie going to the even one. -/
def roundHalfEven (y : ℚ) : ℤ :=
  let f := ⌊y⌋
  if y - f < 1 / 2 then f
  else if 1 / 2 < y - f then f + 1
  else if f % 2 = 0 then f else f + 1

/-- Conversion of a number to an element of a `Float32Array`, which is `Math.fround`: the
nearest value with a significand of 24 bits, a tie going to the even significand, with the
exponent not below `-126`. A number that a `Float32Array` turns into `Infinity` is not
covered. -/
def fround (x : ℚ) : ℚ :=
  if x = 0 then 0
  else
    let e := max (Int.log 2 |x|) (-126)
    roundHalfEven (x / 2 ^ (e - 23)) * 2 ^ (e - 23)

/-- Body of the outer loop of the skinning path of `_updateMesh`, with the conversion that the
two stores into the `Float32Array` `result` apply written as `store`. -/
def WebGLSlot.skinVertexBodyWith (store : ℚ → ℚ) (geometryBones : List (Option Bone))
    (boneIndices : List Nat) (rawVertices : List ℚ) (st : Nat × Nat × List ℚ) (i : Nat) :
    Nat × Nat × List ℚ :=
  let iB := st.1
  let weightFloatIndex := st.2.1
  let result := st.2.2
  let boneCount := boneIndices.getD iB 0
  let inner := (List.range boneCount).foldl
    (WebGLSlot.skinInfluenceBody geometryBones boneIndices rawVertices)
    (iB + 1, weightFloatIndex, 0, 0)
  (inner.1, inner.2.1,
    (result.set (i * 2) (store inner.2.2.1)).set (i * 2 + 1) (store inner.2.2.2))

/-- Body of the loop of the unweighted path of `_updateMesh`, with the conversion of the two
stores into `result` written as `store`. -/
def WebGLSlot.deformVertexBodyWith (store : ℚ → ℚ) (rawVertices : List ℚ)
    (verticesOffset : Nat) (deformVertices : List ℚ) (result : List ℚ) (i : Nat) : List ℚ :=
  let hasDeform := deformVertices.length > 0
  let x := rawVertices.getD (verticesOffset + i * 2) 0
  let y := rawVertices.getD (verticesOffset + i * 2 + 1) 0
  let x := if hasDeform then x + deformVertices.getD (i * 2) 0 else x
  let y := if hasDeform then y + deformVertices.getD (i * 2 + 1) 0 else y
  (result.set (i * 2) (store x)).set (i * 2 + 1) (store y)

/-- Method `_updateMesh()`, with the conversion that a store into the `Float32Array`
`_localVertices` applies written as `store`. With `fround` for `store` the stores round as the
typed array does; with `id` this is `_updateMesh`, where the stores are exact. -/
def WebGLSlot._updateMeshWith (store : ℚ → ℚ) (s : WebGLSlot) : Option WebGLSlot :=
  match s._displayFrame with
  | none => some s
  | some frame =>
    match frame.display with
    | none => some s
    | some displayData =>
      if displayData.type ≠ 2 then some s
      else
        let geom := displayData.geometry
        let rawVertices := geom.floatArray
        let verticesOffset := geom.intArray.getD (geom.offset + 2) 0
        let deformVertices := frame.deformVertices
        match s._localVertices with
        | none => none
        | some result =>
          match geom.weight with
          | some weight =>
            let boneIndices := geom.intArray
            let iB := weight.offset + 2 + weight.bones.length
            let weightFloatIndex := geom.intArray.getD (weight.offset + 1) 0
            let numVerts := result.length / 2
            let out := (List.range numVerts).foldl
              (WebGLSlot.skinVertexBodyWith store s._geometryBones boneIndices rawVertices)
              (iB, weightFloatIndex, result)
            some { s with _localVertices := some out.2.2 }
          | none =>
            let numVerts := result.length / 2
            let out := (List.range numVerts).foldl
              (WebGLSlot.deformVertexBodyWith store rawVertices verticesOffset deformVertices)
              result
            some { s with _localVertices := some out }

/-- Body of the loop of the skinned branch of `render`, with the conversion of the two stores
into `result` written as `store`. -/
def WebGLSlot.skinnedResultBodyWith (store : ℚ → ℚ) (loc : List ℚ) (x y sx sy : ℚ)
    (result : List ℚ) (i : Nat) : List ℚ :=
  (result.set (i * 2) (store (loc.getD (i * 2) 0 * sx + x))).set (i * 2 + 1)
    (store (loc.getD (i * 2 + 1) 0 * sy + y))

/-- Body of the loop of the rigid branch of `render`, with the conversion of the two stores
into `result` written as `store`. -/
def WebGLSlot.rigidResultBodyWith (store : ℚ → ℚ) (loc : List ℚ) (m : Matrix)
    (x y sx sy : ℚ) (result : List ℚ) (i : Nat) : List ℚ :=
  let lx := loc.getD (i * 2) 0
  let ly := loc.getD (i * 2 + 1) 0
  let rawX := m.a * lx + m.c * ly + m.tx
  let rawY := m.b * lx + m.d * ly + m.ty
  (result.set (i * 2) (store (rawX * sx + x))).set (i * 2 + 1) (store (rawY * sy + y))

/-- Method `render(renderer, display)`, with the conversion that a store into the
`Float32Array` `_resultVertices` applies written as `store`. With `fround` for `store` the stores
round as the typed array does; with `id` this is `render`, where the stores are exact. The
array handed to `renderMesh` holds values already converted. -/
def WebGLSlot.renderWith (store : ℚ → ℚ) (s : WebGLSlot) (renderer : DragonBonesRenderer)
    (display : WebGLArmatureDisplay) : Option (WebGLSlot × DragonBonesRenderer) :=
  if s.hidden then some (s, renderer)
  else
    match s._localVertices with
    | none => some (s, renderer)
    | some loc =>
      match s._displayFrame with
      | none => none
      | some frame =>
        let displayData := frame.display
        let count := loc.length / 2
        let x := display.x
        let y := display.y
        let sx := display.scaleX
        let sy := display.scaleY
        match s._resultVertices with
        | none => none
        | some result0 =>
          let result :=
            if hasWeight displayData then
              (List.range count).foldl
                (WebGLSlot.skinnedResultBodyWith store loc x y sx sy) result0
            else
              (List.range count).foldl
                (WebGLSlot.rigidResultBodyWith store loc s.globalTransformMatrix x y sx sy)
                result0
          match frame.textureData with
          | none => none
          | some textureData =>
            let textureAtlasData := textureData.parent
            match s._indices with
            | none => none
            | some indices =>
              match s._uvs with
              | some uvs =>
                some ({ s with _resultVertices := some result },
                  renderer.renderMesh textureAtlasData.renderTexture result uvs indices s._color)
              | none =>
                if result.length / 2 = 0 then
                  some ({ s with _resultVertices := some result },
                    renderer.renderMesh textureAtlasData.renderTexture result [] indices
                      s._color)
                else none

/-- A matrix that scales `x` by `1 + 2^-30`, a number that a JavaScript double holds exactly and
a `Float32Array` element does not. -/
def nearIdentity : Matrix := { a := 1 + 1 / 2 ^ 30, b := 0, c := 0, d := 1, tx := 0, ty := 0 }

/-- One influence per vertex for the one point `(1, 0)`: bone `0` at weight `1`. -/
def unitInfluences : List Influence := [{ bone := 0, weight := 1, x := 1, y := 0 }]

/-- A geometry of one vertex that carries `unitInfluences`: the header takes `intArray[0..3]`,
the weight header and its bone list `intArray[4..6]`, the table the rest; the floats hold one
vertex, one UV and then the triple `weight, x, y` from position `4`. -/
def unitGeometry : GeometryData :=
  { intArray := [1, 0, 0, 4, 1, 4, 0, 1, 0]
    floatArray := [0, 0, 0, 0, 1, 1, 0]
    offset := 0
    weight := some { offset := 4, bones := [0] } }

/-- A visible slot with the buffers of the one-vertex mesh `unitGeometry`, skinned to one bone
with the global matrix `M`. -/
def unitSkinSlot (M : Matrix) : WebGLSlot :=
  { freshSlot (meshFrame unitGeometry) with
    _geometryBones := [some { globalTransformMatrix := M }]
    _indices := some []
    _uvs := some [0, 0]
    _localVertices := some [0, 0]
    _resultVertices := some [0, 0] }

/-- A visible slot with the slot matrix `M` and the one local vertex `(1, 0)`. -/
def unitRigidSlot (M : Matrix) : WebGLSlot :=
  { freshSlot (imageFrame (plainTexture 0 0 64 64 false)) with
    _indices := some []
    _uvs := some [0, 0]
    _localVertices := some [1, 0]
    _resultVertices := some [0, 0]
    globalTransformMatrix := M }

/-- A container at `(-1, 0)` with scale `(1, 1)`. -/
def shiftedDisplay : WebGLArmatureDisplay :=
  { _armature := none, x := -1, y := 0, scaleX := 1, scaleY := 1 }

end DragonBonesWebGL

namespace DragonBonesWebGL

open DragonBonesRenderer

/-! ## Lists -/

theorem range_map_getD (idx : List Nat) (g : Nat → Nat) :
    (List.range idx.length).map (fun t => g (idx.getD t 0)) = idx.map g := by
  apply List.ext_getElem
  · simp
  · intro n h1 h2
    simp at h1
    simp [List.getElem?_eq_getElem h1]

theorem getElem?_append_add {α : Type} (A L : List α) (k : Nat) :
    (A ++ L)[A.length + k]? = L[k]? := by
  rw [List.getElem?_append_right (by omega)]
  congr 1
  omega

theorem getD_append_add {α : Type} (A L : List α) (k : Nat) (d : α) :
    (A ++ L).getD (A.length + k) d = L.getD k d := by
  rw [List.getD_eq_getElem?_getD, List.getD_eq_getElem?_getD, getElem?_append_add]

theorem foldl_range_ignore {σ : Type} (g : σ → Nat → σ) (hg : ∀ st i j, g st i = g st j)
    (n : Nat) (st : σ) :
    (List.range (n + 1)).foldl g st = (List.range n).foldl g (g st 0) := by
  induction n with
  | zero => rfl
  | succ n ih =>
    rw [List.range_succ, List.foldl_append, ih]
    conv_rhs => rw [List.range_succ, List.foldl_append]
    simp only [List.foldl_cons, List.foldl_nil]
    exact hg _ _ _

theorem range_flatMap_congr (f g : Nat → List ℚ) (n : Nat) (h : ∀ i, i < n → f i = g i) :
    (List.range n).flatMap f = (List.range n).flatMap g := by
  induction n with
  | zero => rfl
  | succ n ih =>
    rw [List.range_succ, List.flatMap_append, List.flatMap_append,
      ih (fun i hi => h i (by omega))]
    simp [h n (by omega)]

theorem set_set_pair (A tl : List ℚ) (a b X Y : ℚ) (n : Nat) (hn : A.length = n) :
    ((A ++ a :: b :: tl).set n X).set (n + 1) Y = A ++ X :: Y :: tl := by
  subst hn
  rw [List.set_append_right _ _ (le_refl _), Nat.sub_self, List.set_cons_zero,
    List.set_append_right _ _ (Nat.le_succ _)]
  simp

/-- The list of pairs `[g1 0, g2 0, g1 1, g2 1, ...]` for `n` vertices. -/
theorem pairs_length (g1 g2 : Nat → ℚ) (n : Nat) :
    ((List.range n).flatMap (fun i => [g1 i, g2 i])).length = 2 * n := by
  induction n with
  | zero => rfl
  | succ n ih =>
    rw [List.range_succ, List.flatMap_append, List.length_append, ih]
    simp
    omega

theorem pairs_getElem? (g1 g2 : Nat → ℚ) (n i : Nat) (hi : i < n) :
    ((List.range n).flatMap (fun i => [g1 i, g2 i]))[2 * i]? = some (g1 i) ∧
      ((List.range n).flatMap (fun i => [g1 i, g2 i]))[2 * i + 1]? = some (g2 i) := by
  induction n with
  | zero => omega
  | succ n ih =>
    rw [List.range_succ, List.flatMap_append]
    by_cases h : i < n
    · have hlen := pairs_length g1 g2 n
      rw [List.getElem?_append_left (by omega), List.getElem?_append_left (by omega)]
      exact ih h
    · have hin : i = n := by omega
      subst hin
      have hlen := pairs_length g1 g2 i
      rw [List.getElem?_append_right (by omega), List.getElem?_append_right (by omega), hlen]
      simp

theorem pair_fold (g1 g2 : Nat → ℚ) (res : List ℚ) (n : Nat) (h : 2 * n ≤ res.length) :
    (List.range n).foldl (fun acc i => (acc.set (i * 2) (g1 i)).set (i * 2 + 1) (g2 i)) res =
      (List.range n).flatMap (fun i => [g1 i, g2 i]) ++ res.drop (2 * n) := by
  induction n with
  | zero => simp
  | succ n ih =>
    rw [List.range_succ, List.foldl_append, ih (by omega), List.flatMap_append]
    simp only [List.foldl_cons, List.foldl_nil, List.flatMap_singleton, List.flatMap_nil,
      List.append_nil, List.append_assoc, List.cons_append, List.nil_append]
    have h1 : 2 * n < res.length := by omega
    have h2 : 2 * n + 1 < res.length := by omega
    have hd : res.drop (2 * n) = res[2 * n] :: res[2 * n + 1] :: res.drop (2 * (n + 1)) := by
      rw [List.drop_eq_getElem_cons h1, List.drop_eq_getElem_cons h2]
      rfl
    rw [hd]
    exact set_set_pair _ _ _ _ _ _ (n * 2) (by rw [pairs_length]; omega)

theorem pair_fold_full (g1 g2 : Nat → ℚ) (res : List ℚ) (n : Nat) (h : res.length = 2 * n) :
    (List.range n).foldl (fun acc i => (acc.set (i * 2) (g1 i)).set (i * 2 + 1) (g2 i)) res =
      (List.range n).flatMap (fun i => [g1 i, g2 i]) := by
  rw [pair_fold g1 g2 res n (by omega), List.drop_of_length_le (by omega), List.append_nil]

theorem flatMap_pair_length {α : Type} (L : List α) (f g : α → ℚ) :
    (L.flatMap (fun x => [f x, g x])).length = 2 * L.length := by
  induction L with
  | nil => rfl
  | cons a L ih =>
    rw [List.flatMap_cons, List.length_append, ih, List.length_cons]
    simp
    omega

theorem flatMap_pair_getElem? {α : Type} (L : List α) (F G : α → ℚ) :
    ∀ i, (L.flatMap (fun x => [F x, G x]))[2 * i]? = L[i]?.map F ∧
      (L.flatMap (fun x => [F x, G x]))[2 * i + 1]? = L[i]?.map G := by
  induction L with
  | nil =>
    intro i
    simp
  | cons a L ih =>
    intro i
    cases i with
    | zero => simp
    | succ i =>
      have e1 : 2 * (i + 1) = 2 * i + 1 + 1 := by omega
      rw [e1]
      simpa using ih i

theorem flatMap_pair_getD {α : Type} (L : List α) (F G : α → ℚ) (i : Nat) (hi : i < L.length) :
    (L.flatMap (fun x => [F x, G x])).getD (i * 2) 0 = F L[i] ∧
      (L.flatMap (fun x => [F x, G x])).getD (i * 2 + 1) 0 = G L[i] := by
  have h := flatMap_pair_getElem? L F G i
  rw [List.getElem?_eq_getElem hi, Nat.mul_comm] at h
  rw [List.getD_eq_getElem?_getD, List.getD_eq_getElem?_getD, h.1, h.2]
  exact ⟨rfl, rfl⟩

/-! ## Views of the staging buffers -/

theorem subarray_length {α : Type} (f : Nat → α) (len e : Nat) :
    (subarray f len e).length = min e len := by
  simp [subarray]

theorem subarray_zero {α : Type} (f : Nat → α) (len : Nat) : subarray f len 0 = [] := by
  simp [subarray]

theorem subarray_congr {α : Type} (f g : Nat → α) (len e : Nat)
    (h : ∀ j, j < e → j < len → f j = g j) : subarray f len e = subarray g len e := by
  unfold subarray
  apply List.map_congr_left
  intro j hj
  rw [List.mem_range] at hj
  exact h j (by omega) (by omega)

theorem subarray_add {α : Type} (f : Nat → α) (len e k : Nat) (h : e + k ≤ len) :
    subarray f len (e + k) = subarray f len e ++ (List.range k).map (fun t => f (e + t)) := by
  unfold subarray
  rw [min_eq_left h, min_eq_left (by omega : e ≤ len), List.range_add, List.map_append,
    List.map_map]
  rfl

/-- The staged vertex floats after the first loop: the pending prefix followed by the records
of the first `n` vertices. -/
theorem subarray_records (v u c : List ℚ) (buf F : Nat → ℚ) (v0 N : Nat)
    (hlo : ∀ j, j < v0 * 8 → F j = buf j)
    (hhi : ∀ j, v0 * 8 ≤ j → j < (v0 + N) * 8 →
      F j = (vertexRecord v u c ((j - v0 * 8) / 8)).getD ((j - v0 * 8) % 8) 0)
    (n : Nat) (hn : n ≤ N) (hcap : (v0 + N) * 8 ≤ VERTICES_LENGTH) :
    subarray F VERTICES_LENGTH ((v0 + n) * 8) =
      subarray buf VERTICES_LENGTH (v0 * 8) ++ (List.range n).flatMap (vertexRecord v u c) := by
  induction n with
  | zero =>
    simp only [Nat.add_zero, List.range_zero, List.flatMap_nil, List.append_nil]
    exact subarray_congr _ _ _ _ (fun j hj _ => hlo j hj)
  | succ n ih =>
    have e1 : (v0 + (n + 1)) * 8 = (v0 + n) * 8 + 8 := by ring
    rw [e1, subarray_add _ _ _ _ (by omega), ih (by omega),
      show List.range (n + 1) = List.range n ++ [n] from List.range_succ n,
      List.flatMap_append, List.append_assoc]
    congr 1
    congr 1
    simp only [List.flatMap_singleton, List.flatMap_nil, List.append_nil]
    have hrec : ∀ t, t < 8 →
        F ((v0 + n) * 8 + t) = (vertexRecord v u c n).getD t 0 := by
      intro t ht
      rw [hhi _ (by omega) (by omega)]
      have hq : ((v0 + n) * 8 + t - v0 * 8) / 8 = n := by omega
      have hr : ((v0 + n) * 8 + t - v0 * 8) % 8 = t := by omega
      rw [hq, hr]
    simp only [List.range_succ, List.range_zero, List.nil_append, List.map_cons, List.map_nil,
      List.map_append, List.cons_append]
    rw [hrec 0 (by omega), hrec 1 (by omega), hrec 2 (by omega), hrec 3 (by omega),
      hrec 4 (by omega), hrec 5 (by omega), hrec 6 (by omega), hrec 7 (by omega)]
    simp [vertexRecord]

/-! ## The two append loops of `renderMesh` -/

theorem vertexLoop_snd (v u c : List ℚ) (buf : Nat → ℚ) (off n : Nat) :
    ((List.range n).foldl (vertexLoopBody v u c) (buf, off)).2 = off + 8 * n := by
  induction n with
  | zero => simp
  | succ n ih =>
    rw [List.range_succ, List.foldl_append]
    simp only [List.foldl_cons, List.foldl_nil, vertexLoopBody, ih]
    omega

theorem vertexLoop_fst (v u c : List ℚ) (buf : Nat → ℚ) (off n j : Nat) :
    ((List.range n).foldl (vertexLoopBody v u c) (buf, off)).1 j =
      if off ≤ j ∧ j < off + 8 * n ∧ j < VERTICES_LENGTH then
        (vertexRecord v u c ((j - off) / 8)).getD ((j - off) % 8) 0
      else buf j := by
  induction n with
  | zero =>
    rw [if_neg (by omega)]
    rfl
  | succ n ih =>
    rw [List.range_succ, List.foldl_append]
    simp only [List.foldl_cons, List.foldl_nil, vertexLoopBody, vertexLoop_snd, store, ih]
    by_cases hlt : j < off + 8 * n
    · have h9 : j < off + 8 * (n + 1) := by omega
      rw [if_neg (by omega), if_neg (by omega), if_neg (by omega), if_neg (by omega),
        if_neg (by omega), if_neg (by omega), if_neg (by omega), if_neg (by omega)]
      simp only [hlt, h9]
    · by_cases hge : off + 8 * (n + 1) ≤ j
      · rw [if_neg (by omega), if_neg (by omega), if_neg (by omega), if_neg (by omega),
          if_neg (by omega), if_neg (by omega), if_neg (by omega), if_neg (by omega),
          if_neg (by omega), if_neg (by omega)]
      · by_cases hin : j < VERTICES_LENGTH
        · have hq : (j - off) / 8 = n := by omega
          rw [if_pos (show off ≤ j ∧ j < off + 8 * (n + 1) ∧ j < VERTICES_LENGTH by omega), hq]
          obtain ⟨t, ht, rfl⟩ : ∃ t, t < 8 ∧ j = off + 8 * n + t :=
            ⟨j - (off + 8 * n), by omega, by omega⟩
          have hr : (off + 8 * n + t - off) % 8 = t := by omega
          rw [hr]
          interval_cases t
          · rw [if_neg (by omega), if_neg (by omega), if_neg (by omega), if_neg (by omega),
              if_neg (by omega), if_neg (by omega), if_neg (by omega), if_pos ⟨rfl, hin⟩]
            simp [vertexRecord, mul_comm]
          · rw [if_neg (by omega), if_neg (by omega), if_neg (by omega), if_neg (by omega),
              if_neg (by omega), if_neg (by omega), if_pos ⟨rfl, hin⟩]
            simp [vertexRecord, mul_comm]
          · rw [if_neg (by omega), if_neg (by omega), if_neg (by omega), if_neg (by omega),
              if_neg (by omega), if_pos ⟨rfl, hin⟩]
            simp [vertexRecord, mul_comm]
          · rw [if_neg (by omega), if_neg (by omega), if_neg (by omega), if_neg (by omega),
              if_pos ⟨rfl, hin⟩]
            simp [vertexRecord, mul_comm]
          · rw [if_neg (by omega), if_neg (by omega), if_neg (by omega), if_pos ⟨rfl, hin⟩]
            simp [vertexRecord]
          · rw [if_neg (by omega), if_neg (by omega), if_pos ⟨rfl, hin⟩]
            simp [vertexRecord]
          · rw [if_neg (by omega), if_pos ⟨rfl, hin⟩]
            simp [vertexRecord]
          · rw [if_pos ⟨rfl, hin⟩]
            simp [vertexRecord]
        · rw [if_neg (by omega), if_neg (by omega), if_neg (by omega), if_neg (by omega),
            if_neg (by omega), if_neg (by omega), if_neg (by omega), if_neg (by omega),
            if_neg (by omega), if_neg (by omega)]

theorem indexLoop_snd (base : Nat) (idx : List Nat) (buf : Nat → Nat) (off m : Nat) :
    ((List.range m).foldl (indexLoopBody base idx) (buf, off)).2 = off + m := by
  induction m with
  | zero => simp
  | succ m ih =>
    rw [List.range_succ, List.foldl_append]
    simp only [List.foldl_cons, List.foldl_nil, indexLoopBody, ih]
    omega

theorem indexLoop_fst (base : Nat) (idx : List Nat) (buf : Nat → Nat) (off m j : Nat) :
    ((List.range m).foldl (indexLoopBody base idx) (buf, off)).1 j =
      if off ≤ j ∧ j < off + m ∧ j < INDICES_LENGTH then toUint16 (base + idx.getD (j - off) 0)
      else buf j := by
  induction m with
  | zero =>
    rw [if_neg (by omega)]
    rfl
  | succ m ih =>
    rw [List.range_succ, List.foldl_append]
    simp only [List.foldl_cons, List.foldl_nil, indexLoopBody, indexLoop_snd, store, ih]
    by_cases hj : j = off + m ∧ off + m < INDICES_LENGTH
    · obtain ⟨rfl, hlt⟩ := hj
      rw [if_pos ⟨rfl, hlt⟩, if_pos (by omega)]
      simp
    · rw [if_neg hj]
      by_cases hlt : off ≤ j ∧ j < off + m ∧ j < INDICES_LENGTH
      · rw [if_pos hlt, if_pos (by omega)]
      · rw [if_neg hlt, if_neg (by omega)]

theorem VERTICES_LENGTH_eq : VERTICES_LENGTH = MAX_VERTICES * 8 := rfl

theorem renderMeshAppend_vertices (r : DragonBonesRenderer) (v u : List ℚ) (idx : List Nat)
    (c : List ℚ) (j : Nat) :
    (r.renderMeshAppend v u idx c).vertices j =
      if r.vertexCount * 8 ≤ j ∧ j < r.vertexCount * 8 + 8 * (v.length / 2) ∧
          j < VERTICES_LENGTH then
        (vertexRecord v u c ((j - r.vertexCount * 8) / 8)).getD ((j - r.vertexCount * 8) % 8) 0
      else r.vertices j := by
  simp only [renderMeshAppend, VERTEX_SIZE]
  exact vertexLoop_fst v u c r.vertices (r.vertexCount * 8) (v.length / 2) j

theorem renderMeshAppend_indices (r : DragonBonesRenderer) (v u : List ℚ) (idx : List Nat)
    (c : List ℚ) (j : Nat) :
    (r.renderMeshAppend v u idx c).indices j =
      if r.indexCount ≤ j ∧ j < r.indexCount + idx.length ∧ j < INDICES_LENGTH then
        toUint16 (r.vertexCount + idx.getD (j - r.indexCount) 0)
      else r.indices j := by
  simp only [renderMeshAppend]
  exact indexLoop_fst r.vertexCount idx r.indices r.indexCount idx.length j

theorem renderMeshAppend_subarray_vertices (r : DragonBonesRenderer) (v u : List ℚ)
    (idx : List Nat) (c : List ℚ) (hcap : r.vertexCount + v.length / 2 ≤ MAX_VERTICES) :
    subarray (r.renderMeshAppend v u idx c).vertices VERTICES_LENGTH
        ((r.vertexCount + v.length / 2) * 8) =
      subarray r.vertices VERTICES_LENGTH (r.vertexCount * 8) ++
        (List.range (v.length / 2)).flatMap (vertexRecord v u c) := by
  apply subarray_records v u c r.vertices _ r.vertexCount (v.length / 2) _ _ _ le_rfl
  · rw [VERTICES_LENGTH_eq]
    omega
  · intro j hj
    rw [renderMeshAppend_vertices, if_neg (by omega)]
  · intro j h1 h2
    rw [renderMeshAppend_vertices, if_pos]
    rw [VERTICES_LENGTH_eq]
    omega

theorem renderMeshAppend_subarray_indices (r : DragonBonesRenderer) (v u : List ℚ)
    (idx : List Nat) (c : List ℚ) (hcap : r.indexCount + idx.length ≤ MAX_INDICES) :
    subarray (r.renderMeshAppend v u idx c).indices INDICES_LENGTH
        (r.indexCount + idx.length) =
      subarray r.indices INDICES_LENGTH r.indexCount ++
        idx.map (fun k => toUint16 (r.vertexCount + k)) := by
  rw [subarray_add _ _ _ _ (by simpa [INDICES_LENGTH] using hcap)]
  congr 1
  · apply subarray_congr
    intro j hj _
    rw [renderMeshAppend_indices, if_neg (by omega)]
  · rw [← range_map_getD idx (fun k => toUint16 (r.vertexCount + k))]
    apply List.map_congr_left
    intro t ht
    rw [List.mem_range] at ht
    rw [renderMeshAppend_indices, if_pos]
    · simp
    · have : INDICES_LENGTH = MAX_INDICES := rfl
      omega

/-! ## `flush` and the guarded block of `renderMesh` -/

theorem flush_of_zero (r : DragonBonesRenderer) (h : r.vertexCount = 0) : r.flush = r := by
  simp [flush, h]

theorem flush_vertexCount (r : DragonBonesRenderer) : r.flush.vertexCount = 0 := by
  unfold flush
  split
  · assumption
  · rfl

theorem flush_indexCount (r : DragonBonesRenderer) :
    r.flush.indexCount = if r.vertexCount = 0 then r.indexCount else 0 := by
  unfold flush
  split <;> rfl

theorem flush_currentTexture (r : DragonBonesRenderer) :
    r.flush.currentTexture = r.currentTexture := by
  unfold flush
  split <;> rfl

theorem flush_vertices (r : DragonBonesRenderer) : r.flush.vertices = r.vertices := by
  unfold flush
  split <;> rfl

theorem flush_indices (r : DragonBonesRenderer) : r.flush.indices = r.indices := by
  unfold flush
  split <;> rfl

theorem flush_clears (r : DragonBonesRenderer) : r.flush.clears = r.clears := by
  unfold flush
  split <;> rfl

theorem flush_draws_of_pos (r : DragonBonesRenderer) (h : r.vertexCount ≠ 0) :
    r.flush.draws = r.draws ++
      [{ texture := r.currentTexture
         vertexData := subarray r.vertices VERTICES_LENGTH (r.vertexCount * VERTEX_SIZE)
         indexData := subarray r.indices INDICES_LENGTH r.indexCount
         count := r.indexCount }] := by
  simp [flush, h]

theorem renderMesh_vertexCount (r : DragonBonesRenderer) (t : Texture) (v u : List ℚ)
    (i : List Nat) (c : List ℚ) :
    (r.renderMesh t v u i c).vertexCount =
      (r.renderMeshFlush t (v.length / 2) i.length).vertexCount + v.length / 2 := rfl

theorem renderMesh_indexCount (r : DragonBonesRenderer) (t : Texture) (v u : List ℚ)
    (i : List Nat) (c : List ℚ) :
    (r.renderMesh t v u i c).indexCount =
      (r.renderMeshFlush t (v.length / 2) i.length).indexCount + i.length := rfl

theorem renderMesh_currentTexture (r : DragonBonesRenderer) (t : Texture) (v u : List ℚ)
    (i : List Nat) (c : List ℚ) :
    (r.renderMesh t v u i c).currentTexture =
      (r.renderMeshFlush t (v.length / 2) i.length).currentTexture := rfl

theorem renderMesh_draws (r : DragonBonesRenderer) (t : Texture) (v u : List ℚ)
    (i : List Nat) (c : List ℚ) :
    (r.renderMesh t v u i c).draws = (r.renderMeshFlush t (v.length / 2) i.length).draws := rfl

theorem renderMeshFlush_of_zero (r : DragonBonesRenderer) (t : Texture) (n m : Nat)
    (h : r.vertexCount = 0) :
    (r.renderMeshFlush t n m).vertexCount = 0 ∧
      (r.renderMeshFlush t n m).indexCount = r.indexCount := by
  unfold renderMeshFlush
  split
  · simp [flush_of_zero r h, h]
  · exact ⟨h, rfl⟩

theorem renderMeshFlush_currentTexture (r : DragonBonesRenderer) (t : Texture) (n m : Nat) :
    (r.renderMeshFlush t n m).currentTexture = t := by
  unfold renderMeshFlush
  split
  · rfl
  · rename_i h
    push_neg at h
    exact h.1

theorem renderMeshFlush_vertices (r : DragonBonesRenderer) (t : Texture) (n m : Nat) :
    (r.renderMeshFlush t n m).vertices = r.vertices := by
  unfold renderMeshFlush
  split
  · exact flush_vertices r
  · rfl

theorem renderMeshFlush_indices (r : DragonBonesRenderer) (t : Texture) (n m : Nat) :
    (r.renderMeshFlush t n m).indices = r.indices := by
  unfold renderMeshFlush
  split
  · exact flush_indices r
  · rfl

theorem renderMeshFlush_draws_of_zero (r : DragonBonesRenderer) (t : Texture) (n m : Nat)
    (h : r.vertexCount = 0) : (r.renderMeshFlush t n m).draws = r.draws := by
  unfold renderMeshFlush
  split
  · simp [flush_of_zero r h]
  · rfl

theorem renderMeshFlush_eq_self (r : DragonBonesRenderer) (t : Texture) (n m : Nat)
    (ht : r.currentTexture = t) (hv : r.vertexCount + n ≤ MAX_VERTICES)
    (hi : r.indexCount + m ≤ MAX_INDICES) : r.renderMeshFlush t n m = r := by
  unfold renderMeshFlush
  rw [if_neg]
  push_neg
  exact ⟨ht, hv, hi⟩

theorem renderMeshFlush_of_guard (r : DragonBonesRenderer) (t : Texture) (n m : Nat)
    (hg : r.currentTexture ≠ t ∨ r.vertexCount + n > MAX_VERTICES ∨
      r.indexCount + m > MAX_INDICES) (hpos : r.vertexCount ≠ 0) :
    (r.renderMeshFlush t n m).draws = r.draws ++
        [{ texture := r.currentTexture
           vertexData := subarray r.vertices VERTICES_LENGTH (r.vertexCount * 8)
           indexData := subarray r.indices INDICES_LENGTH r.indexCount
           count := r.indexCount }] ∧
      (r.renderMeshFlush t n m).vertexCount = 0 ∧ (r.renderMeshFlush t n m).indexCount = 0 := by
  unfold renderMeshFlush
  rw [if_pos hg]
  refine ⟨flush_draws_of_pos r hpos, flush_vertexCount r, ?_⟩
  show r.flush.indexCount = 0
  rw [flush_indexCount, if_neg hpos]

/-- In a state where no index is pending without a vertex, the guarded block leaves room for
a submission that fits the capacity by itself. -/
theorem renderMeshFlush_room (r : DragonBonesRenderer) (t : Texture) (n m : Nat)
    (hinv : r.vertexCount = 0 → r.indexCount = 0) (hn : n ≤ MAX_VERTICES)
    (hm : m ≤ MAX_INDICES) :
    (r.renderMeshFlush t n m).vertexCount + n ≤ MAX_VERTICES ∧
      (r.renderMeshFlush t n m).indexCount + m ≤ MAX_INDICES ∧
      ((r.renderMeshFlush t n m).vertexCount = 0 → (r.renderMeshFlush t n m).indexCount = 0) := by
  unfold renderMeshFlush
  split
  · simp only [flush_vertexCount, flush_indexCount]
    by_cases h0 : r.vertexCount = 0
    · simp [h0, hinv h0, hn, hm]
    · simp [h0, hn, hm]
  · rename_i h
    push_neg at h
    exact ⟨h.2.1, h.2.2, hinv⟩

theorem submit_vertexCount (r : DragonBonesRenderer) (t : Texture) (m : Mesh) :
    (r.submit t m).vertexCount =
      (r.renderMeshFlush t m.numVerts m.numIndices).vertexCount + m.numVerts := rfl

theorem submit_indexCount (r : DragonBonesRenderer) (t : Texture) (m : Mesh) :
    (r.submit t m).indexCount =
      (r.renderMeshFlush t m.numVerts m.numIndices).indexCount + m.numIndices := rfl

theorem submit_draws (r : DragonBonesRenderer) (t : Texture) (m : Mesh) :
    (r.submit t m).draws = (r.renderMeshFlush t m.numVerts m.numIndices).draws := rfl

theorem submit_currentTexture (r : DragonBonesRenderer) (t : Texture) (m : Mesh) :
    (r.submit t m).currentTexture = t :=
  renderMeshFlush_currentTexture r t m.numVerts m.numIndices

theorem submit_of_room (r : DragonBonesRenderer) (t : Texture) (m : Mesh)
    (ht : r.currentTexture = t) (hno : ¬ Overflows r m) :
    r.submit t m = r.renderMeshAppend m.vertices m.uvs m.indices m.color := by
  unfold Overflows at hno
  push_neg at hno
  have h := renderMeshFlush_eq_self r t m.numVerts m.numIndices ht hno.1 hno.2
  show (r.renderMeshFlush t m.numVerts m.numIndices).renderMeshAppend _ _ _ _ = _
  rw [h]

theorem map_toUint16_zero_add (idx : List Nat) (h : ∀ k ∈ idx, k < 65536) :
    idx.map (fun k => toUint16 (0 + k)) = idx := by
  conv_rhs => rw [← List.map_id idx]
  apply List.map_congr_left
  intro k hk
  simp [toUint16, Nat.mod_eq_of_lt (h k hk)]

/-! ## Capacity along a sequence of calls -/

/-- One call keeps the batcher within capacity and keeps "no index pending without a vertex". -/
theorem Call.apply_capacity (r : DragonBonesRenderer) (c : Call)
    (hfit : c.Fits) (hiv : c.IndexedHasVertex)
    (hr : r.vertexCount ≤ MAX_VERTICES ∧ r.indexCount ≤ MAX_INDICES ∧
      (r.vertexCount = 0 → r.indexCount = 0)) :
    (c.apply r).vertexCount ≤ MAX_VERTICES ∧ (c.apply r).indexCount ≤ MAX_INDICES ∧
      ((c.apply r).vertexCount = 0 → (c.apply r).indexCount = 0) := by
  cases c with
  | begin => simp [Call.apply, DragonBonesRenderer.begin]
  | flush =>
    simp only [Call.apply, flush_vertexCount, flush_indexCount]
    by_cases h0 : r.vertexCount = 0
    · simp [h0, hr.2.2 h0]
    · simp [h0]
  | renderMesh t m =>
    obtain ⟨heven, hv, hi⟩ := hfit
    have hn : m.vertices.length / 2 ≤ MAX_VERTICES := by
      unfold Mesh.EvenLength at heven
      omega
    obtain ⟨h1, h2, h3⟩ := renderMeshFlush_room r t (m.vertices.length / 2) m.indices.length
      hr.2.2 hn hi
    simp only [Call.apply, submit, renderMesh_vertexCount, renderMesh_indexCount]
    refine ⟨h1, h2, fun h => ?_⟩
    have hz : m.vertices.length / 2 = 0 := by omega
    have hi0 : m.indices.length = 0 := by
      rcases hiv with h | h
      · exact h
      · omega
    have := h3 (by omega)
    omega

theorem runCalls_append (r : DragonBonesRenderer) (xs ys : List Call) :
    runCalls r (xs ++ ys) = runCalls (runCalls r xs) ys := by
  simp [runCalls, List.foldl_append]

theorem runCalls_capacity (calls : List Call) (r : DragonBonesRenderer)
    (hcalls : ∀ c ∈ calls, c.Fits ∧ c.IndexedHasVertex)
    (hr : r.vertexCount ≤ MAX_VERTICES ∧ r.indexCount ≤ MAX_INDICES ∧
      (r.vertexCount = 0 → r.indexCount = 0)) :
    (runCalls r calls).vertexCount ≤ MAX_VERTICES ∧
      (runCalls r calls).indexCount ≤ MAX_INDICES ∧
      ((runCalls r calls).vertexCount = 0 → (runCalls r calls).indexCount = 0) := by
  induction calls generalizing r with
  | nil => simpa [runCalls] using hr
  | cons c cs ih =>
    have hc := hcalls c (List.mem_cons_self c cs)
    have := Call.apply_capacity r c hc.1 hc.2 hr
    simpa [runCalls] using ih (c.apply r) (fun d hd => hcalls d (List.mem_cons_of_mem c hd)) this

/-- From a freshly constructed renderer, after every call of a sequence of `begin`, `flush` and
`renderMesh` calls in which each submission fits the capacity by itself and has a vertex
whenever it has an index, `vertexCount <= MAX_VERTICES` and `indexCount <= MAX_INDICES`. -/
theorem capacity_invariant (calls : List Call)
    (h : ∀ c ∈ calls, c.Fits ∧ c.IndexedHasVertex) (k : Nat) :
    (runCalls create (calls.take k)).vertexCount ≤ MAX_VERTICES ∧
      (runCalls create (calls.take k)).indexCount ≤ MAX_INDICES := by
  have := runCalls_capacity (calls.take k) create
    (fun c hc => h c (List.mem_of_mem_take hc)) (by simp [create])
  exact ⟨this.1, this.2.1⟩

/-! ## A run of submissions that stays within capacity -/

theorem submitAll_cons (r : DragonBonesRenderer) (t : Texture) (m : Mesh) (ms : List Mesh) :
    submitAll r t (m :: ms) = submitAll (r.submit t m) t ms := rfl

/-- A run of submissions with the bound texture, none of which crosses a capacity, issues no
draw call and leaves the batch staged behind what was pending. -/
theorem submitAll_batch (ms : List Mesh) (r : DragonBonesRenderer) (t : Texture)
    (ht : r.currentTexture = t)
    (hno : ∀ j (hj : j < ms.length), ¬ Overflows (submitAll r t (ms.take j)) ms[j]) :
    (submitAll r t ms).draws = r.draws ∧
    (submitAll r t ms).currentTexture = t ∧
    (submitAll r t ms).vertexCount = r.vertexCount + (ms.map Mesh.numVerts).sum ∧
    (submitAll r t ms).indexCount = r.indexCount + (ms.map Mesh.numIndices).sum ∧
    subarray (submitAll r t ms).vertices VERTICES_LENGTH ((submitAll r t ms).vertexCount * 8) =
      subarray r.vertices VERTICES_LENGTH (r.vertexCount * 8) ++ batchRecords ms ∧
    subarray (submitAll r t ms).indices INDICES_LENGTH (submitAll r t ms).indexCount =
      subarray r.indices INDICES_LENGTH r.indexCount ++ batchIndices r.vertexCount ms := by
  induction ms generalizing r with
  | nil => simp [submitAll, batchRecords, batchIndices, ht]
  | cons m ms ih =>
    have h0 : ¬ Overflows r m := hno 0 (by simp)
    have hsub := submit_of_room r t m ht h0
    have h0c := h0
    unfold Overflows at h0c
    push_neg at h0c
    have hv1 : (r.submit t m).vertexCount = r.vertexCount + m.numVerts := by rw [hsub]; rfl
    have hi1 : (r.submit t m).indexCount = r.indexCount + m.numIndices := by rw [hsub]; rfl
    have hd1 : (r.submit t m).draws = r.draws := by rw [hsub]; rfl
    have hV1 := renderMeshAppend_subarray_vertices r m.vertices m.uvs m.indices m.color h0c.1
    have hI1 := renderMeshAppend_subarray_indices r m.vertices m.uvs m.indices m.color h0c.2
    rw [← hsub] at hV1 hI1
    obtain ⟨e1, e2, e3, e4, e5, e6⟩ := ih (r.submit t m) (submit_currentTexture r t m)
      (fun j hj => by
        have := hno (j + 1) (by simpa using hj)
        simpa [submitAll_cons] using this)
    rw [submitAll_cons]
    refine ⟨e1.trans hd1, e2, ?_, ?_, ?_, ?_⟩
    · rw [e3, hv1, List.map_cons, List.sum_cons, Nat.add_assoc]
    · rw [e4, hi1, List.map_cons, List.sum_cons, Nat.add_assoc]
    · rw [e5, hv1]
      change subarray (r.submit t m).vertices VERTICES_LENGTH
        ((r.vertexCount + m.vertices.length / 2) * 8) ++ _ = _
      rw [hV1, List.append_assoc]
      rfl
    · rw [e6, hi1]
      change subarray (r.submit t m).indices INDICES_LENGTH
        (r.indexCount + m.indices.length) ++ _ = _
      rw [hI1, List.append_assoc, hv1]
      rfl

/-! ## Layout of an append -/

/-- The layout of an append, with the reads of the submitted arrays written as `getD`. -/
theorem renderMesh_layout (r : DragonBonesRenderer) (t : Texture) (m : Mesh)
    (v0 i0 : Nat)
    (hv0 : v0 = (r.renderMeshFlush t m.numVerts m.numIndices).vertexCount)
    (hi0 : i0 = (r.renderMeshFlush t m.numVerts m.numIndices).indexCount)
    (hr : r.vertexCount = 0 → r.indexCount = 0)
    (heven : m.vertices.length % 2 = 0) (hfit : m.Fits)
    (hwrap : ∀ k ∈ m.indices, v0 + k < 65536) :
    (∀ i, i < m.numVerts →
      (List.range 8).map (fun s => (r.submit t m).vertices ((v0 + i) * 8 + s)) =
        [m.vertices.getD (2 * i) 0, m.vertices.getD (2 * i + 1) 0,
         m.uvs.getD (2 * i) 0, m.uvs.getD (2 * i + 1) 0,
         m.color.getD 0 0, m.color.getD 1 0, m.color.getD 2 0, m.color.getD 3 0]) ∧
    (∀ k, k < m.numIndices → (r.submit t m).indices (i0 + k) = v0 + m.indices.getD k 0) ∧
    (∀ j, j < v0 * 8 → (r.submit t m).vertices j = r.vertices j) ∧
    (∀ j, j < i0 → (r.submit t m).indices j = r.indices j) ∧
    (r.submit t m).vertexCount = v0 + m.numVerts ∧
    (r.submit t m).indexCount = i0 + m.numIndices := by
  have hn : m.numVerts ≤ MAX_VERTICES := by
    have := hfit.1
    unfold Mesh.numVerts
    omega
  obtain ⟨hroomV, hroomI, -⟩ := renderMeshFlush_room r t m.numVerts m.numIndices hr hn hfit.2
  rw [← hv0] at hroomV
  rw [← hi0] at hroomI
  have hbufV : (r.renderMeshFlush t m.numVerts m.numIndices).vertices = r.vertices := by
    unfold renderMeshFlush
    split
    · exact flush_vertices r
    · rfl
  have hbufI : (r.renderMeshFlush t m.numVerts m.numIndices).indices = r.indices := by
    unfold renderMeshFlush
    split
    · exact flush_indices r
    · rfl
  have hV : ∀ j, (r.submit t m).vertices j =
      if v0 * 8 ≤ j ∧ j < v0 * 8 + 8 * m.numVerts ∧ j < VERTICES_LENGTH then
        (vertexRecord m.vertices m.uvs m.color ((j - v0 * 8) / 8)).getD ((j - v0 * 8) % 8) 0
      else r.vertices j := by
    intro j
    rw [hv0, ← hbufV]
    exact renderMeshAppend_vertices _ _ _ _ _ j
  have hI : ∀ j, (r.submit t m).indices j =
      if i0 ≤ j ∧ j < i0 + m.numIndices ∧ j < INDICES_LENGTH then
        toUint16 (v0 + m.indices.getD (j - i0) 0)
      else r.indices j := by
    intro j
    rw [hv0, hi0, ← hbufI]
    exact renderMeshAppend_indices _ _ _ _ _ j
  refine ⟨?_, ?_, ?_, ?_, ?_, ?_⟩
  · intro i hi
    have hrec : ∀ s, s < 8 → (r.submit t m).vertices ((v0 + i) * 8 + s) =
        (vertexRecord m.vertices m.uvs m.color i).getD s 0 := by
      intro s hs
      rw [hV, if_pos]
      · have hq : ((v0 + i) * 8 + s - v0 * 8) / 8 = i := by omega
        have hr : ((v0 + i) * 8 + s - v0 * 8) % 8 = s := by omega
        rw [hq, hr]
      · rw [VERTICES_LENGTH_eq]
        omega
    simp only [List.range_succ, List.range_zero, List.nil_append, List.map_cons, List.map_nil,
      List.map_append, List.cons_append]
    rw [hrec 0 (by omega), hrec 1 (by omega), hrec 2 (by omega), hrec 3 (by omega),
      hrec 4 (by omega), hrec 5 (by omega), hrec 6 (by omega), hrec 7 (by omega)]
    simp [vertexRecord]
  · intro k hk
    rw [hI, if_pos]
    · have hmem : m.indices.getD k 0 ∈ m.indices := by
        rw [List.getD_eq_getElem _ _ hk]
        exact List.getElem_mem hk
      have := hwrap _ hmem
      simp only [Nat.add_sub_cancel_left, toUint16]
      omega
    · have : INDICES_LENGTH = MAX_INDICES := rfl
      omega
  · intro j hj
    rw [hV, if_neg (by omega)]
  · intro j hj
    rw [hI, if_neg (by omega)]
  · rw [hv0]
    rfl
  · rw [hi0]
    rfl

/-! ## Claim C1: capacity invariant -/

/-- C1, the code at the failing input. From a freshly constructed renderer, two submissions that
fit the capacity by themselves, each with no vertex and 24000 indices, leave
`indexCount = 48000`, above `MAX_INDICES`: the second one calls `flush`, which returns at once
because `vertexCount` is `0` and so does not reset `indexCount`. -/
theorem capacity_invariant_degenerate :
    (∀ c ∈ degenerateCalls, c.Fits) ∧
      (runCalls create degenerateCalls).indexCount = 48000 ∧
      ¬ (runCalls create degenerateCalls).indexCount ≤ MAX_INDICES := by
  have hlen : degenerateMesh.indices.length = 24000 := List.length_replicate 24000 0
  have hv : degenerateMesh.vertices.length = 0 := rfl
  have key : ∀ m : Mesh, m.vertices.length = 0 → m.indices.length = 24000 →
      (runCalls create [Call.renderMesh (some 0) m, Call.renderMesh (some 0) m]).indexCount
        = 48000 := by
    intro m h0 h1
    have e1 : (create.submit (some 0) m).vertexCount = 0 := by
      rw [submit, renderMesh_vertexCount, (renderMeshFlush_of_zero _ _ _ _ rfl).1, h0]
    have e2 : (create.submit (some 0) m).indexCount = 24000 := by
      rw [submit, renderMesh_indexCount, (renderMeshFlush_of_zero _ _ _ _ rfl).2, h1]
      rfl
    show ((create.submit (some 0) m).submit (some 0) m).indexCount = 48000
    rw [submit, renderMesh_indexCount, (renderMeshFlush_of_zero _ _ _ _ e1).2, e2, h1]
  refine ⟨?_, key degenerateMesh hv hlen, ?_⟩
  · intro c hc
    simp only [degenerateCalls, List.mem_cons, List.mem_singleton, List.not_mem_nil, or_false,
      or_self] at hc
    subst hc
    exact ⟨hv, by rw [hv]; exact Nat.zero_le _, by rw [hlen]; decide⟩
  · have h := key degenerateMesh hv hlen
    change (runCalls create degenerateCalls).indexCount = 48000 at h
    rw [h]
    decide

/-! ## Claim C2: a texture change flushes -/

/-- C2. For textures `A != B` and meshes `mA`, `mB` with at least one vertex each that together
fit the capacity, `renderMesh(A, mA)` then `renderMesh(B, mB)` after `begin()` issues exactly
one draw call: it is bound to `A`, carries the vertex records of `mA` and the indices of `mA`,
with count the number of indices of `mA`. Afterwards `currentTexture = B` and the counts are
those of `mB`. -/
theorem texture_change_flushes (r : DragonBonesRenderer) (A B : Texture) (mA mB : Mesh)
    (hAB : A ≠ B) (hA : mA.Typed) (hB : mB.Typed)
    (hneA : 1 ≤ mA.numVerts) (hneB : 1 ≤ mB.numVerts)
    (hfitV : mA.numVerts + mB.numVerts ≤ MAX_VERTICES)
    (hfitI : mA.numIndices + mB.numIndices ≤ MAX_INDICES) :
    ((r.begin.submit A mA).submit B mB).draws = r.draws ++
        [{ texture := A
           vertexData := mA.records
           indexData := mA.indices
           count := mA.numIndices }] ∧
      ((r.begin.submit A mA).submit B mB).currentTexture = B ∧
      ((r.begin.submit A mA).submit B mB).vertexCount = mB.numVerts ∧
      ((r.begin.submit A mA).submit B mB).indexCount = mB.numIndices := by
  -- state at the moment of appending `mA`
  obtain ⟨hz1, hz2⟩ := renderMeshFlush_of_zero r.begin A mA.numVerts mA.numIndices rfl
  have hz2 : (r.begin.renderMeshFlush A mA.numVerts mA.numIndices).indexCount = 0 := hz2
  have hd0 : (r.begin.renderMeshFlush A mA.numVerts mA.numIndices).draws = r.draws :=
    renderMeshFlush_draws_of_zero r.begin A _ _ rfl
  -- state after the first submission
  have h1v : (r.begin.submit A mA).vertexCount = mA.numVerts := by
    rw [submit_vertexCount, hz1, Nat.zero_add]
  have h1i : (r.begin.submit A mA).indexCount = mA.numIndices := by
    rw [submit_indexCount, hz2, Nat.zero_add]
  have h1t : (r.begin.submit A mA).currentTexture = A := submit_currentTexture _ A _
  have h1d : (r.begin.submit A mA).draws = r.draws := hd0
  have h1V : subarray (r.begin.submit A mA).vertices VERTICES_LENGTH (mA.numVerts * 8) =
      mA.records := by
    have := renderMeshAppend_subarray_vertices
      (r.begin.renderMeshFlush A mA.numVerts mA.numIndices) mA.vertices mA.uvs mA.indices
      mA.color (by rw [hz1]; show 0 + mA.numVerts ≤ _; omega)
    rw [hz1, Nat.zero_mul, subarray_zero, Nat.zero_add, List.nil_append] at this
    exact this
  have h1I : subarray (r.begin.submit A mA).indices INDICES_LENGTH mA.numIndices =
      mA.indices := by
    have := renderMeshAppend_subarray_indices
      (r.begin.renderMeshFlush A mA.numVerts mA.numIndices) mA.vertices mA.uvs mA.indices
      mA.color (by rw [hz2]; show 0 + mA.numIndices ≤ _; omega)
    rw [hz2, hz1, subarray_zero, Nat.zero_add, List.nil_append,
      map_toUint16_zero_add _ hA.2.2.2] at this
    exact this
  -- the second submission flushes
  obtain ⟨hd, hv, hi⟩ := renderMeshFlush_of_guard (r.begin.submit A mA) B mB.numVerts
    mB.numIndices (Or.inl (by rw [h1t]; exact hAB)) (by rw [h1v]; omega)
  refine ⟨?_, submit_currentTexture _ B _, ?_, ?_⟩
  · rw [submit_draws, hd, h1d, h1t, h1v, h1i, h1V, h1I]
  · rw [submit_vertexCount, hv, Nat.zero_add]
  · rw [submit_indexCount, hi, Nat.zero_add]

theorem quadMesh_typed : quadMesh.Typed := by
  unfold Mesh.Typed
  decide

/-- C2, witness: two quads with textures `0` and `1`. -/
theorem texture_change_flushes_witness :
    ((create.begin.submit (some 0) quadMesh).submit (some 1) quadMesh).draws =
        [{ texture := some 0
           vertexData := quadMesh.records
           indexData := [0, 1, 2, 0, 2, 3]
           count := 6 }] ∧
      ((create.begin.submit (some 0) quadMesh).submit (some 1) quadMesh).vertexCount = 4 :=
  have h := texture_change_flushes create (some 0) (some 1) quadMesh quadMesh (by decide)
    quadMesh_typed quadMesh_typed (by decide) (by decide) (by decide) (by decide)
  ⟨h.1, h.2.2.1⟩

/-! ## Claim C3: crossing a capacity flushes once -/

/-- Consecutive submissions with the bound texture, the last of which is the first to cross a
capacity: no draw call before it, and one draw call during it that carries what was pending
before the run followed by the submissions before the crossing one. -/
theorem submitAll_crossing (r : DragonBonesRenderer) (t : Texture)
    (ms : List Mesh) (mk : Mesh)
    (ht : r.currentTexture = t) (hinv : r.vertexCount = 0 → r.indexCount = 0)
    (hms : ∀ m ∈ ms ++ [mk], m.Typed ∧ 1 ≤ m.numVerts ∧ m.Fits)
    (hbefore : ∀ j (hj : j < ms.length), ¬ Overflows (submitAll r t (ms.take j)) ms[j])
    (hcross : Overflows (submitAll r t ms) mk) :
    (∀ j, j ≤ ms.length → (submitAll r t (ms.take j)).draws = r.draws) ∧
    (submitAll r t (ms ++ [mk])).draws = (submitAll r t ms).draws ++
      [{ texture := t
         vertexData := subarray r.vertices VERTICES_LENGTH (r.vertexCount * 8) ++
           batchRecords ms
         indexData := subarray r.indices INDICES_LENGTH r.indexCount ++
           batchIndices r.vertexCount ms
         count := r.indexCount + (ms.map Mesh.numIndices).sum }] ∧
    (submitAll r t (ms ++ [mk])).vertexCount = mk.numVerts ∧
    (submitAll r t (ms ++ [mk])).indexCount = mk.numIndices := by
  obtain ⟨e1, e2, e3, e4, e5, e6⟩ := submitAll_batch ms r t ht hbefore
  have hlast : submitAll r t (ms ++ [mk]) = (submitAll r t ms).submit t mk := by
    simp [submitAll, List.foldl_append]
  -- the batch is not empty: a single mesh does not cross a capacity by itself
  have hpos : (submitAll r t ms).vertexCount ≠ 0 := by
    cases ms with
    | nil =>
      intro h0
      have h0r : r.vertexCount = 0 := h0
      have hk := (hms mk (by simp)).2.2
      unfold Overflows at hcross
      simp only [submitAll, List.foldl_nil, h0r, hinv h0r, Nat.zero_add] at hcross
      unfold Mesh.Fits at hk
      unfold Mesh.numVerts Mesh.numIndices at hcross
      omega
    | cons m ms =>
      have := (hms m (by simp)).2.1
      rw [e3, List.map_cons, List.sum_cons]
      omega
  have hg : (submitAll r t ms).currentTexture ≠ t ∨
      (submitAll r t ms).vertexCount + mk.numVerts > MAX_VERTICES ∨
      (submitAll r t ms).indexCount + mk.numIndices > MAX_INDICES := Or.inr hcross
  obtain ⟨hd, hv, hi⟩ := renderMeshFlush_of_guard _ t mk.numVerts mk.numIndices hg hpos
  refine ⟨?_, ?_, ?_, ?_⟩
  · intro j hj
    refine (submitAll_batch (ms.take j) r t ht ?_).1
    intro i hi
    have hi2 : i < j := by
      rw [List.length_take] at hi
      omega
    have hi3 : i < ms.length := by omega
    have := hbefore i hi3
    rw [List.take_take, min_eq_left (le_of_lt hi2), List.getElem_take]
    exact this
  · rw [hlast, submit_draws, hd, e2, e5, e6, e4]
  · rw [hlast, submit_vertexCount, hv, Nat.zero_add]
  · rw [hlast, submit_indexCount, hi, Nat.zero_add]

theorem fanMesh_ok : fanMesh.Typed ∧ 1 ≤ fanMesh.numVerts ∧ fanMesh.Fits := by
  have hlen : fanMesh.indices.length = 12001 := List.length_replicate 12001 0
  refine ⟨⟨by decide, by decide, by decide, ?_⟩, by decide, by decide, ?_⟩
  · intro k hk
    rw [List.eq_of_mem_replicate hk]
    decide
  · rw [hlen]
    decide

theorem idleRenderer_fan_indexCount :
    (idleRenderer.submit (some 0) fanMesh).vertexCount = 1 ∧
      (idleRenderer.submit (some 0) fanMesh).indexCount = 12001 := by
  have hlen : fanMesh.numIndices = 12001 := List.length_replicate 12001 0
  obtain ⟨h1, h2⟩ := renderMeshFlush_of_zero idleRenderer (some 0) fanMesh.numVerts
    fanMesh.numIndices (by decide)
  rw [submit_vertexCount, submit_indexCount, h1, h2, hlen]
  exact ⟨by decide, by decide⟩

theorem pendingFan_counts :
    pendingFan.currentTexture = some 0 ∧ pendingFan.vertexCount = 1 ∧
      pendingFan.indexCount = 12001 :=
  ⟨submit_currentTexture _ _ _, idleRenderer_fan_indexCount.1, idleRenderer_fan_indexCount.2⟩

theorem pendingFan_overflows : Overflows pendingFan fanMesh := by
  have hlen : fanMesh.numIndices = 12001 := List.length_replicate 12001 0
  unfold Overflows
  right
  rw [pendingFan_counts.2.2, hlen]
  decide

/-- C3, counterexample. One vertex and 12001 indices are pending with texture `0` when a run of
submissions with that texture begins. Its first submission, `fanMesh`, is non-empty, fits the
capacity by itself and is the first to cross `MAX_INDICES`, so `k = 1` and the submissions
`1..k-1` hold no data. The one draw call issued during it has `count = 12001` and carries the
12001 indices that were pending before the run. -/
theorem capacity_crossing_draws_pending :
    pendingFan.currentTexture = some 0 ∧
    (fanMesh.Typed ∧ 1 ≤ fanMesh.numVerts ∧ fanMesh.Fits) ∧
    Overflows (submitAll pendingFan (some 0) []) fanMesh ∧
    batchIndices 0 ([] : List Mesh) = [] ∧
    ∃ d, (submitAll pendingFan (some 0) ([] ++ [fanMesh])).draws = pendingFan.draws ++ [d] ∧
      d.count = 12001 ∧ d.indexData.length = 12001 ∧
      d.count ≠ (([] : List Mesh).map Mesh.numIndices).sum := by
  obtain ⟨h1, h2, h3⟩ := pendingFan_counts
  have h := (submitAll_crossing pendingFan (some 0) [] fanMesh h1
    (fun h0 => by rw [h2] at h0; cases h0)
    (fun m hm => by
      have : m = fanMesh := by simpa using hm
      rw [this]
      exact fanMesh_ok)
    (fun j hj => absurd hj (Nat.not_lt_zero j)) pendingFan_overflows).2.1
  refine ⟨h1, fanMesh_ok, pendingFan_overflows, rfl, _, h, ?_, ?_, ?_⟩
  · simp only [List.map_nil, List.sum_nil, Nat.add_zero, h3]
  · simp only [batchIndices, List.append_nil, subarray_length, h3]
    decide
  · simp only [List.map_nil, List.sum_nil, Nat.add_zero, h3]
    decide

/-- C3, amended. Consecutive submissions with the bound texture, of meshes with at
least one vertex that are typed as a slot passes them and fit the capacity by themselves, in
a renderer where no index is pending without a vertex: if `mk` is the first submission that would
exceed a capacity, then no draw call is issued during the submissions `ms` before it; exactly one
draw call is issued during `mk`, with the bound texture, and it carries what was pending before
the run followed by the records and indices of `ms`, which is exactly the data of `ms` when the
run starts with both counts zero; and after `mk` the counts are the sizes of `mk` alone. -/
theorem capacity_crossing_flushes_once (r : DragonBonesRenderer) (t : Texture)
    (ms : List Mesh) (mk : Mesh)
    (ht : r.currentTexture = t) (hinv : r.vertexCount = 0 → r.indexCount = 0)
    (hms : ∀ m ∈ ms ++ [mk], m.Typed ∧ 1 ≤ m.numVerts ∧ m.Fits)
    (hbefore : ∀ j (hj : j < ms.length), ¬ Overflows (submitAll r t (ms.take j)) ms[j])
    (hcross : Overflows (submitAll r t ms) mk) :
    (∀ j, j ≤ ms.length → (submitAll r t (ms.take j)).draws = r.draws) ∧
    (submitAll r t (ms ++ [mk])).draws = (submitAll r t ms).draws ++
      [{ texture := t
         vertexData := subarray r.vertices VERTICES_LENGTH (r.vertexCount * 8) ++
           batchRecords ms
         indexData := subarray r.indices INDICES_LENGTH r.indexCount ++
           batchIndices r.vertexCount ms
         count := r.indexCount + (ms.map Mesh.numIndices).sum }] ∧
    (r.vertexCount = 0 →
      (submitAll r t (ms ++ [mk])).draws = (submitAll r t ms).draws ++
        [{ texture := t
           vertexData := batchRecords ms
           indexData := batchIndices 0 ms
           count := (ms.map Mesh.numIndices).sum }]) ∧
    (submitAll r t (ms ++ [mk])).vertexCount = mk.numVerts ∧
    (submitAll r t (ms ++ [mk])).indexCount = mk.numIndices := by
  obtain ⟨h1, h2, h3, h4⟩ := submitAll_crossing r t ms mk ht hinv hms hbefore hcross
  refine ⟨h1, h2, ?_, h3, h4⟩
  intro h0
  rw [h2, hinv h0, h0, Nat.zero_mul, subarray_zero, subarray_zero, List.nil_append,
    List.nil_append, Nat.zero_add]

theorem onePending_fan_counts :
    (onePending.submit (some 0) fanMesh).vertexCount = 2 ∧
      (onePending.submit (some 0) fanMesh).indexCount = 12002 := by
  have hlen : fanMesh.numIndices = 12001 := List.length_replicate 12001 0
  have h := renderMeshFlush_eq_self onePending (some 0) fanMesh.numVerts fanMesh.numIndices
    (by decide) (by decide) (by rw [hlen]; decide)
  rw [submit_vertexCount, submit_indexCount, h, hlen]
  exact ⟨by decide, by decide⟩

/-- C3, witness: one vertex and one index are pending; two submissions of 12001 indices each
follow, and the second crosses `MAX_INDICES`. -/
theorem capacity_crossing_flushes_once_witness :
    (submitAll onePending (some 0) ([fanMesh] ++ [fanMesh])).draws =
        (submitAll onePending (some 0) [fanMesh]).draws ++
          [{ texture := some 0
             vertexData := subarray onePending.vertices VERTICES_LENGTH
               (onePending.vertexCount * 8) ++ batchRecords [fanMesh]
             indexData := subarray onePending.indices INDICES_LENGTH onePending.indexCount ++
               batchIndices onePending.vertexCount [fanMesh]
             count := onePending.indexCount + ([fanMesh].map Mesh.numIndices).sum }] ∧
      (submitAll onePending (some 0) ([fanMesh] ++ [fanMesh])).vertexCount =
        fanMesh.numVerts :=
  have hlen : fanMesh.numIndices = 12001 := List.length_replicate 12001 0
  have h := capacity_crossing_flushes_once onePending (some 0) [fanMesh] fanMesh
    (by decide) (fun h0 => absurd h0 (by decide))
    (fun m hm => by
      have : m = fanMesh := by simpa using hm
      rw [this]
      exact fanMesh_ok)
    (fun j hj => by
      have hj0 : j = 0 := by simpa using hj
      subst hj0
      unfold Overflows
      simp only [List.take_zero, submitAll, List.foldl_nil, List.getElem_cons_zero]
      rw [hlen]
      decide)
    (by
      unfold Overflows
      right
      simp only [submitAll, List.foldl_cons, List.foldl_nil]
      rw [onePending_fan_counts.2, hlen]
      decide)
  ⟨h.2.1, h.2.2.2.1⟩

/-! ## Claim C4: layout of an append -/

/-- C4, counterexample. With one vertex pending (`v0 = 1`, `i0 = 1`) a submission that fits
the capacity and has the index `65535` stages `0` at position `i0 + 0`, not `v0 + 65535`:
the staging index buffer is a `Uint16Array`. -/
theorem renderMesh_index_wraps :
    (pointMesh 65535).Fits ∧
    (onePending.renderMeshFlush (some 0) (pointMesh 65535).numVerts
        (pointMesh 65535).numIndices).vertexCount = 1 ∧
    (onePending.renderMeshFlush (some 0) (pointMesh 65535).numVerts
        (pointMesh 65535).numIndices).indexCount = 1 ∧
    (pointMesh 65535).indices.getD 0 0 = 65535 ∧
    (onePending.submit (some 0) (pointMesh 65535)).indices (1 + 0) = 0 ∧
    (onePending.submit (some 0) (pointMesh 65535)).indices (1 + 0) ≠ 1 + 65535 := by
  refine ⟨⟨by decide, by decide⟩, by decide, by decide, by decide, by decide, by decide⟩

/-- C4, amended. Let `v0`, `i0` be the counts at the moment of appending, in a renderer where
no index is pending without a vertex, and let the submission fit the capacity, with one UV
pair per vertex, four colour components and `v0 + k < 65536` for each of its indices `k`.
After `renderMesh` the eight staging floats at `(v0 + i) * 8` are
`[x_i, y_i, u_i, v_i, color0, color1, color2, color3]`, the staging index at `i0 + k` is
`v0 + indices[k]`, the staging floats below `v0 * 8` and the staging indices below `i0` are
unchanged, and the counts are `v0 + n` and `i0 + m`. -/
theorem renderMesh_append_layout (r : DragonBonesRenderer) (t : Texture) (m : Mesh)
    (v0 i0 : Nat)
    (hv0 : v0 = (r.renderMeshFlush t m.numVerts m.numIndices).vertexCount)
    (hi0 : i0 = (r.renderMeshFlush t m.numVerts m.numIndices).indexCount)
    (hr : r.vertexCount = 0 → r.indexCount = 0)
    (heven : m.vertices.length % 2 = 0) (huv : m.uvs.length = m.vertices.length)
    (hcolor : m.color.length = 4) (hfit : m.Fits)
    (hwrap : ∀ k ∈ m.indices, v0 + k < 65536) :
    (∀ i, i < m.numVerts →
      [m.vertices[2 * i]?, m.vertices[2 * i + 1]?, m.uvs[2 * i]?, m.uvs[2 * i + 1]?,
       m.color[0]?, m.color[1]?, m.color[2]?, m.color[3]?] =
        (List.range 8).map (fun s => some ((r.submit t m).vertices ((v0 + i) * 8 + s)))) ∧
    (∀ k, k < m.numIndices →
      m.indices[k]?.map (fun idx => v0 + idx) = some ((r.submit t m).indices (i0 + k))) ∧
    (∀ j, j < v0 * 8 → (r.submit t m).vertices j = r.vertices j) ∧
    (∀ j, j < i0 → (r.submit t m).indices j = r.indices j) ∧
    (r.submit t m).vertexCount = v0 + m.numVerts ∧
    (r.submit t m).indexCount = i0 + m.numIndices := by
  obtain ⟨h1, h2, h3, h4, h5, h6⟩ := renderMesh_layout r t m v0 i0 hv0 hi0 hr heven hfit hwrap
  refine ⟨?_, ?_, h3, h4, h5, h6⟩
  · intro i hi
    have hlt : 2 * i + 1 < m.vertices.length := by
      unfold Mesh.numVerts at hi
      omega
    have hrec := h1 i hi
    simp only [List.range_succ, List.range_zero, List.nil_append, List.map_cons, List.map_nil,
      List.map_append, List.cons_append, List.cons.injEq, and_true] at hrec ⊢
    obtain ⟨e0, e1, e2, e3, e4, e5, e6, e7⟩ := hrec
    rw [e0, e1, e2, e3, e4, e5, e6, e7]
    rw [List.getD_eq_getElem _ _ (by omega : 2 * i < m.vertices.length),
      List.getD_eq_getElem _ _ hlt,
      List.getD_eq_getElem _ _ (by omega : 2 * i < m.uvs.length),
      List.getD_eq_getElem _ _ (by omega : 2 * i + 1 < m.uvs.length),
      List.getD_eq_getElem _ _ (by omega : 0 < m.color.length),
      List.getD_eq_getElem _ _ (by omega : 1 < m.color.length),
      List.getD_eq_getElem _ _ (by omega : 2 < m.color.length),
      List.getD_eq_getElem _ _ (by omega : 3 < m.color.length)]
    simp only [List.getElem?_eq_getElem (by omega : 2 * i < m.vertices.length),
      List.getElem?_eq_getElem hlt,
      List.getElem?_eq_getElem (by omega : 2 * i < m.uvs.length),
      List.getElem?_eq_getElem (by omega : 2 * i + 1 < m.uvs.length),
      List.getElem?_eq_getElem (by omega : 0 < m.color.length),
      List.getElem?_eq_getElem (by omega : 1 < m.color.length),
      List.getElem?_eq_getElem (by omega : 2 < m.color.length),
      List.getElem?_eq_getElem (by omega : 3 < m.color.length), and_self]
  · intro k hk
    rw [h2 k hk, List.getElem?_eq_getElem hk, List.getD_eq_getElem _ _ hk]
    rfl

/-- C4, witness: a second one-vertex submission behind a pending one. -/
theorem renderMesh_append_layout_witness :
    [some 3, some 5, some (1 / 4), some (3 / 4), some 1, some 1, some 1, some (1 / 2)] =
      (List.range 8).map (fun s => some ((onePending.submit (some 0) (pointMesh 0)).vertices
        ((1 + 0) * 8 + s))) ∧
      (onePending.submit (some 0) (pointMesh 0)).indices (1 + 0) = 1 + 0 ∧
      (onePending.submit (some 0) (pointMesh 0)).vertexCount = 1 + 1 :=
  have h := renderMesh_append_layout onePending (some 0) (pointMesh 0) 1 1 (by decide)
    (by decide) (by decide) (by decide) (by decide) (by decide) ⟨by decide, by decide⟩
    (by decide)
  ⟨h.1 0 (by decide), (Option.some.inj (h.2.1 0 (by decide))).symm, h.2.2.2.2.1⟩

/-! ## Claim C5: `flush` -/

/-- C5. `flush` with `vertexCount = 0` returns the renderer unchanged (no draw call, same
counts, buffers and texture). Otherwise it issues exactly one draw call, bound to
`currentTexture`, over the first `vertexCount * 8` staging floats and the first `indexCount`
staging indices, with count `indexCount`; afterwards both counts are `0` and the texture, the
staging buffers and the number of clears are as before. -/
theorem flush_contract (r : DragonBonesRenderer) :
    (r.vertexCount = 0 → r.flush = r) ∧
    (r.vertexCount ≠ 0 →
      r.flush.draws = r.draws ++
        [{ texture := r.currentTexture
           vertexData := subarray r.vertices VERTICES_LENGTH (r.vertexCount * 8)
           indexData := subarray r.indices INDICES_LENGTH r.indexCount
           count := r.indexCount }] ∧
      r.flush.vertexCount = 0 ∧ r.flush.indexCount = 0 ∧
      r.flush.currentTexture = r.currentTexture ∧
      r.flush.vertices = r.vertices ∧ r.flush.indices = r.indices ∧
      r.flush.clears = r.clears) := by
  refine ⟨flush_of_zero r, fun h => ⟨flush_draws_of_pos r h, flush_vertexCount r, ?_,
    flush_currentTexture r, flush_vertices r, flush_indices r, flush_clears r⟩⟩
  rw [flush_indexCount, if_neg h]

/-- C5, witness: `flush` with one vertex pending, and `flush` of a fresh renderer. -/
theorem flush_contract_witness :
    onePending.flush.draws =
        [{ texture := some 0
           vertexData := subarray onePending.vertices VERTICES_LENGTH (1 * 8)
           indexData := subarray onePending.indices INDICES_LENGTH 1
           count := 1 }] ∧
      onePending.flush.vertexCount = 0 ∧ create.flush = create :=
  ⟨((flush_contract onePending).2 (by decide)).1, ((flush_contract onePending).2 (by decide)).2.1,
    (flush_contract create).1 rfl⟩

/-! ## The quad path of `_updateFrame` -/

theorem typedSet_of_length_eq {α : Type} (target source : List α)
    (h : source.length = target.length) : typedSet target source = some source := by
  unfold typedSet
  rw [if_pos (le_of_eq h), h, List.drop_length, List.append_nil]

theorem allocate_of_aligned (s : WebGLSlot) (n : Nat) (h : s.Aligned) :
    ∃ u l r, s.allocate n = (some u, some l, some r) ∧ u.length = n ∧ l.length = n ∧
      r.length = n := by
  unfold WebGLSlot.allocate
  rcases h with ⟨hu, -, -⟩ | ⟨u, l, r, hu, hl, hr, e1, e2⟩
  · rw [hu]
    exact ⟨_, _, _, rfl, by simp, by simp, by simp⟩
  · rw [hu]
    by_cases hn : u.length = n
    · simp only [hn, ne_eq, not_true_eq_false, if_false]
      exact ⟨u, l, r, by rw [hl, hr], hn, by omega, by omega⟩
    · simp only [ne_eq, hn, not_false_eq_true, if_true]
      exact ⟨_, _, _, rfl, by simp, by simp, by simp⟩

theorem quadUvs_length (td : TextureData) (w h : ℚ) : (WebGLSlot.quadUvs td w h).length = 8 := by
  unfold WebGLSlot.quadUvs
  split <;> rfl

theorem quadLocalVertices_length (td : TextureData) (d : Option DisplayData) :
    (WebGLSlot.quadLocalVertices td d).length = 8 := rfl

/-- The quad path of `_updateFrame` on a slot whose buffers are aligned. -/
theorem updateFrame_quad (s : WebGLSlot) (frame : DisplayFrame) (td : TextureData)
    (hf : s._displayFrame = some frame) (htd : frame.textureData = some td)
    (hquad : isMesh frame.display = false) (hal : s.Aligned) :
    ∃ r, r.length = 8 ∧ s._updateFrame = some { s with
      _indices := some (WebGLSlot.quadIndices s._indices)
      _uvs := some (WebGLSlot.quadUvs td (orOne td.parent.width) (orOne td.parent.height))
      _localVertices := some (WebGLSlot.quadLocalVertices td frame.display)
      _resultVertices := some r } := by
  obtain ⟨u, l, r, hall, hu, hl, hr⟩ := allocate_of_aligned s 8 hal
  refine ⟨r, hr, ?_⟩
  unfold WebGLSlot._updateFrame
  simp only [hf, htd, hquad, hall, Bool.false_eq_true, if_false]
  rw [typedSet_of_length_eq u _ (by rw [quadUvs_length, hu]),
    typedSet_of_length_eq l _ (by rw [quadLocalVertices_length, hl])]

theorem freshSlot_aligned (frame : DisplayFrame) : (freshSlot frame).Aligned :=
  Or.inl ⟨rfl, rfl, rfl⟩

/-! ## The two branches of `render` -/

/-- The rigid branch of `render` on an eligible slot with all buffers set: the result array is
rewritten pair by pair and submitted. -/
theorem render_rigid (s : WebGLSlot) (renderer : DragonBonesRenderer)
    (display : WebGLArmatureDisplay) (frame : DisplayFrame) (td : TextureData)
    (loc result uvs : List ℚ) (indices : List Nat)
    (hvis : s.hidden = false)
    (hloc : s._localVertices = some loc) (hres : s._resultVertices = some result)
    (huvs : s._uvs = some uvs) (hidx : s._indices = some indices)
    (hlen : result.length = loc.length) (heven : loc.length % 2 = 0)
    (hf : s._displayFrame = some frame) (htd : frame.textureData = some td)
    (hrigid : hasWeight frame.display = false) :
    s.render renderer display =
      some ({ s with _resultVertices := some ((List.range (loc.length / 2)).flatMap (fun i =>
          [(s.globalTransformMatrix.a * loc.getD (i * 2) 0 +
              s.globalTransformMatrix.c * loc.getD (i * 2 + 1) 0 +
              s.globalTransformMatrix.tx) * display.scaleX + display.x,
           (s.globalTransformMatrix.b * loc.getD (i * 2) 0 +
              s.globalTransformMatrix.d * loc.getD (i * 2 + 1) 0 +
              s.globalTransformMatrix.ty) * display.scaleY + display.y])) },
        renderer.renderMesh td.parent.renderTexture
          ((List.range (loc.length / 2)).flatMap (fun i =>
          [(s.globalTransformMatrix.a * loc.getD (i * 2) 0 +
              s.globalTransformMatrix.c * loc.getD (i * 2 + 1) 0 +
              s.globalTransformMatrix.tx) * display.scaleX + display.x,
           (s.globalTransformMatrix.b * loc.getD (i * 2) 0 +
              s.globalTransformMatrix.d * loc.getD (i * 2 + 1) 0 +
              s.globalTransformMatrix.ty) * display.scaleY + display.y]))
          uvs indices s._color) := by
  have hfold := pair_fold_full
    (fun i => (s.globalTransformMatrix.a * loc.getD (i * 2) 0 +
      s.globalTransformMatrix.c * loc.getD (i * 2 + 1) 0 +
      s.globalTransformMatrix.tx) * display.scaleX + display.x)
    (fun i => (s.globalTransformMatrix.b * loc.getD (i * 2) 0 +
      s.globalTransformMatrix.d * loc.getD (i * 2 + 1) 0 +
      s.globalTransformMatrix.ty) * display.scaleY + display.y)
    result (loc.length / 2) (by omega)
  unfold WebGLSlot.render
  simp only [hvis, hloc, hres, huvs, hidx, hf, htd, hrigid, Bool.false_eq_true, if_false]
  unfold WebGLSlot.rigidResultBody
  rw [hfold]

/-- The skinned branch of `render` on an eligible slot with all buffers set. -/
theorem render_skinned (s : WebGLSlot) (renderer : DragonBonesRenderer)
    (display : WebGLArmatureDisplay) (frame : DisplayFrame) (td : TextureData)
    (loc result uvs : List ℚ) (indices : List Nat)
    (hvis : s.hidden = false)
    (hloc : s._localVertices = some loc) (hres : s._resultVertices = some result)
    (huvs : s._uvs = some uvs) (hidx : s._indices = some indices)
    (hlen : result.length = loc.length) (heven : loc.length % 2 = 0)
    (hf : s._displayFrame = some frame) (htd : frame.textureData = some td)
    (hskin : hasWeight frame.display = true) :
    s.render renderer display =
      some ({ s with _resultVertices := some ((List.range (loc.length / 2)).flatMap (fun i =>
          [loc.getD (i * 2) 0 * display.scaleX + display.x,
           loc.getD (i * 2 + 1) 0 * display.scaleY + display.y])) },
        renderer.renderMesh td.parent.renderTexture
          ((List.range (loc.length / 2)).flatMap (fun i =>
          [loc.getD (i * 2) 0 * display.scaleX + display.x,
           loc.getD (i * 2 + 1) 0 * display.scaleY + display.y]))
          uvs indices s._color) := by
  have hfold := pair_fold_full
    (fun i => loc.getD (i * 2) 0 * display.scaleX + display.x)
    (fun i => loc.getD (i * 2 + 1) 0 * display.scaleY + display.y)
    result (loc.length / 2) (by omega)
  unfold WebGLSlot.render
  simp only [hvis, hloc, hres, huvs, hidx, hf, htd, hskin, if_true, Bool.false_eq_true,
    if_false]
  unfold WebGLSlot.skinnedResultBody
  rw [hfold]

theorem quadSlot_hidden : quadSlot.hidden = false := by
  simp [WebGLSlot.hidden, quadSlot, freshSlot, WebGLSlot.create]

theorem meshSlot_hidden (geometry : GeometryData) (bones : List (Option Bone)) :
    (meshSlot geometry bones).hidden = false := by
  simp [WebGLSlot.hidden, meshSlot, freshSlot, WebGLSlot.create]

theorem rigidSlot_hidden : rigidSlot.hidden = false := by
  simp [WebGLSlot.hidden, rigidSlot, freshSlot, WebGLSlot.create]

/-! ## The skinning path of `_updateMesh` -/

theorem flatMap_triple_length (infl : List Influence) :
    (infl.flatMap (fun f => [f.weight, f.x, f.y])).length = 3 * infl.length := by
  induction infl with
  | nil => rfl
  | cons a L ih =>
    rw [List.flatMap_cons, List.length_append, ih, List.length_cons]
    simp
    omega

theorem encodeBoneIndices_append (X Y : List (List Influence)) :
    encodeBoneIndices (X ++ Y) = encodeBoneIndices X ++ encodeBoneIndices Y := by
  simp [encodeBoneIndices]

theorem encodeWeights_append (X Y : List (List Influence)) :
    encodeWeights (X ++ Y) = encodeWeights X ++ encodeWeights Y := by
  simp [encodeWeights]

theorem skin_inner (bones : List (Option Bone)) (infl : List Influence) :
    ∀ (bi A B : List Nat) (raw FA FB : List ℚ) (xG yG : ℚ),
      bi = A ++ (infl.map Influence.bone ++ B) →
      raw = FA ++ (infl.flatMap (fun f => [f.weight, f.x, f.y]) ++ FB) →
      (List.range infl.length).foldl (WebGLSlot.skinInfluenceBody bones bi raw)
          (A.length, FA.length, xG, yG) =
        (A.length + infl.length, FA.length + 3 * infl.length,
          xG + skinnedX bones infl, yG + skinnedY bones infl) := by
  induction infl with
  | nil =>
    intro bi A B raw FA FB xG yG _ _
    simp [skinnedX, skinnedY]
  | cons f rest ih =>
    intro bi A B raw FA FB xG yG hbi hraw
    rw [List.length_cons,
      foldl_range_ignore (WebGLSlot.skinInfluenceBody bones bi raw) (fun _ _ _ => rfl)]
    have hb : bi[A.length]? = some f.bone := by
      have := getElem?_append_add A (List.map Influence.bone (f :: rest) ++ B) 0
      rw [hbi]
      simpa using this
    have hw0 : raw.getD FA.length 0 = f.weight := by
      have := getD_append_add FA
        ((f :: rest).flatMap (fun f => [f.weight, f.x, f.y]) ++ FB) 0 0
      rw [hraw]
      simpa using this
    have hw1 : raw.getD (FA.length + 1) 0 = f.x := by
      have := getD_append_add FA
        ((f :: rest).flatMap (fun f => [f.weight, f.x, f.y]) ++ FB) 1 0
      rw [hraw]
      simpa using this
    have hw2 : raw.getD (FA.length + 2) 0 = f.y := by
      have := getD_append_add FA
        ((f :: rest).flatMap (fun f => [f.weight, f.x, f.y]) ++ FB) 2 0
      rw [hraw]
      simpa using this
    have hbi2 : bi = (A ++ [f.bone]) ++ (rest.map Influence.bone ++ B) := by
      rw [hbi]
      simp
    have hraw2 : raw = (FA ++ [f.weight, f.x, f.y]) ++
        (rest.flatMap (fun f => [f.weight, f.x, f.y]) ++ FB) := by
      rw [hraw]
      simp
    cases hbone : resolvedBone bones f.bone with
    | none =>
      have hstep : WebGLSlot.skinInfluenceBody bones bi raw (A.length, FA.length, xG, yG) 0 =
          ((A ++ [f.bone]).length, (FA ++ [f.weight, f.x, f.y]).length, xG, yG) := by
        unfold WebGLSlot.skinInfluenceBody
        unfold resolvedBone at hbone
        simp only [hb, hbone, List.length_append, List.length_cons, List.length_nil]
      rw [hstep, ih bi _ B raw _ FB xG yG hbi2 hraw2]
      simp [skinnedX, skinnedY, hbone]
      omega
    | some bone =>
      have hstep : WebGLSlot.skinInfluenceBody bones bi raw (A.length, FA.length, xG, yG) 0 =
          ((A ++ [f.bone]).length, (FA ++ [f.weight, f.x, f.y]).length,
            xG + (bone.globalTransformMatrix.a * f.x + bone.globalTransformMatrix.c * f.y +
              bone.globalTransformMatrix.tx) * f.weight,
            yG + (bone.globalTransformMatrix.b * f.x + bone.globalTransformMatrix.d * f.y +
              bone.globalTransformMatrix.ty) * f.weight) := by
        unfold WebGLSlot.skinInfluenceBody
        unfold resolvedBone at hbone
        simp only [hb, hbone, hw0, hw1, hw2, List.length_append, List.length_cons,
          List.length_nil]
      rw [hstep, ih bi _ B raw _ FB _ _ hbi2 hraw2]
      simp [skinnedX, skinnedY, hbone]
      refine ⟨by omega, by omega, by ring, by ring⟩

theorem skin_outer (bones : List (Option Bone)) (T : List (List Influence))
    (bi pre post : List Nat) (raw fpre fpost res : List ℚ)
    (hbi : bi = pre ++ encodeBoneIndices T ++ post)
    (hraw : raw = fpre ++ encodeWeights T ++ fpost)
    (hres : 2 * T.length ≤ res.length) (i : Nat) (hi : i ≤ T.length) :
    (List.range i).foldl (WebGLSlot.skinVertexBody bones bi raw)
        (pre.length, fpre.length, res) =
      (pre.length + (encodeBoneIndices (T.take i)).length,
        fpre.length + (encodeWeights (T.take i)).length,
        (T.take i).flatMap (fun infl => [skinnedX bones infl, skinnedY bones infl]) ++
          res.drop (2 * i)) := by
  induction i with
  | zero => simp [encodeBoneIndices, encodeWeights]
  | succ i ih =>
    have hlt : i < T.length := by omega
    rw [List.range_succ, List.foldl_append, ih (by omega)]
    simp only [List.foldl_cons, List.foldl_nil]
    have htake : T.take (i + 1) = T.take i ++ [T[i]] := by
      rw [← List.take_concat_get T i hlt, List.concat_eq_append]
    have hsplit : T = T.take i ++ (T[i] :: T.drop (i + 1)) := by
      rw [← List.drop_eq_getElem_cons hlt, List.take_append_drop]
    have hbi2 : bi = (pre ++ encodeBoneIndices (T.take i)) ++
        (T[i].length :: (T[i].map Influence.bone ++
          (encodeBoneIndices (T.drop (i + 1)) ++ post))) := by
      have henc : encodeBoneIndices T = encodeBoneIndices (T.take i) ++
          (T[i].length :: (T[i].map Influence.bone ++ encodeBoneIndices (T.drop (i + 1)))) := by
        conv_lhs => rw [hsplit]
        rw [encodeBoneIndices_append]
        rfl
      rw [hbi, henc]
      simp only [List.append_assoc, List.cons_append]
    have hbi3 : bi = (pre ++ encodeBoneIndices (T.take i) ++ [T[i].length]) ++
        (T[i].map Influence.bone ++ (encodeBoneIndices (T.drop (i + 1)) ++ post)) := by
      rw [hbi2]
      simp
    have hraw2 : raw = (fpre ++ encodeWeights (T.take i)) ++
        (T[i].flatMap (fun f => [f.weight, f.x, f.y]) ++
          (encodeWeights (T.drop (i + 1)) ++ fpost)) := by
      have henc : encodeWeights T = encodeWeights (T.take i) ++
          (T[i].flatMap (fun f => [f.weight, f.x, f.y]) ++ encodeWeights (T.drop (i + 1))) := by
        conv_lhs => rw [hsplit]
        rw [encodeWeights_append]
        rfl
      rw [hraw, henc]
      simp only [List.append_assoc]
    have hcount : bi.getD (pre.length + (encodeBoneIndices (T.take i)).length) 0 =
        T[i].length := by
      have := getD_append_add (pre ++ encodeBoneIndices (T.take i))
        (T[i].length :: (T[i].map Influence.bone ++
          (encodeBoneIndices (T.drop (i + 1)) ++ post))) 0 0
      rw [hbi2]
      simpa using this
    have hinner := skin_inner bones T[i] bi
      (pre ++ encodeBoneIndices (T.take i) ++ [T[i].length])
      (encodeBoneIndices (T.drop (i + 1)) ++ post) raw
      (fpre ++ encodeWeights (T.take i)) (encodeWeights (T.drop (i + 1)) ++ fpost) 0 0
      hbi3 hraw2
    have hA : (pre ++ encodeBoneIndices (T.take i) ++ [T[i].length]).length =
        pre.length + (encodeBoneIndices (T.take i)).length + 1 := by
      rw [List.length_append, List.length_append]
      rfl
    have hFA : (fpre ++ encodeWeights (T.take i)).length =
        fpre.length + (encodeWeights (T.take i)).length := by
      simp
    rw [hA, hFA] at hinner
    unfold WebGLSlot.skinVertexBody
    simp only [hcount, hinner]
    have hpl : ((T.take i).flatMap
        (fun infl => [skinnedX bones infl, skinnedY bones infl])).length = i * 2 := by
      rw [flatMap_pair_length, List.length_take]
      omega
    have h1 : 2 * i < res.length := by omega
    have h2 : 2 * i + 1 < res.length := by omega
    have hd : res.drop (2 * i) = res[2 * i] :: res[2 * i + 1] :: res.drop (2 * (i + 1)) := by
      rw [List.drop_eq_getElem_cons h1, List.drop_eq_getElem_cons h2]
      rfl
    rw [hd, set_set_pair _ _ _ _ _ _ (i * 2) hpl, htake, encodeBoneIndices_append,
      encodeWeights_append, List.flatMap_append]
    have e1 : (encodeBoneIndices [T[i]]).length = 1 + T[i].length := by
      simp [encodeBoneIndices]
      omega
    have e2 : (encodeWeights [T[i]]).length = 3 * T[i].length := by
      simp only [encodeWeights, List.flatMap_cons, List.flatMap_nil, List.append_nil]
      exact flatMap_triple_length _
    rw [List.length_append, List.length_append, e1, e2]
    simp only [List.flatMap_cons, List.flatMap_nil, List.append_nil, zero_add, List.append_assoc,
      List.cons_append, List.nil_append, Prod.mk.injEq, and_true]
    constructor <;> omega

/-- The skinning path of `_updateMesh` on a well-formed weight table. -/
theorem updateMesh_skinned (s : WebGLSlot) (frame : DisplayFrame) (d : DisplayData)
    (weight : WeightData) (table : List (List Influence)) (loc : List ℚ)
    (hf : s._displayFrame = some frame) (hd : frame.display = some d) (hmesh : d.type = 2)
    (hw : d.geometry.weight = some weight) (hloc : s._localVertices = some loc)
    (hlen : loc.length = 2 * table.length)
    (htable : WeightTableOf d.geometry weight table) :
    s._updateMesh = some { s with _localVertices := some (table.flatMap (fun infl =>
      [skinnedX s._geometryBones infl, skinnedY s._geometryBones infl])) } := by
  obtain ⟨pre, post, fpre, fpost, hbi, hpre, hraw, hfpre⟩ := htable
  have hn : loc.length / 2 = table.length := by omega
  have hout := skin_outer s._geometryBones table d.geometry.intArray pre post
    d.geometry.floatArray fpre fpost loc hbi hraw (by omega) table.length le_rfl
  rw [List.take_length, List.drop_of_length_le (by omega), List.append_nil] at hout
  unfold WebGLSlot._updateMesh
  simp only [hf, hd, hmesh, hw, hloc, ne_eq, not_true_eq_false, if_false, hn, ← hpre, ← hfpre,
    hout]

/-! ## Claim C6: skinned path -/

/-- C6. For a weighted mesh whose weight table is well formed and lists `table`, and any bone
array, `_updateMesh` succeeds and each vertex `i` of the new `_localVertices` is the sum, over
the listed influences `(bone, w, (vx, vy))` of vertex `i` whose bone is resolved, of
`w * (a * vx + c * vy + tx, b * vx + d * vy + ty)` with the matrix of that bone. An influence
whose bone is unresolved adds nothing, and each influence is read with its own triple. -/
theorem skinned_path_weighted_sum (s : WebGLSlot) (frame : DisplayFrame) (d : DisplayData)
    (weight : WeightData) (table : List (List Influence)) (loc : List ℚ)
    (hf : s._displayFrame = some frame) (hd : frame.display = some d) (hmesh : d.type = 2)
    (hw : d.geometry.weight = some weight) (hloc : s._localVertices = some loc)
    (hlen : loc.length = 2 * table.length)
    (htable : WeightTableOf d.geometry weight table) :
    ∃ out : List ℚ,
      s._updateMesh = some { s with _localVertices := some out } ∧
      out.length = 2 * table.length ∧
      ∀ i (hi : i < table.length),
        out[2 * i]? = some
          ((table[i].filterMap (fun f => (resolvedBone s._geometryBones f.bone).map
            (fun bone => f.weight * (bone.globalTransformMatrix.a * f.x +
              bone.globalTransformMatrix.c * f.y + bone.globalTransformMatrix.tx)))).sum) ∧
        out[2 * i + 1]? = some
          ((table[i].filterMap (fun f => (resolvedBone s._geometryBones f.bone).map
            (fun bone => f.weight * (bone.globalTransformMatrix.b * f.x +
              bone.globalTransformMatrix.d * f.y + bone.globalTransformMatrix.ty)))).sum) := by
  refine ⟨_, updateMesh_skinned s frame d weight table loc hf hd hmesh hw hloc hlen htable,
    flatMap_pair_length _ _ _, ?_⟩
  intro i hi
  have h := flatMap_pair_getElem? table (skinnedX s._geometryBones)
    (skinnedY s._geometryBones) i
  rw [List.getElem?_eq_getElem hi] at h
  exact h

/-- C6, witness: bone `1` is unresolved; vertex `1` lists it first and still reads the triple
`(1, 3, 5)` for bone `0`. -/
theorem skinned_path_weighted_sum_witness :
    ∃ out : List ℚ,
      (meshSlot skinGeometry [some bone0, none])._updateMesh =
        some { meshSlot skinGeometry [some bone0, none] with _localVertices := some out } ∧
      out[2 * 0]? = some 6 ∧ out[2 * 0 + 1]? = some 10 ∧
      out[2 * 1]? = some 13 ∧ out[2 * 1 + 1]? = some 25 := by
  obtain ⟨out, h1, -, h3⟩ := skinned_path_weighted_sum (meshSlot skinGeometry [some bone0, none])
    (meshFrame skinGeometry) (meshDisplay skinGeometry) { offset := 7, bones := [0, 1] }
    skinTable [0, 0, 0, 0] rfl rfl rfl rfl rfl rfl
    ⟨[2, 1, 0, 7, 0, 1, 0, 2, 8, 0, 1], [], [0, 0, 1, 1, 0, 0, 1, 1], [], rfl, rfl, rfl, rfl⟩
  refine ⟨out, h1, ?_⟩
  have e0 := h3 0 (by decide)
  have e1 := h3 1 (by decide)
  rw [e0.1, e0.2, e1.1, e1.2]
  simp [skinTable, meshSlot, resolvedBone, bone0]
  norm_num

/-! ## Claim C7: rigid path -/

/-- C7. For an eligible slot with its buffers set whose display has no weight table (a static
quad or an unweighted mesh), `render` succeeds, the new `_resultVertices` has the length of
`_localVertices`, each vertex `i` has `result[2i] = (a * lx + c * ly + tx) * scaleX + x` and
`result[2i + 1] = (b * lx + d * ly + ty) * scaleY + y` for the local vertex `(lx, ly)`, and this
array is the one submitted to `renderMesh`, with the texture of the atlas, `_uvs`, `_indices` and
`_color`. -/
theorem rigid_path_formula (s : WebGLSlot) (renderer : DragonBonesRenderer)
    (display : WebGLArmatureDisplay) (frame : DisplayFrame) (td : TextureData)
    (loc result uvs : List ℚ) (indices : List Nat)
    (hvis : s.hidden = false)
    (hloc : s._localVertices = some loc) (hres : s._resultVertices = some result)
    (huvs : s._uvs = some uvs) (hidx : s._indices = some indices)
    (hlen : result.length = loc.length) (heven : loc.length % 2 = 0)
    (hf : s._displayFrame = some frame) (htd : frame.textureData = some td)
    (hrigid : hasWeight frame.display = false) :
    ∃ res : List ℚ,
      s.render renderer display =
        some ({ s with _resultVertices := some res },
          renderer.renderMesh td.parent.renderTexture res uvs indices s._color) ∧
      res.length = loc.length ∧
      ∀ i, i < loc.length / 2 →
        res[2 * i]? = some
          ((s.globalTransformMatrix.a * loc.getD (2 * i) 0 +
            s.globalTransformMatrix.c * loc.getD (2 * i + 1) 0 +
            s.globalTransformMatrix.tx) * display.scaleX + display.x) ∧
        res[2 * i + 1]? = some
          ((s.globalTransformMatrix.b * loc.getD (2 * i) 0 +
            s.globalTransformMatrix.d * loc.getD (2 * i + 1) 0 +
            s.globalTransformMatrix.ty) * display.scaleY + display.y) := by
  refine ⟨_, render_rigid s renderer display frame td loc result uvs indices hvis hloc hres
    huvs hidx hlen heven hf htd hrigid, ?_, ?_⟩
  · rw [pairs_length]
    omega
  · intro i hi
    have := pairs_getElem?
      (fun i => (s.globalTransformMatrix.a * loc.getD (i * 2) 0 +
        s.globalTransformMatrix.c * loc.getD (i * 2 + 1) 0 +
        s.globalTransformMatrix.tx) * display.scaleX + display.x)
      (fun i => (s.globalTransformMatrix.b * loc.getD (i * 2) 0 +
        s.globalTransformMatrix.d * loc.getD (i * 2 + 1) 0 +
        s.globalTransformMatrix.ty) * display.scaleY + display.y)
      (loc.length / 2) i hi
    simpa [Nat.mul_comm] using this

/-- C7, witness: vertex `1` of a 64 x 64 quad under a scaling slot matrix and a moved,
scaled container. -/
theorem rigid_path_formula_witness :
    ∃ res : List ℚ,
      scaledQuadSlot.render DragonBonesRenderer.create movedDisplay =
        some ({ scaledQuadSlot with _resultVertices := some res },
          DragonBonesRenderer.create.renderMesh (some 0) res
            [0, 0, 1 / 2, 0, 1 / 2, 1 / 2, 0, 1 / 2] [0, 1, 2, 0, 2, 3] [1, 1, 1, 1]) ∧
      res[2 * 1]? = some 281 ∧ res[2 * 1 + 1]? = some 17 := by
  obtain ⟨res, h1, -, h3⟩ := rigid_path_formula scaledQuadSlot DragonBonesRenderer.create
    movedDisplay (imageFrame (plainTexture 0 0 64 64 false)) (plainTexture 0 0 64 64 false)
    [0, 0, 64, 0, 64, 64, 0, 64] [0, 0, 0, 0, 0, 0, 0, 0]
    [0, 0, 1 / 2, 0, 1 / 2, 1 / 2, 0, 1 / 2] [0, 1, 2, 0, 2, 3]
    quadSlot_hidden rfl rfl rfl rfl rfl rfl rfl rfl rfl
  refine ⟨res, h1, ?_⟩
  have h := h3 1 (by decide)
  rw [h.1, h.2]
  norm_num [scaledQuadSlot, movedDisplay]

/-! ## One bone at weight 1, with exact stores -/

/-- With exact stores, that is without the rounding of the typed arrays: a weighted mesh with one
influence per vertex, each a resolved bone with global matrix `M` at weight `1` and local offset
`p_i`, taken through `_updateMesh` and `render`, ends with the same `_resultVertices` as `render`
on a rigid slot with slot matrix `M` and local vertices `p_i` under the same container
transform. -/
theorem single_bone_reproduces_rigid (sW sR : WebGLSlot) (rW rR : DragonBonesRenderer)
    (display : WebGLArmatureDisplay) (M : Matrix) (infl : List Influence)
    (frameW frameR : DisplayFrame) (dW : DisplayData) (weight : WeightData)
    (tdW tdR : TextureData) (locW resW uvsW resR uvsR : List ℚ) (idxW idxR : List Nat)
    (hWvis : sW.hidden = false) (hWf : sW._displayFrame = some frameW)
    (hWd : frameW.display = some dW) (hWmesh : dW.type = 2)
    (hWw : dW.geometry.weight = some weight) (hWtd : frameW.textureData = some tdW)
    (hWloc : sW._localVertices = some locW) (hWres : sW._resultVertices = some resW)
    (hWuvs : sW._uvs = some uvsW) (hWidx : sW._indices = some idxW)
    (hWlen : locW.length = 2 * infl.length) (hWrlen : resW.length = locW.length)
    (htable : WeightTableOf dW.geometry weight (infl.map (fun f => [f])))
    (hbone : ∀ f ∈ infl, f.weight = 1 ∧ ∃ bone,
      resolvedBone sW._geometryBones f.bone = some bone ∧ bone.globalTransformMatrix = M)
    (hRvis : sR.hidden = false) (hRf : sR._displayFrame = some frameR)
    (hRtd : frameR.textureData = some tdR) (hRrigid : hasWeight frameR.display = false)
    (hRM : sR.globalTransformMatrix = M)
    (hRloc : sR._localVertices = some (infl.flatMap (fun f => [f.x, f.y])))
    (hRres : sR._resultVertices = some resR) (hRrlen : resR.length = 2 * infl.length)
    (hRuvs : sR._uvs = some uvsR) (hRidx : sR._indices = some idxR) :
    ∃ sW1 sW2 rW2 sR2 rR2,
      sW._updateMesh = some sW1 ∧ sW1.render rW display = some (sW2, rW2) ∧
      sR.render rR display = some (sR2, rR2) ∧
      sW2._resultVertices = sR2._resultVertices := by
  have h1 := updateMesh_skinned sW frameW dW weight (infl.map (fun f => [f])) locW hWf hWd
    hWmesh hWw hWloc (by rw [List.length_map]; exact hWlen) htable
  have hL1 : (infl.map (fun f => [f])).flatMap (fun infl => [skinnedX sW._geometryBones infl,
      skinnedY sW._geometryBones infl]) =
      infl.flatMap (fun f => [skinnedX sW._geometryBones [f],
        skinnedY sW._geometryBones [f]]) := by
    rw [List.flatMap_def, List.flatMap_def, List.map_map]
    rfl
  rw [hL1] at h1
  have hlenW : (infl.flatMap (fun f => [skinnedX sW._geometryBones [f],
      skinnedY sW._geometryBones [f]])).length = 2 * infl.length := flatMap_pair_length _ _ _
  have hlenR : (infl.flatMap (fun f => [f.x, f.y])).length = 2 * infl.length :=
    flatMap_pair_length _ _ _
  have hskin : hasWeight frameW.display = true := by
    rw [hWd]
    simp [hasWeight, hWmesh, hWw]
  have h2 := render_skinned
    { sW with _localVertices := some (infl.flatMap (fun f =>
      [skinnedX sW._geometryBones [f], skinnedY sW._geometryBones [f]])) }
    rW display frameW tdW _ resW uvsW idxW
    (by simpa [WebGLSlot.hidden] using hWvis) rfl hWres hWuvs hWidx
    (by rw [hlenW, hWrlen, hWlen]) (by rw [hlenW]; omega) hWf hWtd hskin
  have h3 := render_rigid sR rR display frameR tdR _ resR uvsR idxR hRvis hRloc hRres hRuvs
    hRidx (by rw [hlenR, hRrlen]) (by rw [hlenR]; omega) hRf hRtd hRrigid
  refine ⟨_, _, _, _, _, h1, h2, h3, ?_⟩
  simp only [hlenW, hlenR]
  congr 1
  apply range_flatMap_congr
  intro i hi
  have hi2 : i < infl.length := by omega
  obtain ⟨hw1, bone, hb, hbM⟩ := hbone infl[i] (List.getElem_mem hi2)
  have hX := flatMap_pair_getD infl (fun f => skinnedX sW._geometryBones [f])
    (fun f => skinnedY sW._geometryBones [f]) i hi2
  have hP := flatMap_pair_getD infl (fun f => f.x) (fun f => f.y) i hi2
  rw [hX.1, hX.2, hP.1, hP.2, hRM]
  simp only [skinnedX, skinnedY, List.filterMap_cons, hb, Option.map_some', List.filterMap_nil,
    List.sum_cons, List.sum_nil, hw1, hbM]
  simp

theorem oneBoneInfluences_ok : ∀ f ∈ oneBoneInfluences, f.weight = 1 ∧ ∃ bone,
    resolvedBone (meshSlot oneBoneGeometry [some bone0])._geometryBones f.bone = some bone ∧
      bone.globalTransformMatrix = bone0.globalTransformMatrix := by
  intro f hf
  simp only [oneBoneInfluences, List.mem_cons, List.mem_singleton, List.not_mem_nil,
    or_false] at hf
  rcases hf with rfl | rfl <;> exact ⟨rfl, bone0, rfl, rfl⟩

/-- An instance of `single_bone_reproduces_rigid`: two vertices skinned to bone `0` at weight `1`,
against the rigid slot with the matrix of bone `0`, under a moved and scaled container. -/
theorem single_bone_reproduces_rigid_witness :
    ∃ sW1 sW2 rW2 sR2 rR2,
      (meshSlot oneBoneGeometry [some bone0])._updateMesh = some sW1 ∧
      sW1.render DragonBonesRenderer.create movedDisplay = some (sW2, rW2) ∧
      rigidSlot.render DragonBonesRenderer.create movedDisplay = some (sR2, rR2) ∧
      sW2._resultVertices = sR2._resultVertices :=
  single_bone_reproduces_rigid (meshSlot oneBoneGeometry [some bone0]) rigidSlot
    DragonBonesRenderer.create DragonBonesRenderer.create movedDisplay
    bone0.globalTransformMatrix oneBoneInfluences
    (meshFrame oneBoneGeometry) (imageFrame (plainTexture 0 0 64 64 false))
    (meshDisplay oneBoneGeometry) { offset := 7, bones := [0] }
    (plainTexture 0 0 64 64 false) (plainTexture 0 0 64 64 false)
    [0, 0, 0, 0] [0, 0, 0, 0] [0, 0, 1, 1] [0, 0, 0, 0] [0, 0, 1, 1] [0, 1, 0] [0, 1, 0]
    (meshSlot_hidden _ _) rfl rfl rfl rfl rfl rfl rfl rfl rfl rfl rfl
    ⟨[2, 1, 0, 7, 0, 1, 0, 1, 8, 0], [], [0, 0, 0, 0, 0, 0, 0, 0], [], rfl, rfl, rfl, rfl⟩
    oneBoneInfluences_ok
    rigidSlot_hidden rfl rfl rfl rfl rfl rfl rfl rfl rfl

/-! ## Claim C9: UVs of a static quad -/

/-- C9. On a frame with texture data whose display is not a mesh, with atlas dimensions `W`, `H`
that are not zero, `_updateFrame` succeeds and leaves in `_uvs` the eight floats
`[l, t, r, t, r, b, l, b]` with `l = x / W`, `t = y / H`, `r = (x + width) / W`,
`b = (y + height) / H` when the texture is not rotated, and `[r, t, r, b, l, b, l, t]` with
`r = (x + height) / W`, `b = (y + width) / H` when it is rotated. -/
theorem quad_uvs (s : WebGLSlot) (frame : DisplayFrame) (td : TextureData)
    (hf : s._displayFrame = some frame) (htd : frame.textureData = some td)
    (hquad : isMesh frame.display = false) (hal : s.Aligned)
    (hW : td.parent.width ≠ 0) (hH : td.parent.height ≠ 0) :
    ∃ s1, s._updateFrame = some s1 ∧
      s1._uvs = some
        (if td.rotated then
          [(td.region.x + td.region.height) / td.parent.width, td.region.y / td.parent.height,
           (td.region.x + td.region.height) / td.parent.width,
           (td.region.y + td.region.width) / td.parent.height,
           td.region.x / td.parent.width, (td.region.y + td.region.width) / td.parent.height,
           td.region.x / td.parent.width, td.region.y / td.parent.height]
        else
          [td.region.x / td.parent.width, td.region.y / td.parent.height,
           (td.region.x + td.region.width) / td.parent.width, td.region.y / td.parent.height,
           (td.region.x + td.region.width) / td.parent.width,
           (td.region.y + td.region.height) / td.parent.height,
           td.region.x / td.parent.width,
           (td.region.y + td.region.height) / td.parent.height]) := by
  obtain ⟨r, -, h⟩ := updateFrame_quad s frame td hf htd hquad hal
  refine ⟨_, h, ?_⟩
  simp only [WebGLSlot.quadUvs, orOne, hW, hH, if_false]

/-- C9, witness: region `{0, 0, 64, 64}` in a 128 x 128 atlas, not rotated, gives
`[0, 0, 0.5, 0, 0.5, 0.5, 0, 0.5]`. -/
theorem quad_uvs_witness :
    Option.map WebGLSlot._uvs quadSlot._updateFrame =
      some (some [0, 0, 1 / 2, 0, 1 / 2, 1 / 2, 0, 1 / 2]) := by
  obtain ⟨s1, h1, h2⟩ := quad_uvs quadSlot (imageFrame (plainTexture 0 0 64 64 false))
    (plainTexture 0 0 64 64 false) rfl rfl rfl (freshSlot_aligned _)
    (by norm_num [plainTexture, atlas128]) (by norm_num [plainTexture, atlas128])
  rw [h1, Option.map_some', h2]
  norm_num [plainTexture, atlas128]

/-! ## Claim C10: local vertices of an untrimmed static quad -/

/-- C10, counterexample. For a rotated, untrimmed region of width `64` and height `32` with
pivot `(0, 0)`, `_updateFrame` leaves `[0, 0, 32, 0, 32, 64, 0, 64]` in `_localVertices`: the
rectangle is `height x width`, not the `[0, 0, 64, 0, 64, 32, 0, 32]` of the region's own
width and height. -/
theorem quad_local_vertices_rotated :
    rotatedSlot._displayFrame = some (imageFrame (plainTexture 0 0 64 32 true)) ∧
    Option.map WebGLSlot._localVertices rotatedSlot._updateFrame =
      some (some [0, 0, 32, 0, 32, 64, 0, 64]) ∧
    Option.map WebGLSlot._localVertices rotatedSlot._updateFrame ≠
      some (some [-(0 * 64), -(0 * 32), 64 - 0 * 64, -(0 * 32), 64 - 0 * 64, 32 - 0 * 32,
        -(0 * 64), 32 - 0 * 32]) := by
  obtain ⟨r, -, h⟩ := updateFrame_quad rotatedSlot (imageFrame (plainTexture 0 0 64 32 true))
    (plainTexture 0 0 64 32 true) rfl rfl rfl (freshSlot_aligned _)
  have e : Option.map WebGLSlot._localVertices rotatedSlot._updateFrame =
      some (some [0, 0, 32, 0, 32, 64, 0, 64]) := by
    rw [h]
    norm_num [WebGLSlot.quadLocalVertices, plainTexture, imageFrame, DisplayFrame.display,
      imageDisplay]
  refine ⟨rfl, e, ?_⟩
  rw [e]
  norm_num

/-- C10, amended. On a frame with texture data, without a trim frame, whose display is not a
mesh, `_updateFrame` leaves `[-pX, -pY, w - pX, -pY, w - pX, h - pY, -pX, h - pY]` in
`_localVertices`, where `(w, h)` is the region's `(width, height)` when the texture is not rotated
and `(height, width)` when it is rotated, `pX = pivotX * w`, `pY = pivotY * h`, and the pivot is
the display's pivot when its type is image (`0`) and `(0, 0)` otherwise. When the slot is
eligible, `render` with identity slot matrix, scale `(1, 1)` and translate `(0, 0)` then leaves
the same values in `_resultVertices`. -/
theorem quad_local_vertices (s : WebGLSlot) (frame : DisplayFrame) (td : TextureData)
    (w h pivotX pivotY : ℚ)
    (hf : s._displayFrame = some frame) (htd : frame.textureData = some td)
    (hquad : isMesh frame.display = false) (hal : s.Aligned)
    (htrim : td.frame = none)
    (hw : w = if td.rotated then td.region.height else td.region.width)
    (hh : h = if td.rotated then td.region.width else td.region.height)
    (hpivot : (∃ d, frame.display = some d ∧ d.type = 0 ∧ pivotX = d.pivot.x ∧
        pivotY = d.pivot.y) ∨
      ((∀ d, frame.display = some d → d.type ≠ 0) ∧ pivotX = 0 ∧ pivotY = 0)) :
    ∃ s1, s._updateFrame = some s1 ∧
      s1._localVertices = some
        [-(pivotX * w), -(pivotY * h), w - pivotX * w, -(pivotY * h),
         w - pivotX * w, h - pivotY * h, -(pivotX * w), h - pivotY * h] ∧
      ∀ (renderer : DragonBonesRenderer) (display : WebGLArmatureDisplay),
        s.hidden = false → s.globalTransformMatrix = identityMatrix →
        display.x = 0 → display.y = 0 → display.scaleX = 1 → display.scaleY = 1 →
        ∃ s2 r2, s1.render renderer display = some (s2, r2) ∧
          s2._resultVertices = s1._localVertices := by
  obtain ⟨r, hr, hs1⟩ := updateFrame_quad s frame td hf htd hquad hal
  have hlv : WebGLSlot.quadLocalVertices td frame.display =
      [-(pivotX * w), -(pivotY * h), w - pivotX * w, -(pivotY * h),
       w - pivotX * w, h - pivotY * h, -(pivotX * w), h - pivotY * h] := by
    unfold WebGLSlot.quadLocalVertices
    rw [htrim, hw, hh]
    rcases hpivot with ⟨d, hd, ht, hx, hy⟩ | ⟨hno, hx, hy⟩
    · rw [hd, hx, hy]
      cases td.rotated <;> simp [ht]
    · rw [hx, hy]
      cases hdd : frame.display with
      | none => cases td.rotated <;> simp
      | some d => cases td.rotated <;> simp [hno d hdd]
  refine ⟨_, hs1, by rw [hlv], ?_⟩
  intro renderer display hvis hm hx hy hsx hsy
  have hrig : hasWeight frame.display = false := by
    unfold isMesh at hquad
    unfold hasWeight
    cases hdd : frame.display with
    | none => rfl
    | some d =>
      rw [hdd] at hquad
      simp only at hquad
      simp [hquad]
  have hrender := render_rigid
    { s with
      _indices := some (WebGLSlot.quadIndices s._indices)
      _uvs := some (WebGLSlot.quadUvs td (orOne td.parent.width) (orOne td.parent.height))
      _localVertices := some (WebGLSlot.quadLocalVertices td frame.display)
      _resultVertices := some r }
    renderer display frame td (WebGLSlot.quadLocalVertices td frame.display) r
    (WebGLSlot.quadUvs td (orOne td.parent.width) (orOne td.parent.height))
    (WebGLSlot.quadIndices s._indices)
    (by simpa [WebGLSlot.hidden] using hvis) rfl rfl rfl rfl
    (by rw [hr, quadLocalVertices_length]) (by rw [quadLocalVertices_length]) hf htd hrig
  refine ⟨_, _, hrender, ?_⟩
  simp only [hlv, hm, identityMatrix, hx, hy, hsx, hsy]
  simp [List.range_succ, List.flatMap]

/-- C10, witness: a 64 x 64 region with pivot `(0, 0)` gives `[0, 0, 64, 0, 64, 64, 0, 64]`,
and `render` with identity matrix, scale `(1, 1)` and translate `(0, 0)` gives the same
`_resultVertices`. -/
theorem quad_local_vertices_witness :
    ∃ s1 s2 r2, quadSlot._updateFrame = some s1 ∧
      s1._localVertices = some [0, 0, 64, 0, 64, 64, 0, 64] ∧
      s1.render DragonBonesRenderer.create plainDisplay = some (s2, r2) ∧
      s2._resultVertices = some [0, 0, 64, 0, 64, 64, 0, 64] := by
  obtain ⟨s1, h1, h2, h3⟩ := quad_local_vertices quadSlot
    (imageFrame (plainTexture 0 0 64 64 false)) (plainTexture 0 0 64 64 false) 64 64 0 0
    rfl rfl rfl (freshSlot_aligned _) rfl rfl rfl (Or.inl ⟨imageDisplay 0 0, rfl, rfl, rfl, rfl⟩)
  obtain ⟨s2, r2, h4, h5⟩ := h3 DragonBonesRenderer.create plainDisplay quadSlot_hidden rfl
    rfl rfl rfl rfl
  have e : s1._localVertices = some [0, 0, 64, 0, 64, 64, 0, 64] := by
    rw [h2]
    norm_num
  exact ⟨s1, s2, r2, h1, e, h4, by rw [h5, e]⟩

/-! ## Slots that are skipped, frames without texture -/

theorem render_of_hidden (s : WebGLSlot) (renderer : DragonBonesRenderer)
    (display : WebGLArmatureDisplay) (h : s.hidden = true) :
    s.render renderer display = some (s, renderer) := by
  unfold WebGLSlot.render
  rw [if_pos h]

theorem render_of_no_localVertices (s : WebGLSlot) (renderer : DragonBonesRenderer)
    (display : WebGLArmatureDisplay) (h : s._localVertices = none) :
    s.render renderer display = some (s, renderer) := by
  unfold WebGLSlot.render
  split
  · rfl
  · rw [h]

theorem updateFrame_of_no_texture (s : WebGLSlot) (frame : DisplayFrame)
    (hf : s._displayFrame = some frame) (ht : frame.textureData = none) :
    s._updateFrame = some s := by
  unfold WebGLSlot._updateFrame
  rw [hf]
  simp only [ht]

/-- With local and result vertices set and a frame without texture data, an eligible slot makes
`render` raise: `this._displayFrame.getTextureData()` is `null` where `.parent` is read. -/
theorem render_raises_without_texture (s : WebGLSlot) (renderer : DragonBonesRenderer)
    (display : WebGLArmatureDisplay) (frame : DisplayFrame) (loc res : List ℚ)
    (hvis : s.hidden = false) (hloc : s._localVertices = some loc)
    (hres : s._resultVertices = some res) (hf : s._displayFrame = some frame)
    (ht : frame.textureData = none) : s.render renderer display = none := by
  unfold WebGLSlot.render
  simp only [hvis, hloc, hres, hf, ht, Bool.false_eq_true, if_false]

/-- The quad path of `_updateFrame` on a slot whose `_uvs` is unset: all three float buffers
are allocated. -/
theorem updateFrame_quad_of_unset (s : WebGLSlot) (frame : DisplayFrame) (td : TextureData)
    (hf : s._displayFrame = some frame) (htd : frame.textureData = some td)
    (hquad : isMesh frame.display = false) (hu : s._uvs = none) :
    s._updateFrame = some { s with
      _indices := some (WebGLSlot.quadIndices s._indices)
      _uvs := some (WebGLSlot.quadUvs td (orOne td.parent.width) (orOne td.parent.height))
      _localVertices := some (WebGLSlot.quadLocalVertices td frame.display)
      _resultVertices := some (List.replicate 8 0) } := by
  have hall : s.allocate 8 = (some (List.replicate 8 0), some (List.replicate 8 0),
      some (List.replicate 8 0)) := by
    unfold WebGLSlot.allocate
    rw [hu]
  unfold WebGLSlot._updateFrame
  simp only [hf, htd, hquad, hall, Bool.false_eq_true, if_false]
  rw [typedSet_of_length_eq _ _ (by rw [quadUvs_length]; rfl),
    typedSet_of_length_eq _ _ (by rw [quadLocalVertices_length]; rfl)]

theorem quadSlot_updateFrame : quadSlot._updateFrame = some builtQuadSlot := by
  rw [updateFrame_quad_of_unset quadSlot (imageFrame (plainTexture 0 0 64 64 false))
    (plainTexture 0 0 64 64 false) rfl rfl rfl rfl]
  simp only [builtQuadSlot, WebGLSlot.quadIndices, WebGLSlot.quadUvs,
    WebGLSlot.quadLocalVertices, plainTexture, atlas128, imageFrame, DisplayFrame.display,
    imageDisplay, orOne, quadSlot, freshSlot, WebGLSlot.create]
  norm_num
  rfl

theorem builtQuadSlot_hidden : builtQuadSlot.hidden = false := by
  simp [WebGLSlot.hidden, builtQuadSlot, quadSlot, freshSlot, WebGLSlot.create]

/-! ## Claim C13: ineligible slots -/

/-- C13. When a slot has no render display, or a negative display index, or is not visible, or
has `_color[3] <= 0`, or has `_localVertices` unset, `render` returns with the renderer (counts,
staging buffers, texture, draw calls) and the slot (so `_resultVertices`) unchanged. -/
theorem ineligible_slot_contributes_nothing (s : WebGLSlot) (renderer : DragonBonesRenderer)
    (display : WebGLArmatureDisplay)
    (h : s._renderDisplay = false ∨ s._displayIndex < 0 ∨ s._visible = false ∨
      (∃ a, s._color[3]? = some a ∧ a ≤ 0) ∨ s._localVertices = none) :
    s.render renderer display = some (s, renderer) := by
  rcases h with h | h | h | ⟨a, ha, hle⟩ | h
  · exact render_of_hidden s renderer display (by simp [WebGLSlot.hidden, h])
  · exact render_of_hidden s renderer display (by simp [WebGLSlot.hidden, h])
  · exact render_of_hidden s renderer display (by simp [WebGLSlot.hidden, h])
  · refine render_of_hidden s renderer display ?_
    simp [WebGLSlot.hidden, ha, hle]
  · exact render_of_no_localVertices s renderer display h

/-- C13, witness: an invisible slot with built buffers, on a renderer with data pending. -/
theorem ineligible_slot_contributes_nothing_witness :
    invisibleSlot.render onePending movedDisplay = some (invisibleSlot, onePending) :=
  ineligible_slot_contributes_nothing invisibleSlot onePending movedDisplay
    (Or.inr (Or.inr (Or.inl rfl)))

/-! ## Claim C14: missing texture at render time -/

/-- C14, the code at the failing input. A fresh visible slot builds a 64 x 64 quad from a frame
with texture data; the runtime then gives it a frame without texture data, on which
`_updateFrame` changes nothing, so the buffers of the quad stay; `render` then raises, because
it reads `.parent` of the `null` that `getTextureData()` returns. -/
theorem render_raises_on_stale_buffers :
    quadSlot._updateFrame = some builtQuadSlot ∧
      staleSlot = builtQuadSlot.setDisplayFrame texturelessFrame ∧
      texturelessFrame.textureData = none ∧
      staleSlot._updateFrame = some staleSlot ∧
      staleSlot.render DragonBonesRenderer.create plainDisplay = none :=
  ⟨quadSlot_updateFrame, rfl, rfl, updateFrame_of_no_texture staleSlot texturelessFrame rfl rfl,
    render_raises_without_texture staleSlot DragonBonesRenderer.create plainDisplay
      texturelessFrame [0, 0, 64, 0, 64, 64, 0, 64] [0, 0, 0, 0, 0, 0, 0, 0]
      builtQuadSlot_hidden rfl rfl rfl rfl⟩

/-! ## Claim C20: a frame without texture -/

/-- C20. `_updateFrame` on a frame whose `getTextureData()` is absent returns the slot as it
was, so `_indices`, `_uvs`, `_localVertices` and `_resultVertices` are unchanged; when
`_localVertices` was unset, as on a fresh or cleared slot, it stays unset and a following
`render` leaves the renderer and the slot unchanged. -/
theorem textureless_frame_is_noop (s : WebGLSlot) (frame : DisplayFrame)
    (hf : s._displayFrame = some frame) (ht : frame.textureData = none) :
    s._updateFrame = some s ∧
      (s._localVertices = none →
        ∀ (renderer : DragonBonesRenderer) (display : WebGLArmatureDisplay),
          s.render renderer display = some (s, renderer)) :=
  ⟨updateFrame_of_no_texture s frame hf ht,
    fun h renderer display => render_of_no_localVertices s renderer display h⟩

/-- C20, witness: a fresh slot, and a cleared slot that had built buffers. -/
theorem textureless_frame_is_noop_witness :
    emptySlot._updateFrame = some emptySlot ∧
      emptySlot.render onePending plainDisplay = some (emptySlot, onePending) ∧
      (builtQuadSlot._onClear.setDisplayFrame texturelessFrame)._updateFrame =
        some (builtQuadSlot._onClear.setDisplayFrame texturelessFrame) ∧
      (builtQuadSlot._onClear.setDisplayFrame texturelessFrame).render onePending plainDisplay =
        some (builtQuadSlot._onClear.setDisplayFrame texturelessFrame, onePending) :=
  ⟨(textureless_frame_is_noop emptySlot texturelessFrame rfl rfl).1,
    (textureless_frame_is_noop emptySlot texturelessFrame rfl rfl).2 rfl onePending plainDisplay,
    (textureless_frame_is_noop (builtQuadSlot._onClear.setDisplayFrame texturelessFrame)
      texturelessFrame rfl rfl).1,
    (textureless_frame_is_noop (builtQuadSlot._onClear.setDisplayFrame texturelessFrame)
      texturelessFrame rfl rfl).2 rfl onePending plainDisplay⟩

/-! ## The mesh path of `_updateFrame` -/

theorem meshUvBody_eq (td : TextureData) (w h : ℚ) (floatArray : List ℚ) (uvOffset : Nat)
    (uvs : List ℚ) (i : Nat) :
    WebGLSlot.meshUvBody td w h floatArray uvOffset uvs i =
      (uvs.set (i * 2) (WebGLSlot.meshUv td w h (floatArray.getD (uvOffset + i * 2) 0)
        (floatArray.getD (uvOffset + i * 2 + 1) 0)).1).set (i * 2 + 1)
        (WebGLSlot.meshUv td w h (floatArray.getD (uvOffset + i * 2) 0)
          (floatArray.getD (uvOffset + i * 2 + 1) 0)).2 := by
  unfold WebGLSlot.meshUvBody WebGLSlot.meshUv
  cases td.rotated <;> rfl

theorem allocate_fst (s : WebGLSlot) (n : Nat) :
    ∃ u0, (s.allocate n).1 = some u0 ∧ u0.length = n := by
  unfold WebGLSlot.allocate
  cases hu : s._uvs with
  | none => exact ⟨_, rfl, by simp⟩
  | some u =>
    by_cases hn : u.length = n
    · simp only [hn, ne_eq, not_true_eq_false, if_false]
      exact ⟨u, rfl, hn⟩
    · simp only [ne_eq, hn, not_false_eq_true, if_true]
      exact ⟨_, rfl, by simp⟩

theorem meshUv_fold (td : TextureData) (w h : ℚ) (floatArray : List ℚ) (uvOffset n : Nat)
    (u0 : List ℚ) (hlen : u0.length = n * 2) :
    (List.range n).foldl (WebGLSlot.meshUvBody td w h floatArray uvOffset) u0 =
      WebGLSlot.meshUvs td w h floatArray uvOffset n := by
  have hbody : WebGLSlot.meshUvBody td w h floatArray uvOffset =
      fun uvs i => (uvs.set (i * 2) (WebGLSlot.meshUv td w h
        (floatArray.getD (uvOffset + i * 2) 0) (floatArray.getD (uvOffset + i * 2 + 1) 0)).1).set
        (i * 2 + 1) (WebGLSlot.meshUv td w h (floatArray.getD (uvOffset + i * 2) 0)
          (floatArray.getD (uvOffset + i * 2 + 1) 0)).2 := by
    funext uvs i
    exact meshUvBody_eq _ _ _ _ _ _ _
  rw [hbody, pair_fold_full _ _ u0 n (by omega)]
  rfl

/-- The mesh path of `_updateFrame`: the index buffer is copied from the geometry, the UV
buffer holds one remapped pair per vertex, the two vertex buffers are those of the guarded
allocation. -/
theorem updateFrame_mesh (s : WebGLSlot) (frame : DisplayFrame) (td : TextureData)
    (d : DisplayData) (n uvOffset : Nat)
    (hf : s._displayFrame = some frame) (htd : frame.textureData = some td)
    (hd : frame.display = some d) (hmesh : d.type = 2)
    (hn : n = d.geometry.intArray.getD (d.geometry.offset + 0) 0)
    (hoff : uvOffset = d.geometry.intArray.getD (d.geometry.offset + 2) 0 + n * 2) :
    s._updateFrame = some { s with
      _indices := some (WebGLSlot.meshIndices s._indices d.geometry)
      _uvs := some (WebGLSlot.meshUvs td (orOne td.parent.width) (orOne td.parent.height)
        d.geometry.floatArray uvOffset n)
      _localVertices := (s.allocate (n * 2)).2.1
      _resultVertices := (s.allocate (n * 2)).2.2 } := by
  obtain ⟨u0, hu0, hlen⟩ := allocate_fst s (n * 2)
  have hm : isMesh (some d) = true := by
    simp [isMesh, hmesh]
  subst hn
  subst hoff
  unfold WebGLSlot._updateFrame
  simp only [hf, htd, hd, hm, hu0, if_true, meshUv_fold _ _ _ _ _ _ u0 hlen]

/-! ## Claim C12: index list of a quad -/

theorem quadIndices_of_other_length (old : Option (List Nat))
    (h : ∀ a, old = some a → a.length ≠ 6) :
    WebGLSlot.quadIndices old = [0, 1, 2, 0, 2, 3] := by
  unfold WebGLSlot.quadIndices
  cases old with
  | none => rfl
  | some a => simp [h a rfl]

theorem twoTriangleSlot_updateFrame : twoTriangleSlot._updateFrame = some builtMeshSlot := by
  rw [updateFrame_mesh twoTriangleSlot (meshFrame twoTriangleGeometry)
    (plainTexture 0 0 64 64 false) (meshDisplay twoTriangleGeometry) 4 8 rfl rfl rfl rfl rfl rfl]
  have hi : WebGLSlot.meshIndices twoTriangleSlot._indices (meshDisplay twoTriangleGeometry).geometry
      = [0, 1, 3, 1, 2, 3] := by decide
  rw [hi]
  simp only [builtMeshSlot, WebGLSlot.meshUvs, WebGLSlot.meshUv, plainTexture, atlas128,
    meshDisplay, twoTriangleGeometry, orOne, WebGLSlot.allocate, twoTriangleSlot, freshSlot,
    WebGLSlot.create, meshFrame]
  norm_num [List.range_succ, List.flatMap]
  rfl

theorem builtMeshSlot_aligned : builtMeshSlot.Aligned :=
  Or.inr ⟨_, _, _, rfl, rfl, rfl, rfl, rfl⟩

/-- C12, the code at the failing input. A fresh slot builds a mesh of two triangles with the
indices `[0, 1, 3, 1, 2, 3]`; the runtime then gives it the frame of an image with texture data;
`_updateFrame` finds an index array of length `6` and keeps it, so `_indices` is
`[0, 1, 3, 1, 2, 3]` and not `[0, 1, 2, 0, 2, 3]`. -/
theorem quad_keeps_mesh_indices :
    twoTriangleSlot._updateFrame = some builtMeshSlot ∧
      isMesh (imageFrame (plainTexture 0 0 64 64 false)).display = false ∧
      Option.map WebGLSlot._indices
        (builtMeshSlot.setDisplayFrame (imageFrame (plainTexture 0 0 64 64 false)))._updateFrame =
        some (some [0, 1, 3, 1, 2, 3]) ∧
      Option.map WebGLSlot._indices
        (builtMeshSlot.setDisplayFrame (imageFrame (plainTexture 0 0 64 64 false)))._updateFrame ≠
        some (some [0, 1, 2, 0, 2, 3]) := by
  obtain ⟨r, -, h⟩ := updateFrame_quad
    (builtMeshSlot.setDisplayFrame (imageFrame (plainTexture 0 0 64 64 false)))
    (imageFrame (plainTexture 0 0 64 64 false)) (plainTexture 0 0 64 64 false) rfl rfl rfl
    builtMeshSlot_aligned
  have e : Option.map WebGLSlot._indices
      (builtMeshSlot.setDisplayFrame (imageFrame (plainTexture 0 0 64 64 false)))._updateFrame =
      some (some [0, 1, 3, 1, 2, 3]) := by
    rw [h]
    rfl
  refine ⟨twoTriangleSlot_updateFrame, rfl, e, ?_⟩
  rw [e]
  decide

/-! ## Local vertices of a quad -/

theorem quadIndices_length (old : Option (List Nat)) :
    (WebGLSlot.quadIndices old).length = 6 := by
  unfold WebGLSlot.quadIndices
  cases old with
  | none => rfl
  | some a =>
    by_cases h : a.length = 6
    · simp [h]
    · simp [h]

/-- The rectangle of `_updateFrame` for a quad: size `rw x rh` and offset `(ox, oy)` come from the
trim frame when there is one, else from the region (sides swapped when rotated) with offset
`(0, 0)`; the pivot is that of an image display, else `(0, 0)`. -/
theorem quadLocalVertices_eq (td : TextureData) (dd : Option DisplayData)
    (pivotX pivotY rw rh ox oy : ℚ)
    (hpivot : (∃ d, dd = some d ∧ d.type = 0 ∧ pivotX = d.pivot.x ∧ pivotY = d.pivot.y) ∨
      ((∀ d, dd = some d → d.type ≠ 0) ∧ pivotX = 0 ∧ pivotY = 0))
    (hrect : (td.frame = none ∧ ox = 0 ∧ oy = 0 ∧
        rw = (if td.rotated then td.region.height else td.region.width) ∧
        rh = (if td.rotated then td.region.width else td.region.height)) ∨
      (∃ f, td.frame = some f ∧ ox = f.x ∧ oy = f.y ∧ rw = f.width ∧ rh = f.height)) :
    WebGLSlot.quadLocalVertices td dd =
      [-(pivotX * rw + ox), -(pivotY * rh + oy), rw - (pivotX * rw + ox), -(pivotY * rh + oy),
       rw - (pivotX * rw + ox), rh - (pivotY * rh + oy), -(pivotX * rw + ox),
       rh - (pivotY * rh + oy)] := by
  unfold WebGLSlot.quadLocalVertices
  rcases hrect with ⟨hfr, hox, hoy, hrw, hrh⟩ | ⟨f, hfr, hox, hoy, hrw, hrh⟩
  · rw [hfr, hox, hoy, hrw, hrh]
    rcases hpivot with ⟨d, hd, ht, hx, hy⟩ | ⟨hno, hx, hy⟩
    · rw [hd, hx, hy]
      cases td.rotated <;> simp [ht]
    · rw [hx, hy]
      cases hdd : dd with
      | none => cases td.rotated <;> simp
      | some d => cases td.rotated <;> simp [hno d hdd]
  · rw [hfr, hox, hoy, hrw, hrh]
    rcases hpivot with ⟨d, hd, ht, hx, hy⟩ | ⟨hno, hx, hy⟩
    · rw [hd, hx, hy]
      simp [ht]
    · rw [hx, hy]
      cases hdd : dd with
      | none => simp
      | some d => simp [hno d hdd]

/-! ## Claim C18: local vertices of a trimmed static quad -/

/-- C18, counterexample. For an image with pivot `(0, 0)` on a texture whose trim frame is
`{x: -5, y: -3, width: 100, height: 80}`, `_updateFrame` leaves
`[5, 3, 105, 3, 105, 83, 5, 83]` in `_localVertices`: the rectangle is `100 x 80` but it is
anchored at `(5, 3)`, not at `(-pivotX * 100, -pivotY * 80) = (0, 0)`. -/
theorem trimmed_quad_anchor_offset :
    trimmedSlot._displayFrame = some (imageFrame trimmedTexture) ∧
    trimmedTexture.frame = some { x := -5, y := -3, width := 100, height := 80 } ∧
    Option.map WebGLSlot._localVertices trimmedSlot._updateFrame =
      some (some [5, 3, 105, 3, 105, 83, 5, 83]) ∧
    Option.map WebGLSlot._localVertices trimmedSlot._updateFrame ≠
      some (some [-(0 * 100), -(0 * 80), 100 - 0 * 100, -(0 * 80), 100 - 0 * 100, 80 - 0 * 80,
        -(0 * 100), 80 - 0 * 80]) := by
  obtain ⟨r, -, h⟩ := updateFrame_quad trimmedSlot (imageFrame trimmedTexture) trimmedTexture
    rfl rfl rfl (freshSlot_aligned _)
  have e : Option.map WebGLSlot._localVertices trimmedSlot._updateFrame =
      some (some [5, 3, 105, 3, 105, 83, 5, 83]) := by
    rw [h]
    norm_num [WebGLSlot.quadLocalVertices, trimmedTexture, imageFrame, DisplayFrame.display,
      imageDisplay]
  refine ⟨rfl, rfl, e, ?_⟩
  rw [e]
  norm_num

/-- C18, amended. On a frame with texture data whose display is not a mesh and whose texture has
the trim frame `{x: fx, y: fy, width: fw, height: fh}`, rotated or not, `_updateFrame` leaves in
`_localVertices` the four corners, clockwise from top-left, of a rectangle of size `fw x fh`
anchored at `(-pivotX * fw - fx, -pivotY * fh - fy)`, where the pivot is the display's pivot when
its type is image (`0`) and `(0, 0)` otherwise. -/
theorem trimmed_quad_local_vertices (s : WebGLSlot) (frame : DisplayFrame) (td : TextureData)
    (f : Rectangle) (pivotX pivotY : ℚ)
    (hf : s._displayFrame = some frame) (htd : frame.textureData = some td)
    (hquad : isMesh frame.display = false) (hal : s.Aligned)
    (htrim : td.frame = some f)
    (hpivot : (∃ d, frame.display = some d ∧ d.type = 0 ∧ pivotX = d.pivot.x ∧
        pivotY = d.pivot.y) ∨
      ((∀ d, frame.display = some d → d.type ≠ 0) ∧ pivotX = 0 ∧ pivotY = 0)) :
    ∃ s1, s._updateFrame = some s1 ∧
      s1._localVertices = some
        [-(pivotX * f.width) - f.x, -(pivotY * f.height) - f.y,
         -(pivotX * f.width) - f.x + f.width, -(pivotY * f.height) - f.y,
         -(pivotX * f.width) - f.x + f.width, -(pivotY * f.height) - f.y + f.height,
         -(pivotX * f.width) - f.x, -(pivotY * f.height) - f.y + f.height] := by
  obtain ⟨r, -, hs1⟩ := updateFrame_quad s frame td hf htd hquad hal
  refine ⟨_, hs1, ?_⟩
  simp only [quadLocalVertices_eq td frame.display pivotX pivotY f.width f.height f.x f.y hpivot
    (Or.inr ⟨f, htrim, rfl, rfl, rfl, rfl⟩), Option.some.injEq, List.cons.injEq, and_true]
  refine ⟨?_, ?_, ?_, ?_, ?_, ?_, ?_, ?_⟩ <;> ring

/-- C18, witness: the trim frame `{-5, -3, 100, 80}` with pivot `(0, 0)`. -/
theorem trimmed_quad_local_vertices_witness :
    ∃ s1, trimmedSlot._updateFrame = some s1 ∧
      s1._localVertices = some [5, 3, 105, 3, 105, 83, 5, 83] := by
  obtain ⟨s1, h1, h2⟩ := trimmed_quad_local_vertices trimmedSlot (imageFrame trimmedTexture)
    trimmedTexture { x := -5, y := -3, width := 100, height := 80 } 0 0
    rfl rfl rfl (freshSlot_aligned _) rfl (Or.inl ⟨imageDisplay 0 0, rfl, rfl, rfl, rfl⟩)
  refine ⟨s1, h1, ?_⟩
  rw [h2]
  norm_num

/-! ## Claim C19: display types other than image and mesh -/

theorem otherSlot_hidden : otherSlot.hidden = false := by
  simp [WebGLSlot.hidden, otherSlot, freshSlot, WebGLSlot.create]

theorem hasWeight_of_not_mesh (dd : Option DisplayData) (h : isMesh dd = false) :
    hasWeight dd = false := by
  unfold isMesh at h
  unfold hasWeight
  cases dd with
  | none => rfl
  | some d =>
    simp only at h
    simp [h]

/-- An eligible slot that has just built a quad submits four vertices and six indices. -/
theorem render_after_quad (s : WebGLSlot) (frame : DisplayFrame) (td : TextureData)
    (r : List ℚ) (renderer : DragonBonesRenderer) (display : WebGLArmatureDisplay)
    (hf : s._displayFrame = some frame) (htd : frame.textureData = some td)
    (hquad : isMesh frame.display = false) (hr : r.length = 8) (hvis : s.hidden = false) :
    ∃ s2 r2, WebGLSlot.render { s with
        _indices := some (WebGLSlot.quadIndices s._indices)
        _uvs := some (WebGLSlot.quadUvs td (orOne td.parent.width) (orOne td.parent.height))
        _localVertices := some (WebGLSlot.quadLocalVertices td frame.display)
        _resultVertices := some r } renderer display = some (s2, r2) ∧
      r2.vertexCount =
        (renderer.renderMeshFlush td.parent.renderTexture 4 6).vertexCount + 4 ∧
      r2.indexCount = (renderer.renderMeshFlush td.parent.renderTexture 4 6).indexCount + 6 := by
  have hrender := render_rigid
    { s with
      _indices := some (WebGLSlot.quadIndices s._indices)
      _uvs := some (WebGLSlot.quadUvs td (orOne td.parent.width) (orOne td.parent.height))
      _localVertices := some (WebGLSlot.quadLocalVertices td frame.display)
      _resultVertices := some r }
    renderer display frame td (WebGLSlot.quadLocalVertices td frame.display) r
    (WebGLSlot.quadUvs td (orOne td.parent.width) (orOne td.parent.height))
    (WebGLSlot.quadIndices s._indices)
    (by simpa [WebGLSlot.hidden] using hvis) rfl rfl rfl rfl
    (by rw [hr, quadLocalVertices_length]) (by rw [quadLocalVertices_length]) hf htd
    (hasWeight_of_not_mesh _ hquad)
  refine ⟨_, _, hrender, ?_, ?_⟩
  · rw [renderMesh_vertexCount, pairs_length, quadLocalVertices_length, quadIndices_length]
  · rw [renderMesh_indexCount, pairs_length, quadLocalVertices_length, quadIndices_length]

/-- C19, counterexample. A fresh visible slot receives, as its only frame, one with texture data
whose display data has type `1`; `_updateFrame` sets `_localVertices` to the corners of the
64 x 64 region, and `render` then submits four vertices and six indices. -/
theorem other_type_frame_builds_geometry :
    otherFrame.display = some otherDisplay ∧ otherDisplay.type = 1 ∧
    otherSlot._localVertices = none ∧
    Option.map WebGLSlot._localVertices otherSlot._updateFrame =
      some (some [0, 0, 64, 0, 64, 64, 0, 64]) ∧
    Option.map WebGLSlot._localVertices otherSlot._updateFrame ≠ some otherSlot._localVertices ∧
    (otherSlot._updateFrame.bind
      (fun s1 => (s1.render DragonBonesRenderer.create plainDisplay).map
        (fun p => (p.2.vertexCount, p.2.indexCount)))) = some (4, 6) := by
  have h := updateFrame_quad_of_unset otherSlot otherFrame (plainTexture 0 0 64 64 false)
    rfl rfl rfl rfl
  have e : Option.map WebGLSlot._localVertices otherSlot._updateFrame =
      some (some [0, 0, 64, 0, 64, 64, 0, 64]) := by
    rw [h]
    norm_num [WebGLSlot.quadLocalVertices, plainTexture, otherFrame, DisplayFrame.display,
      otherDisplay]
  obtain ⟨s2, r2, h1, h2, h3⟩ := render_after_quad otherSlot otherFrame
    (plainTexture 0 0 64 64 false) (List.replicate 8 0) DragonBonesRenderer.create plainDisplay
    rfl rfl rfl rfl otherSlot_hidden
  refine ⟨rfl, rfl, rfl, e, ?_, ?_⟩
  · rw [e]
    simp [otherSlot, freshSlot, WebGLSlot.create]
  · rw [h, Option.some_bind, h1, Option.map_some', h2, h3]
    rfl

/-- C19, amended. A frame with texture data whose display type is neither image (`0`) nor mesh
(`2`) is not skipped: `_updateFrame` builds a quad for it exactly as for an image, except that the
pivot is taken as `(0, 0)`. It leaves six indices, the eight region UVs, the four corners of the
`rw x rh` rectangle anchored at `(-ox, -oy)` in `_localVertices`, and an eight-float
`_resultVertices`; an eligible slot then submits four vertices and six indices when rendered. -/
theorem other_type_frame_builds_quad (s : WebGLSlot) (frame : DisplayFrame)
    (td : TextureData) (d : DisplayData) (rw rh ox oy : ℚ)
    (hf : s._displayFrame = some frame) (htd : frame.textureData = some td)
    (hd : frame.display = some d) (h0 : d.type ≠ 0) (h2 : d.type ≠ 2) (hal : s.Aligned)
    (hW : td.parent.width ≠ 0) (hH : td.parent.height ≠ 0)
    (hrect : (td.frame = none ∧ ox = 0 ∧ oy = 0 ∧
        rw = (if td.rotated then td.region.height else td.region.width) ∧
        rh = (if td.rotated then td.region.width else td.region.height)) ∨
      (∃ f, td.frame = some f ∧ ox = f.x ∧ oy = f.y ∧ rw = f.width ∧ rh = f.height)) :
    ∃ s1 idx res, s._updateFrame = some s1 ∧
      s1._indices = some idx ∧ idx.length = 6 ∧
      s1._uvs = some
        (if td.rotated then
          [(td.region.x + td.region.height) / td.parent.width, td.region.y / td.parent.height,
           (td.region.x + td.region.height) / td.parent.width,
           (td.region.y + td.region.width) / td.parent.height,
           td.region.x / td.parent.width, (td.region.y + td.region.width) / td.parent.height,
           td.region.x / td.parent.width, td.region.y / td.parent.height]
        else
          [td.region.x / td.parent.width, td.region.y / td.parent.height,
           (td.region.x + td.region.width) / td.parent.width, td.region.y / td.parent.height,
           (td.region.x + td.region.width) / td.parent.width,
           (td.region.y + td.region.height) / td.parent.height,
           td.region.x / td.parent.width,
           (td.region.y + td.region.height) / td.parent.height]) ∧
      s1._localVertices = some
        [-ox, -oy, rw - ox, -oy, rw - ox, rh - oy, -ox, rh - oy] ∧
      s1._resultVertices = some res ∧ res.length = 8 ∧
      ∀ (renderer : DragonBonesRenderer) (display : WebGLArmatureDisplay),
        s.hidden = false →
        ∃ s2 r2, s1.render renderer display = some (s2, r2) ∧
          r2.vertexCount =
            (renderer.renderMeshFlush td.parent.renderTexture 4 6).vertexCount + 4 ∧
          r2.indexCount =
            (renderer.renderMeshFlush td.parent.renderTexture 4 6).indexCount + 6 := by
  have hquad : isMesh frame.display = false := by
    rw [hd]
    simp [isMesh, h2]
  obtain ⟨r, hr, hs1⟩ := updateFrame_quad s frame td hf htd hquad hal
  refine ⟨_, _, r, hs1, rfl, quadIndices_length _, ?_, ?_, rfl, hr, ?_⟩
  · simp only [WebGLSlot.quadUvs, orOne, hW, hH, if_false]
  · have := quadLocalVertices_eq td frame.display 0 0 rw rh ox oy
      (Or.inr ⟨fun d1 hd1 => by
        rw [hd] at hd1
        cases hd1
        exact h0, rfl, rfl⟩) hrect
    simp only [this, zero_mul, zero_add]
  · intro renderer display hvis
    exact render_after_quad s frame td r renderer display hf htd hquad hr hvis

/-- C19, witness: the fresh slot that only ever received a frame of display type `1`. -/
theorem other_type_frame_builds_quad_witness :
    ∃ s1 s2 r2, otherSlot._updateFrame = some s1 ∧
      s1._localVertices = some [0, 0, 64, 0, 64, 64, 0, 64] ∧
      s1.render DragonBonesRenderer.create plainDisplay = some (s2, r2) ∧
      r2.vertexCount = 4 ∧ r2.indexCount = 6 := by
  obtain ⟨s1, idx, res, h1, -, -, -, h5, -, -, h8⟩ := other_type_frame_builds_quad otherSlot
    otherFrame (plainTexture 0 0 64 64 false) otherDisplay 64 64 0 0 rfl rfl rfl
    (by decide) (by decide) (freshSlot_aligned _)
    (by norm_num [plainTexture, atlas128]) (by norm_num [plainTexture, atlas128])
    (Or.inl ⟨rfl, rfl, rfl, rfl, rfl⟩)
  obtain ⟨s2, r2, h9, h10, h11⟩ := h8 DragonBonesRenderer.create plainDisplay otherSlot_hidden
  refine ⟨s1, s2, r2, h1, ?_, h9, ?_, ?_⟩
  · rw [h5]
    norm_num
  · rw [h10]
    rfl
  · rw [h11]
    rfl

/-! ## Claim C17: the unweighted path of `_updateMesh` -/

/-- The unweighted branch of `_updateMesh` rewrites `_localVertices` pair by pair. -/
theorem updateMesh_unweighted (s : WebGLSlot) (frame : DisplayFrame) (d : DisplayData)
    (loc : List ℚ)
    (hf : s._displayFrame = some frame) (hd : frame.display = some d) (hmesh : d.type = 2)
    (hw : d.geometry.weight = none) (hloc : s._localVertices = some loc)
    (heven : loc.length % 2 = 0) :
    s._updateMesh = some { s with _localVertices := some ((List.range (loc.length / 2)).flatMap
      (fun i =>
        [if frame.deformVertices.length > 0 then
            d.geometry.floatArray.getD
              (d.geometry.intArray.getD (d.geometry.offset + 2) 0 + i * 2) 0 +
              frame.deformVertices.getD (i * 2) 0
          else d.geometry.floatArray.getD
              (d.geometry.intArray.getD (d.geometry.offset + 2) 0 + i * 2) 0,
         if frame.deformVertices.length > 0 then
            d.geometry.floatArray.getD
              (d.geometry.intArray.getD (d.geometry.offset + 2) 0 + i * 2 + 1) 0 +
              frame.deformVertices.getD (i * 2 + 1) 0
          else d.geometry.floatArray.getD
              (d.geometry.intArray.getD (d.geometry.offset + 2) 0 + i * 2 + 1) 0])) } := by
  have hfold := pair_fold_full
    (fun i => if frame.deformVertices.length > 0 then
            d.geometry.floatArray.getD
              (d.geometry.intArray.getD (d.geometry.offset + 2) 0 + i * 2) 0 +
              frame.deformVertices.getD (i * 2) 0
          else d.geometry.floatArray.getD
              (d.geometry.intArray.getD (d.geometry.offset + 2) 0 + i * 2) 0)
    (fun i => if frame.deformVertices.length > 0 then
            d.geometry.floatArray.getD
              (d.geometry.intArray.getD (d.geometry.offset + 2) 0 + i * 2 + 1) 0 +
              frame.deformVertices.getD (i * 2 + 1) 0
          else d.geometry.floatArray.getD
              (d.geometry.intArray.getD (d.geometry.offset + 2) 0 + i * 2 + 1) 0)
    loc (loc.length / 2) (by omega)
  unfold WebGLSlot._updateMesh
  simp only [hf, hd, hmesh, hw, hloc, ne_eq, not_true_eq_false, if_false]
  unfold WebGLSlot.deformVertexBody
  rw [hfold]

/-- Method `_updateMesh` returns the slot as it is when the display is not a mesh. -/
theorem updateMesh_of_not_mesh (t : WebGLSlot)
    (ht : ∀ f e, t._displayFrame = some f → f.display = some e → e.type ≠ 2) :
    t._updateMesh = some t := by
  unfold WebGLSlot._updateMesh
  cases hf : t._displayFrame with
  | none => rfl
  | some f =>
    cases hd : f.display with
    | none => simp only [hd]
    | some e =>
      simp only [hd]
      rw [if_pos (ht f e hf hd)]

/-- C17. For a mesh frame without a weight table whose geometry has `n` vertices stored from
offset `off` of the float array, on a slot whose `_localVertices` holds the `2 * n` floats of that
mesh, `_updateMesh` returns and changes only `_localVertices`: every `k < 2 * n` has
`_localVertices[k] = raw[off + k]` when the frame has no deform offsets, and
`_localVertices[k] = raw[off + k] + deform[k]` when the deform offsets have length `2 * n`.
On a slot `t` whose display is not a mesh, `_updateMesh` changes nothing. -/
theorem unweighted_mesh_path (s t : WebGLSlot) (frame : DisplayFrame) (d : DisplayData)
    (loc : List ℚ) (n off : Nat)
    (hf : s._displayFrame = some frame) (hd : frame.display = some d) (hmesh : d.type = 2)
    (hw : d.geometry.weight = none)
    (hn : n = d.geometry.intArray.getD (d.geometry.offset + 0) 0)
    (hoff : off = d.geometry.intArray.getD (d.geometry.offset + 2) 0)
    (hraw : off + 2 * n ≤ d.geometry.floatArray.length)
    (hloc : s._localVertices = some loc) (hlen : loc.length = 2 * n)
    (ht : ∀ f e, t._displayFrame = some f → f.display = some e → e.type ≠ 2) :
    (∃ out, s._updateMesh = some { s with _localVertices := some out } ∧ out.length = 2 * n ∧
      (frame.deformVertices = [] →
        ∀ k, k < 2 * n → out[k]? = d.geometry.floatArray[off + k]?) ∧
      (frame.deformVertices.length = 2 * n →
        ∀ k, k < 2 * n → out[k]? =
          some (d.geometry.floatArray.getD (off + k) 0 + frame.deformVertices.getD k 0))) ∧
    t._updateMesh = some t := by
  have hrun := updateMesh_unweighted s frame d loc hf hd hmesh hw hloc (by omega)
  refine ⟨⟨_, hrun, ?_, ?_, ?_⟩, updateMesh_of_not_mesh t ht⟩
  · rw [pairs_length, hlen]
    omega
  · intro he k hk
    have hk2 : k / 2 < loc.length / 2 := by omega
    have hp := pairs_getElem?
      (fun i => if frame.deformVertices.length > 0 then
            d.geometry.floatArray.getD
              (d.geometry.intArray.getD (d.geometry.offset + 2) 0 + i * 2) 0 +
              frame.deformVertices.getD (i * 2) 0
          else d.geometry.floatArray.getD
              (d.geometry.intArray.getD (d.geometry.offset + 2) 0 + i * 2) 0)
      (fun i => if frame.deformVertices.length > 0 then
            d.geometry.floatArray.getD
              (d.geometry.intArray.getD (d.geometry.offset + 2) 0 + i * 2 + 1) 0 +
              frame.deformVertices.getD (i * 2 + 1) 0
          else d.geometry.floatArray.getD
              (d.geometry.intArray.getD (d.geometry.offset + 2) 0 + i * 2 + 1) 0)
      (loc.length / 2) (k / 2) hk2
    have hz : ¬ frame.deformVertices.length > 0 := by simp [he]
    have hin : off + k < d.geometry.floatArray.length := by omega
    beta_reduce at hp
    rcases Nat.mod_two_eq_zero_or_one k with h0 | h1
    · have ek : k = 2 * (k / 2) := by omega
      have e2 : off + k / 2 * 2 = off + k := by omega
      conv_lhs => rw [ek]
      rw [hp.1, if_neg hz, ← hoff, e2, List.getD_eq_getElem?_getD,
        List.getElem?_eq_getElem hin]
      rfl
    · have ek : k = 2 * (k / 2) + 1 := by omega
      have e2 : off + k / 2 * 2 + 1 = off + k := by omega
      conv_lhs => rw [ek]
      rw [hp.2, if_neg hz, ← hoff, e2, List.getD_eq_getElem?_getD,
        List.getElem?_eq_getElem hin]
      rfl
  · intro he k hk
    have hk2 : k / 2 < loc.length / 2 := by omega
    have hp := pairs_getElem?
      (fun i => if frame.deformVertices.length > 0 then
            d.geometry.floatArray.getD
              (d.geometry.intArray.getD (d.geometry.offset + 2) 0 + i * 2) 0 +
              frame.deformVertices.getD (i * 2) 0
          else d.geometry.floatArray.getD
              (d.geometry.intArray.getD (d.geometry.offset + 2) 0 + i * 2) 0)
      (fun i => if frame.deformVertices.length > 0 then
            d.geometry.floatArray.getD
              (d.geometry.intArray.getD (d.geometry.offset + 2) 0 + i * 2 + 1) 0 +
              frame.deformVertices.getD (i * 2 + 1) 0
          else d.geometry.floatArray.getD
              (d.geometry.intArray.getD (d.geometry.offset + 2) 0 + i * 2 + 1) 0)
      (loc.length / 2) (k / 2) hk2
    have hz : frame.deformVertices.length > 0 := by omega
    beta_reduce at hp
    rcases Nat.mod_two_eq_zero_or_one k with h0 | h1
    · have ek : k = 2 * (k / 2) := by omega
      have e2 : off + k / 2 * 2 = off + k := by omega
      have e3 : k / 2 * 2 = k := by omega
      conv_lhs => rw [ek]
      rw [hp.1, if_pos hz, ← hoff, e2, e3]
    · have ek : k = 2 * (k / 2) + 1 := by omega
      have e2 : off + k / 2 * 2 + 1 = off + k := by omega
      have e3 : k / 2 * 2 + 1 = k := by omega
      conv_lhs => rw [ek]
      rw [hp.2, if_pos hz, ← hoff, e2, e3]

/-- C17, witness: the four-vertex mesh `twoTriangleGeometry` with deform offsets `1 .. 8`, and the
built quad slot as the slot that is not a mesh. -/
theorem unweighted_mesh_path_witness :
    (∃ out, deformedMeshSlot._updateMesh =
        some { deformedMeshSlot with _localVertices := some out } ∧ out.length = 2 * 4 ∧
      (deformedFrame.deformVertices = [] →
        ∀ k, k < 2 * 4 → out[k]? = twoTriangleGeometry.floatArray[0 + k]?) ∧
      (deformedFrame.deformVertices.length = 2 * 4 →
        ∀ k, k < 2 * 4 → out[k]? =
          some (twoTriangleGeometry.floatArray.getD (0 + k) 0 +
            deformedFrame.deformVertices.getD k 0))) ∧
    builtQuadSlot._updateMesh = some builtQuadSlot :=
  unweighted_mesh_path deformedMeshSlot builtQuadSlot deformedFrame
    (meshDisplay twoTriangleGeometry) [0, 0, 0, 0, 0, 0, 0, 0] 4 0 rfl rfl rfl rfl rfl rfl
    (by decide) rfl rfl
    (fun f e hf he => by
      cases hf
      cases he
      decide)

/-! ## Claim C11: the UV remap of a mesh -/

theorem meshUvs_length (td : TextureData) (w h : ℚ) (floatArray : List ℚ) (uvOffset n : Nat) :
    (WebGLSlot.meshUvs td w h floatArray uvOffset n).length = 2 * n := by
  unfold WebGLSlot.meshUvs
  exact pairs_length _ _ n

theorem meshUvPixel_eq (td : TextureData) (w h u v : ℚ) (hw : w ≠ 0) (hh : h ≠ 0) :
    meshUvPixel td w h u v =
      if td.rotated then
        (td.region.x + (1 - v) * td.region.width, td.region.y + u * td.region.height)
      else (td.region.x + u * td.region.width, td.region.y + v * td.region.height) := by
  unfold meshUvPixel WebGLSlot.meshUv
  cases td.rotated
  · simp only [Bool.false_eq_true, if_false]
    rw [div_mul_cancel₀ _ hw, div_mul_cancel₀ _ hh]
  · simp only [if_true]
    rw [div_mul_cancel₀ _ hw, div_mul_cancel₀ _ hh]

theorem meshUvInverse_meshUv (td : TextureData) (w h u v : ℚ) (hw : w ≠ 0) (hh : h ≠ 0)
    (hrw : td.region.width ≠ 0) (hrh : td.region.height ≠ 0) :
    meshUvInverse td w h (WebGLSlot.meshUv td w h u v) = (u, v) := by
  unfold meshUvInverse WebGLSlot.meshUv
  cases td.rotated
  · simp only [Bool.false_eq_true, if_false]
    rw [div_mul_cancel₀ _ hw, div_mul_cancel₀ _ hh]
    refine Prod.ext ?_ ?_
    · field_simp
    · field_simp
  · simp only [if_true]
    rw [div_mul_cancel₀ _ hw, div_mul_cancel₀ _ hh]
    refine Prod.ext ?_ ?_
    · field_simp
    · field_simp

/-- C11, the code at the failing input. A mesh whose geometry UVs are `(0,0), (1,0), (1,1),
(0,1)` on a rotated 64 x 32 region at `(0, 0)` of a 128 x 128 atlas gets from the mesh branch of
`_updateFrame` the UVs `(1/2, 0), (1/2, 1/4), (0, 1/4), (0, 0)`, which times `(128, 128)` are the
corners of a rectangle of extent 64 x 32 (width x height). The static-quad branch of the same
method emits `(1/4, 0), (1/4, 1/2), (0, 1/2), (0, 0)` for the same region, the corners of the
rectangle of extent 32 x 64 (height x width); the mesh corner `(64, 0)` is not one of them. -/
theorem rotated_mesh_uvs_keep_extent :
    Option.map WebGLSlot._uvs rotatedMeshSlot._updateFrame =
      some (some [1 / 2, 0, 1 / 2, 1 / 4, 0, 1 / 4, 0, 0]) ∧
    Option.map WebGLSlot._uvs rotatedSlot._updateFrame =
      some (some [1 / 4, 0, 1 / 4, 1 / 2, 0, 1 / 2, 0, 0]) ∧
    [meshUvPixel (plainTexture 0 0 64 32 true) 128 128 0 0,
      meshUvPixel (plainTexture 0 0 64 32 true) 128 128 1 0,
      meshUvPixel (plainTexture 0 0 64 32 true) 128 128 1 1,
      meshUvPixel (plainTexture 0 0 64 32 true) 128 128 0 1] =
      [(64, 0), (64, 32), (0, 32), (0, 0)] ∧
    meshUvPixel (plainTexture 0 0 64 32 true) 128 128 0 0 ∉
      [((0 : ℚ), (0 : ℚ)), (32, 0), (32, 64), (0, 64)] := by
  refine ⟨?_, ?_, ?_, ?_⟩
  · rw [updateFrame_mesh rotatedMeshSlot rotatedMeshFrame (plainTexture 0 0 64 32 true)
      (meshDisplay twoTriangleGeometry) 4 8 rfl rfl rfl rfl rfl rfl]
    simp only [Option.map_some', WebGLSlot.meshUvs, WebGLSlot.meshUv, plainTexture, atlas128,
      meshDisplay, twoTriangleGeometry, orOne]
    norm_num [List.range_succ, List.flatMap]
  · rw [updateFrame_quad_of_unset rotatedSlot (imageFrame (plainTexture 0 0 64 32 true))
      (plainTexture 0 0 64 32 true) rfl rfl rfl rfl]
    norm_num [WebGLSlot.quadUvs, plainTexture, atlas128, orOne]
  · norm_num [meshUvPixel, WebGLSlot.meshUv, plainTexture]
  · norm_num [meshUvPixel, WebGLSlot.meshUv, plainTexture]

/-- What the mesh branch of `_updateFrame` computes. For a mesh frame of `n` vertices, whose
geometry UVs lie inside the float array, on a texture region `{x, y, width, height}` in an atlas
of non-zero dimensions `W x H`, `_updateFrame` stores for vertex `i` the remap of its geometry
UV. Multiplied by `(W, H)`, the remapped UVs of `(0,0), (1,0), (1,1), (0,1)` are the four
corners of the rectangle at `(x, y)` of extent `width x height` for either value of `rotated`:
in the order top-left, top-right, bottom-right, bottom-left when not rotated, and top-right,
bottom-right, bottom-left, top-left when rotated. For non-zero `width` and `height` the remap has
the left inverse `meshUvInverse`, so it is invertible. -/
theorem mesh_uv_remap (s : WebGLSlot) (frame : DisplayFrame) (td : TextureData)
    (d : DisplayData) (n uvOffset : Nat)
    (hf : s._displayFrame = some frame) (htd : frame.textureData = some td)
    (hd : frame.display = some d) (hmesh : d.type = 2)
    (hn : n = d.geometry.intArray.getD (d.geometry.offset + 0) 0)
    (hoff : uvOffset = d.geometry.intArray.getD (d.geometry.offset + 2) 0 + n * 2)
    (hraw : uvOffset + 2 * n ≤ d.geometry.floatArray.length)
    (hW : td.parent.width ≠ 0) (hH : td.parent.height ≠ 0) :
    (∃ s1 uvs, s._updateFrame = some s1 ∧ s1._uvs = some uvs ∧ uvs.length = 2 * n ∧
      ∀ i, i < n →
        uvs[2 * i]? = some (WebGLSlot.meshUv td td.parent.width td.parent.height
          (d.geometry.floatArray.getD (uvOffset + i * 2) 0)
          (d.geometry.floatArray.getD (uvOffset + i * 2 + 1) 0)).1 ∧
        uvs[2 * i + 1]? = some (WebGLSlot.meshUv td td.parent.width td.parent.height
          (d.geometry.floatArray.getD (uvOffset + i * 2) 0)
          (d.geometry.floatArray.getD (uvOffset + i * 2 + 1) 0)).2) ∧
    [meshUvPixel td td.parent.width td.parent.height 0 0,
      meshUvPixel td td.parent.width td.parent.height 1 0,
      meshUvPixel td td.parent.width td.parent.height 1 1,
      meshUvPixel td td.parent.width td.parent.height 0 1] =
      (if td.rotated then
        [(td.region.x + td.region.width, td.region.y),
         (td.region.x + td.region.width, td.region.y + td.region.height),
         (td.region.x, td.region.y + td.region.height),
         (td.region.x, td.region.y)]
      else
        [(td.region.x, td.region.y),
         (td.region.x + td.region.width, td.region.y),
         (td.region.x + td.region.width, td.region.y + td.region.height),
         (td.region.x, td.region.y + td.region.height)]) ∧
    (td.region.width ≠ 0 → td.region.height ≠ 0 → ∀ u v,
      meshUvInverse td td.parent.width td.parent.height
        (WebGLSlot.meshUv td td.parent.width td.parent.height u v) = (u, v)) := by
  have hrun := updateFrame_mesh s frame td d n uvOffset hf htd hd hmesh hn hoff
  have hw1 : orOne td.parent.width = td.parent.width := by simp [orOne, hW]
  have hh1 : orOne td.parent.height = td.parent.height := by simp [orOne, hH]
  rw [hw1, hh1] at hrun
  refine ⟨⟨_, _, hrun, rfl, meshUvs_length _ _ _ _ _ _, ?_⟩, ?_, ?_⟩
  · intro i hi
    unfold WebGLSlot.meshUvs
    exact pairs_getElem? _ _ n i hi
  · rw [meshUvPixel_eq _ _ _ _ _ hW hH, meshUvPixel_eq _ _ _ _ _ hW hH,
      meshUvPixel_eq _ _ _ _ _ hW hH, meshUvPixel_eq _ _ _ _ _ hW hH]
    cases td.rotated
    · simp
    · simp
  · intro hrw hrh u v
    exact meshUvInverse_meshUv td _ _ u v hW hH hrw hrh

/-- An instance of `mesh_uv_remap`: the mesh `twoTriangleGeometry` on the rotated 64 x 32
region. -/
theorem mesh_uv_remap_witness :
    ∃ s1 uvs, rotatedMeshSlot._updateFrame = some s1 ∧ s1._uvs = some uvs ∧ uvs.length = 8 ∧
      [meshUvPixel (plainTexture 0 0 64 32 true) 128 128 0 0,
        meshUvPixel (plainTexture 0 0 64 32 true) 128 128 1 0,
        meshUvPixel (plainTexture 0 0 64 32 true) 128 128 1 1,
        meshUvPixel (plainTexture 0 0 64 32 true) 128 128 0 1] =
        [(0 + 64, 0), (0 + 64, 0 + 32), (0, 0 + 32), (0, 0)] ∧
      meshUvInverse (plainTexture 0 0 64 32 true) 128 128
        (WebGLSlot.meshUv (plainTexture 0 0 64 32 true) 128 128 (1 / 4) (3 / 4)) =
        (1 / 4, 3 / 4) := by
  obtain ⟨⟨s1, uvs, h1, h2, h3, -⟩, h5, h6⟩ := mesh_uv_remap rotatedMeshSlot rotatedMeshFrame
    (plainTexture 0 0 64 32 true) (meshDisplay twoTriangleGeometry) 4 8 rfl rfl rfl rfl rfl rfl
    (by decide) (by norm_num [plainTexture, atlas128]) (by norm_num [plainTexture, atlas128])
  exact ⟨s1, uvs, h1, h2, h3, h5,
    h6 (by norm_num [plainTexture]) (by norm_num [plainTexture]) (1 / 4) (3 / 4)⟩

/-! ## Claim C16: the buffer-length invariant -/

theorem foldl_preserves {σ : Type} (P : σ → Prop) (f : σ → Nat → σ)
    (hP : ∀ st i, P st → P (f st i)) (l : List Nat) (st : σ) (h : P st) : P (l.foldl f st) := by
  induction l generalizing st with
  | nil => exact h
  | cons a l ih => exact ih _ (hP _ _ h)

theorem deformFold_length (raw : List ℚ) (off : Nat) (deform result : List ℚ) (l : List Nat) :
    (l.foldl (WebGLSlot.deformVertexBody raw off deform) result).length = result.length :=
  foldl_preserves (fun acc => acc.length = result.length) _
    (fun st i h => by simp [WebGLSlot.deformVertexBody, h]) l result rfl

theorem skinFold_length (bones : List (Option Bone)) (boneIndices : List Nat) (raw : List ℚ)
    (st : Nat × Nat × List ℚ) (l : List Nat) :
    (l.foldl (WebGLSlot.skinVertexBody bones boneIndices raw) st).2.2.length = st.2.2.length :=
  foldl_preserves (fun acc => acc.2.2.length = st.2.2.length) _
    (fun st i h => by simp [WebGLSlot.skinVertexBody, h]) l st rfl

theorem rigidFold_length (loc : List ℚ) (m : Matrix) (x y sx sy : ℚ) (result : List ℚ)
    (l : List Nat) :
    (l.foldl (WebGLSlot.rigidResultBody loc m x y sx sy) result).length = result.length :=
  foldl_preserves (fun acc => acc.length = result.length) _
    (fun st i h => by simp [WebGLSlot.rigidResultBody, h]) l result rfl

theorem skinnedFold_length (loc : List ℚ) (x y sx sy : ℚ) (result : List ℚ) (l : List Nat) :
    (l.foldl (WebGLSlot.skinnedResultBody loc x y sx sy) result).length = result.length :=
  foldl_preserves (fun acc => acc.length = result.length) _
    (fun st i h => by simp [WebGLSlot.skinnedResultBody, h]) l result rfl

/-- Method `_updateMesh` returns the slot as it is, or with `_localVertices` rewritten in
place. -/
theorem updateMesh_shape (s s1 : WebGLSlot) (h : s._updateMesh = some s1) :
    s1 = s ∨ ∃ l out, s._localVertices = some l ∧ out.length = l.length ∧
      s1 = { s with _localVertices := some out } := by
  unfold WebGLSlot._updateMesh at h
  cases hf : s._displayFrame with
  | none =>
    simp only [hf, Option.some.injEq] at h
    exact Or.inl h.symm
  | some frame =>
    simp only [hf] at h
    cases hd : frame.display with
    | none =>
      simp only [hd, Option.some.injEq] at h
      exact Or.inl h.symm
    | some d =>
      simp only [hd] at h
      by_cases ht : d.type ≠ 2
      · rw [if_pos ht, Option.some.injEq] at h
        exact Or.inl h.symm
      · rw [if_neg ht] at h
        cases hl : s._localVertices with
        | none => simp [hl] at h
        | some l =>
          simp only [hl] at h
          cases hw : d.geometry.weight with
          | none =>
            simp only [hw, Option.some.injEq] at h
            exact Or.inr ⟨l, _, rfl, deformFold_length _ _ _ _ _, h.symm⟩
          | some w =>
            simp only [hw, Option.some.injEq] at h
            exact Or.inr ⟨l, _, rfl, skinFold_length _ _ _ _ _, h.symm⟩

/-- Method `render` returns the slot as it is, or with `_resultVertices` rewritten in place. -/
theorem render_shape (s s1 : WebGLSlot) (renderer r1 : DragonBonesRenderer)
    (display : WebGLArmatureDisplay) (h : s.render renderer display = some (s1, r1)) :
    s1 = s ∨ ∃ res out, s._resultVertices = some res ∧ out.length = res.length ∧
      s1 = { s with _resultVertices := some out } := by
  unfold WebGLSlot.render at h
  by_cases hh : s.hidden = true
  · rw [if_pos hh, Option.some.injEq, Prod.mk.injEq] at h
    exact Or.inl h.1.symm
  · rw [if_neg hh] at h
    cases hl : s._localVertices with
    | none =>
      simp only [hl, Option.some.injEq, Prod.mk.injEq] at h
      exact Or.inl h.1.symm
    | some loc =>
      simp only [hl] at h
      cases hf : s._displayFrame with
      | none => simp [hf] at h
      | some frame =>
        simp only [hf] at h
        cases hr : s._resultVertices with
        | none => simp [hr] at h
        | some res =>
          simp only [hr] at h
          have hlen : (if hasWeight frame.display = true then
              (List.range (loc.length / 2)).foldl
                (WebGLSlot.skinnedResultBody loc display.x display.y display.scaleX
                  display.scaleY) res
            else
              (List.range (loc.length / 2)).foldl
                (WebGLSlot.rigidResultBody loc s.globalTransformMatrix display.x display.y
                  display.scaleX display.scaleY) res).length = res.length := by
            split
            · exact skinnedFold_length _ _ _ _ _ _ _
            · exact rigidFold_length _ _ _ _ _ _ _ _
          generalize (if hasWeight frame.display = true then
              (List.range (loc.length / 2)).foldl
                (WebGLSlot.skinnedResultBody loc display.x display.y display.scaleX
                  display.scaleY) res
            else
              (List.range (loc.length / 2)).foldl
                (WebGLSlot.rigidResultBody loc s.globalTransformMatrix display.x display.y
                  display.scaleX display.scaleY) res) = result at h hlen
          cases ht : frame.textureData with
          | none => simp [ht] at h
          | some td =>
            simp only [ht] at h
            cases hi : s._indices with
            | none => simp [hi] at h
            | some idx =>
              simp only [hi] at h
              cases hu : s._uvs with
              | none =>
                simp only [hu] at h
                by_cases hz : result.length / 2 = 0
                · rw [if_pos hz, Option.some.injEq, Prod.mk.injEq] at h
                  exact Or.inr ⟨res, _, rfl, hlen, h.1.symm⟩
                · rw [if_neg hz] at h
                  cases h
              | some uvs =>
                simp only [hu, Option.some.injEq, Prod.mk.injEq] at h
                exact Or.inr ⟨res, _, rfl, hlen, h.1.symm⟩

theorem render_displayFrame (s s1 : WebGLSlot) (renderer r1 : DragonBonesRenderer)
    (display : WebGLArmatureDisplay) (h : s.render renderer display = some (s1, r1)) :
    s1._displayFrame = s._displayFrame := by
  rcases render_shape s s1 renderer r1 display h with e | ⟨res, out, -, -, e⟩
  · rw [e]
  · rw [e]

theorem onClear_aligned (s : WebGLSlot) : s._onClear.Aligned := Or.inl ⟨rfl, rfl, rfl⟩

theorem updateMesh_aligned (s s1 : WebGLSlot) (hal : s.Aligned)
    (h : s._updateMesh = some s1) : s1.Aligned := by
  rcases updateMesh_shape s s1 h with e | ⟨l, out, hl, hlen, e⟩
  · rw [e]
    exact hal
  · subst e
    rcases hal with ⟨-, hn, -⟩ | ⟨u, l1, r, hu, hl1, hr, e1, e2⟩
    · rw [hl] at hn
      cases hn
    · rw [hl] at hl1
      cases hl1
      exact Or.inr ⟨u, out, r, hu, rfl, hr, by rw [hlen, e1], by rw [hlen, e2]⟩

theorem render_aligned (s s1 : WebGLSlot) (renderer r1 : DragonBonesRenderer)
    (display : WebGLArmatureDisplay) (hal : s.Aligned)
    (h : s.render renderer display = some (s1, r1)) : s1.Aligned := by
  rcases render_shape s s1 renderer r1 display h with e | ⟨res, out, hres, hlen, e⟩
  · rw [e]
    exact hal
  · subst e
    rcases hal with ⟨-, -, hn⟩ | ⟨u, l, r, hu, hl, hr, e1, e2⟩
    · rw [hres] at hn
      cases hn
    · rw [hres] at hr
      cases hr
      exact Or.inr ⟨u, l, out, hu, hl, rfl, e1, by rw [hlen, e2]⟩

theorem isMesh_true (dd : Option DisplayData) (h : isMesh dd = true) :
    ∃ d, dd = some d ∧ d.type = 2 := by
  unfold isMesh at h
  cases dd with
  | none => cases h
  | some d => exact ⟨d, rfl, by simpa using h⟩

theorem vertexCount_of_mesh (frame : DisplayFrame) (d : DisplayData)
    (hd : frame.display = some d) (hmesh : d.type = 2) :
    frame.vertexCount = d.geometry.intArray.getD (d.geometry.offset + 0) 0 := by
  unfold DisplayFrame.vertexCount
  rw [hd]
  simp [hmesh]

theorem vertexCount_of_quad (frame : DisplayFrame) (hquad : isMesh frame.display = false) :
    frame.vertexCount = 4 := by
  unfold DisplayFrame.vertexCount
  unfold isMesh at hquad
  cases hd : frame.display with
  | none => rfl
  | some d =>
    rw [hd] at hquad
    have : d.type ≠ 2 := by simpa using hquad
    simp [this]

/-- On a slot with aligned buffers whose frame has texture data, `_updateFrame` returns and
leaves the three buffers set, each of length twice the vertex count of the frame. -/
theorem updateFrame_lengths (s : WebGLSlot) (frame : DisplayFrame) (td : TextureData)
    (hal : s.Aligned) (hf : s._displayFrame = some frame) (htd : frame.textureData = some td) :
    ∃ s1 u l r, s._updateFrame = some s1 ∧ s1._uvs = some u ∧ s1._localVertices = some l ∧
      s1._resultVertices = some r ∧ u.length = 2 * frame.vertexCount ∧
      l.length = 2 * frame.vertexCount ∧ r.length = 2 * frame.vertexCount := by
  cases hm : isMesh frame.display with
  | false =>
    obtain ⟨r, hr, h⟩ := updateFrame_quad s frame td hf htd hm hal
    rw [vertexCount_of_quad frame hm]
    exact ⟨_, _, _, r, h, rfl, rfl, rfl, quadUvs_length _ _ _, quadLocalVertices_length _ _, hr⟩
  | true =>
    obtain ⟨d, hd, hmesh⟩ := isMesh_true _ hm
    have h := updateFrame_mesh s frame td d _ _ hf htd hd hmesh rfl rfl
    obtain ⟨u, l, r, hall, hu, hl, hr⟩ := allocate_of_aligned s
      (d.geometry.intArray.getD (d.geometry.offset + 0) 0 * 2) hal
    rw [hall] at h
    rw [vertexCount_of_mesh frame d hd hmesh]
    exact ⟨_, _, l, r, h, rfl, rfl, rfl, meshUvs_length _ _ _ _ _ _, by omega, by omega⟩

theorem updateFrame_aligned (s s1 : WebGLSlot) (hal : s.Aligned)
    (h : s._updateFrame = some s1) : s1.Aligned := by
  cases hf : s._displayFrame with
  | none => simp [WebGLSlot._updateFrame, hf] at h
  | some frame =>
    cases htd : frame.textureData with
    | none =>
      rw [updateFrame_of_no_texture s frame hf htd, Option.some.injEq] at h
      rw [← h]
      exact hal
    | some td =>
      obtain ⟨s2, u, l, r, h2, hu, hl, hr, e1, e2, e3⟩ := updateFrame_lengths s frame td hal hf htd
      rw [h2, Option.some.injEq] at h
      subst h
      exact Or.inr ⟨u, l, r, hu, hl, hr, by omega, by omega⟩

theorem apply_aligned (op : SlotOp) (s s1 : WebGLSlot) (hal : s.Aligned)
    (h : op.apply s = some s1) : s1.Aligned := by
  cases op with
  | onClear =>
    simp only [SlotOp.apply, Option.some.injEq] at h
    rw [← h]
    exact onClear_aligned s
  | updateFrame => exact updateFrame_aligned s s1 hal h
  | updateMesh => exact updateMesh_aligned s s1 hal h
  | render renderer display =>
    simp only [SlotOp.apply, Option.map_eq_some', Prod.exists, exists_and_right,
      exists_eq_right] at h
    obtain ⟨r1, h⟩ := h
    exact render_aligned s s1 renderer r1 display hal h
  | runtime t =>
    simp only [SlotOp.apply, Option.some.injEq] at h
    rw [← h]
    exact hal

theorem runOps_aligned (ops : List SlotOp) (s0 s : WebGLSlot) (h0 : s0.Aligned)
    (hrun : runOps s0 ops = some s) : s.Aligned := by
  induction ops generalizing s0 with
  | nil =>
    simp only [runOps, Option.some.injEq] at hrun
    rw [← hrun]
    exact h0
  | cons op rest ih =>
    unfold runOps at hrun
    cases ha : op.apply s0 with
    | none => simp [ha] at hrun
    | some s1 =>
      simp only [ha] at hrun
      exact ih s1 (apply_aligned op s0 s1 h0 ha) hrun

/-- C16. Start from a slot whose buffers `_uvs`, `_localVertices` and `_resultVertices` are all
unset (as the constructor leaves them) or all set with equal lengths, and run any finite sequence
of `_onClear`, `_updateFrame`, `_updateMesh` and `render` calls, with the runtime free to change
the display frame and its other fields in between. In the slot reached, the three buffers are
again all unset or all set with equal lengths; and if its frame has texture data, `_updateFrame`
returns and leaves all three set with length twice the vertex count of that frame, which is 8
for a quad. -/
theorem buffer_length_invariant (s0 s : WebGLSlot) (ops : List SlotOp) (h0 : s0.Aligned)
    (hrun : runOps s0 ops = some s) :
    s.Aligned ∧
    ∀ frame td, s._displayFrame = some frame → frame.textureData = some td →
      (∃ s1 u l r, s._updateFrame = some s1 ∧ s1._uvs = some u ∧ s1._localVertices = some l ∧
        s1._resultVertices = some r ∧ u.length = 2 * frame.vertexCount ∧
        l.length = 2 * frame.vertexCount ∧ r.length = 2 * frame.vertexCount) ∧
      (isMesh frame.display = false → frame.vertexCount = 4) :=
  ⟨runOps_aligned ops s0 s h0 hrun, fun frame td hf htd =>
    ⟨updateFrame_lengths s frame td (runOps_aligned ops s0 s h0 hrun) hf htd,
      vertexCount_of_quad frame⟩⟩

/-- C16, witness: the fresh quad slot after `_updateFrame`, `_updateMesh` and `render`. -/
theorem buffer_length_invariant_witness :
    ∃ s, runOps quadSlot [SlotOp.updateFrame, SlotOp.updateMesh,
        SlotOp.render DragonBonesRenderer.create plainDisplay] = some s ∧
      s.Aligned ∧
      (∃ s1 u l r, s._updateFrame = some s1 ∧ s1._uvs = some u ∧ s1._localVertices = some l ∧
        s1._resultVertices = some r ∧
        u.length = 2 * (imageFrame (plainTexture 0 0 64 64 false)).vertexCount ∧
        l.length = 2 * (imageFrame (plainTexture 0 0 64 64 false)).vertexCount ∧
        r.length = 2 * (imageFrame (plainTexture 0 0 64 64 false)).vertexCount) ∧
      (imageFrame (plainTexture 0 0 64 64 false)).vertexCount = 4 := by
  have hm : builtQuadSlot._updateMesh = some builtQuadSlot :=
    updateMesh_of_not_mesh builtQuadSlot (fun f e hf he => by
      cases hf
      cases he
      decide)
  obtain ⟨s2, r2, hr⟩ : ∃ s2 r2,
      builtQuadSlot.render DragonBonesRenderer.create plainDisplay = some (s2, r2) :=
    ⟨_, _, render_rigid builtQuadSlot DragonBonesRenderer.create plainDisplay
    (imageFrame (plainTexture 0 0 64 64 false)) (plainTexture 0 0 64 64 false)
    [0, 0, 64, 0, 64, 64, 0, 64] [0, 0, 0, 0, 0, 0, 0, 0]
    [0, 0, 1 / 2, 0, 1 / 2, 1 / 2, 0, 1 / 2] [0, 1, 2, 0, 2, 3]
    builtQuadSlot_hidden rfl rfl rfl rfl rfl rfl rfl rfl rfl⟩
  have hrun : runOps quadSlot [SlotOp.updateFrame, SlotOp.updateMesh,
      SlotOp.render DragonBonesRenderer.create plainDisplay] = some s2 := by
    simp only [runOps, SlotOp.apply, quadSlot_updateFrame, hm, hr, Option.map_some']
  have hfr : s2._displayFrame = some (imageFrame (plainTexture 0 0 64 64 false)) :=
    render_displayFrame _ _ _ _ _ hr
  have h := buffer_length_invariant quadSlot s2 _ (freshSlot_aligned _) hrun
  exact ⟨s2, hrun, h.1, (h.2 (imageFrame (plainTexture 0 0 64 64 false))
    (plainTexture 0 0 64 64 false) hfr rfl).1,
    (h.2 (imageFrame (plainTexture 0 0 64 64 false))
      (plainTexture 0 0 64 64 false) hfr rfl).2 rfl⟩

/-! ## Claim C15: the frame driver -/

theorem renderMeshFlush_clears (r : DragonBonesRenderer) (t : Texture) (n m : Nat) :
    (r.renderMeshFlush t n m).clears = r.clears := by
  unfold renderMeshFlush
  split
  · exact flush_clears r
  · rfl

theorem renderMesh_clears (r : DragonBonesRenderer) (t : Texture) (v u : List ℚ)
    (i : List Nat) (c : List ℚ) : (r.renderMesh t v u i c).clears = r.clears :=
  renderMeshFlush_clears r t (v.length / 2) i.length

theorem renderMeshFlush_inv (r : DragonBonesRenderer) (t : Texture) (n m : Nat)
    (hinv : r.vertexCount = 0 → r.indexCount = 0) :
    (r.renderMeshFlush t n m).vertexCount = 0 → (r.renderMeshFlush t n m).indexCount = 0 := by
  unfold renderMeshFlush
  split
  · intro _
    show r.flush.indexCount = 0
    rw [flush_indexCount]
    split
    · rename_i h0
      exact hinv h0
    · rfl
  · exact hinv

theorem renderMesh_inv (r : DragonBonesRenderer) (t : Texture) (v u : List ℚ)
    (i : List Nat) (c : List ℚ) (hinv : r.vertexCount = 0 → r.indexCount = 0)
    (hiv : i ≠ [] → 2 ≤ v.length) :
    (r.renderMesh t v u i c).vertexCount = 0 → (r.renderMesh t v u i c).indexCount = 0 := by
  rw [renderMesh_vertexCount, renderMesh_indexCount]
  intro h
  have h1 : (r.renderMeshFlush t (v.length / 2) i.length).vertexCount = 0 := by omega
  have h2 : v.length / 2 = 0 := by omega
  have h3 := renderMeshFlush_inv r t (v.length / 2) i.length hinv h1
  have h4 : i = [] := by
    by_contra hne
    have := hiv hne
    omega
  rw [h3, h4]
  rfl

/-- Method `render` of a slot returns the renderer as it is, or after one `renderMesh` of an
array as long as `_resultVertices` with the slot's `_indices`. -/
theorem render_renderer_shape (s s1 : WebGLSlot) (renderer r1 : DragonBonesRenderer)
    (display : WebGLArmatureDisplay) (h : s.render renderer display = some (s1, r1)) :
    r1 = renderer ∨ ∃ t res out uvs idx, s._resultVertices = some res ∧ s._indices = some idx ∧
      out.length = res.length ∧ r1 = renderer.renderMesh t out uvs idx s._color := by
  unfold WebGLSlot.render at h
  by_cases hh : s.hidden = true
  · rw [if_pos hh, Option.some.injEq, Prod.mk.injEq] at h
    exact Or.inl h.2.symm
  · rw [if_neg hh] at h
    cases hl : s._localVertices with
    | none =>
      simp only [hl, Option.some.injEq, Prod.mk.injEq] at h
      exact Or.inl h.2.symm
    | some loc =>
      simp only [hl] at h
      cases hf : s._displayFrame with
      | none => simp [hf] at h
      | some frame =>
        simp only [hf] at h
        cases hr : s._resultVertices with
        | none => simp [hr] at h
        | some res =>
          simp only [hr] at h
          have hlen : (if hasWeight frame.display = true then
              (List.range (loc.length / 2)).foldl
                (WebGLSlot.skinnedResultBody loc display.x display.y display.scaleX
                  display.scaleY) res
            else
              (List.range (loc.length / 2)).foldl
                (WebGLSlot.rigidResultBody loc s.globalTransformMatrix display.x display.y
                  display.scaleX display.scaleY) res).length = res.length := by
            split
            · exact skinnedFold_length _ _ _ _ _ _ _
            · exact rigidFold_length _ _ _ _ _ _ _ _
          generalize (if hasWeight frame.display = true then
              (List.range (loc.length / 2)).foldl
                (WebGLSlot.skinnedResultBody loc display.x display.y display.scaleX
                  display.scaleY) res
            else
              (List.range (loc.length / 2)).foldl
                (WebGLSlot.rigidResultBody loc s.globalTransformMatrix display.x display.y
                  display.scaleX display.scaleY) res) = result at h hlen
          cases ht : frame.textureData with
          | none => simp [ht] at h
          | some td =>
            simp only [ht] at h
            cases hi : s._indices with
            | none => simp [hi] at h
            | some idx =>
              simp only [hi] at h
              cases hu : s._uvs with
              | none =>
                simp only [hu] at h
                by_cases hz : result.length / 2 = 0
                · rw [if_pos hz, Option.some.injEq, Prod.mk.injEq] at h
                  exact Or.inr ⟨_, res, result, _, idx, rfl, rfl, hlen, h.2.symm⟩
                · rw [if_neg hz] at h
                  cases h
              | some uvs =>
                simp only [hu, Option.some.injEq, Prod.mk.injEq] at h
                exact Or.inr ⟨_, res, result, _, idx, rfl, rfl, hlen, h.2.symm⟩

theorem render_clears (s s1 : WebGLSlot) (renderer r1 : DragonBonesRenderer)
    (display : WebGLArmatureDisplay) (h : s.render renderer display = some (s1, r1)) :
    r1.clears = renderer.clears := by
  rcases render_renderer_shape s s1 renderer r1 display h with e | ⟨t, res, out, uvs, idx, -, -, -, e⟩
  · rw [e]
  · rw [e, renderMesh_clears]

theorem render_inv (s s1 : WebGLSlot) (renderer r1 : DragonBonesRenderer)
    (display : WebGLArmatureDisplay) (h : s.render renderer display = some (s1, r1))
    (hs : s.SubmitsVertex) (hinv : renderer.vertexCount = 0 → renderer.indexCount = 0) :
    r1.vertexCount = 0 → r1.indexCount = 0 := by
  rcases render_renderer_shape s s1 renderer r1 display h with
    e | ⟨t, res, out, uvs, idx, hres, hidx, hlen, e⟩
  · rw [e]
    exact hinv
  · rw [e]
    exact renderMesh_inv renderer t out uvs idx s._color hinv
      (fun hne => by
        rw [hlen]
        exact hs idx res hidx hres hne)

theorem renderSlots_nil (display : WebGLArmatureDisplay) (r : DragonBonesRenderer) :
    WebGLArmatureDisplay.renderSlots display [] r = some ([], r) := by
  rw [WebGLArmatureDisplay.renderSlots]

theorem renderSlots_other (display : WebGLArmatureDisplay) (rest : List ArmatureSlot)
    (r : DragonBonesRenderer) :
    WebGLArmatureDisplay.renderSlots display (ArmatureSlot.other :: rest) r =
      (WebGLArmatureDisplay.renderSlots display rest r).map
        (fun p => (ArmatureSlot.other :: p.1, p.2)) := by
  rw [WebGLArmatureDisplay.renderSlots]
  cases WebGLArmatureDisplay.renderSlots display rest r with
  | none => rfl
  | some p => rfl

theorem renderSlots_webgl (display : WebGLArmatureDisplay) (s : WebGLSlot)
    (rest : List ArmatureSlot) (r : DragonBonesRenderer) :
    WebGLArmatureDisplay.renderSlots display (ArmatureSlot.webgl s :: rest) r =
      (s.render r display).bind (fun q =>
        (WebGLArmatureDisplay.renderSlots display rest q.2).map
          (fun p => (ArmatureSlot.webgl q.1 :: p.1, p.2))) := by
  rw [WebGLArmatureDisplay.renderSlots]
  cases s.render r display with
  | none => rfl
  | some q =>
    obtain ⟨s1, r1⟩ := q
    simp only [Option.some_bind]
    cases WebGLArmatureDisplay.renderSlots display rest r1 with
    | none => rfl
    | some p => rfl

theorem renderSlots_clears (display : WebGLArmatureDisplay) (slots slots1 : List ArmatureSlot)
    (r r1 : DragonBonesRenderer)
    (h : WebGLArmatureDisplay.renderSlots display slots r = some (slots1, r1)) :
    r1.clears = r.clears := by
  induction slots generalizing r slots1 r1 with
  | nil =>
    rw [renderSlots_nil, Option.some.injEq, Prod.mk.injEq] at h
    rw [← h.2]
  | cons a rest ih =>
    cases a with
    | other =>
      rw [renderSlots_other] at h
      cases hrest : WebGLArmatureDisplay.renderSlots display rest r with
      | none => simp [hrest] at h
      | some p =>
        obtain ⟨rest1, r2⟩ := p
        simp only [hrest, Option.map_some', Option.some.injEq, Prod.mk.injEq] at h
        rw [← h.2]
        exact ih rest1 r r2 hrest
    | webgl s =>
      rw [renderSlots_webgl] at h
      cases hs : s.render r display with
      | none => simp [hs] at h
      | some q =>
        obtain ⟨s1, r2⟩ := q
        simp only [hs, Option.some_bind] at h
        cases hrest : WebGLArmatureDisplay.renderSlots display rest r2 with
        | none => simp [hrest] at h
        | some p =>
          obtain ⟨rest1, r3⟩ := p
          simp only [hrest, Option.map_some', Option.some.injEq, Prod.mk.injEq] at h
          rw [← h.2, ih rest1 r2 r3 hrest]
          exact render_clears s s1 r r2 display hs

theorem renderSlots_inv (display : WebGLArmatureDisplay) (slots slots1 : List ArmatureSlot)
    (r r1 : DragonBonesRenderer)
    (h : WebGLArmatureDisplay.renderSlots display slots r = some (slots1, r1))
    (hs : ∀ s, ArmatureSlot.webgl s ∈ slots → s.SubmitsVertex)
    (hinv : r.vertexCount = 0 → r.indexCount = 0) :
    r1.vertexCount = 0 → r1.indexCount = 0 := by
  induction slots generalizing r slots1 r1 with
  | nil =>
    rw [renderSlots_nil, Option.some.injEq, Prod.mk.injEq] at h
    rw [← h.2]
    exact hinv
  | cons a rest ih =>
    cases a with
    | other =>
      rw [renderSlots_other] at h
      cases hrest : WebGLArmatureDisplay.renderSlots display rest r with
      | none => simp [hrest] at h
      | some p =>
        obtain ⟨rest1, r2⟩ := p
        simp only [hrest, Option.map_some', Option.some.injEq, Prod.mk.injEq] at h
        rw [← h.2]
        exact ih rest1 r r2 hrest (fun s hmem => hs s (List.mem_cons_of_mem _ hmem)) hinv
    | webgl s =>
      rw [renderSlots_webgl] at h
      cases hr : s.render r display with
      | none => simp [hr] at h
      | some q =>
        obtain ⟨s1, r2⟩ := q
        simp only [hr, Option.some_bind] at h
        cases hrest : WebGLArmatureDisplay.renderSlots display rest r2 with
        | none => simp [hrest] at h
        | some p =>
          obtain ⟨rest1, r3⟩ := p
          simp only [hrest, Option.map_some', Option.some.injEq, Prod.mk.injEq] at h
          rw [← h.2]
          exact ih rest1 r2 r3 hrest (fun s hmem => hs s (List.mem_cons_of_mem _ hmem))
            (render_inv s s1 r r2 display hr (hs s (List.mem_cons_self _ _)) hinv)

theorem foldl_bind_none {α β : Type} (f : α → β → Option α) (l : List β) :
    l.foldl (fun acc b => acc.bind (fun p => f p b)) none = none := by
  induction l with
  | nil => rfl
  | cons b rest ih => rw [List.foldl_cons, Option.none_bind, ih]

/-- The loop of `WebGLArmatureDisplay.render`, continued from the slots `done` already passed. -/
theorem renderInOrder_fold (display : WebGLArmatureDisplay) (slots done : List ArmatureSlot)
    (r : DragonBonesRenderer) :
    slots.foldl (fun acc slot => acc.bind (fun p =>
      match slot with
      | ArmatureSlot.other => some (p.1 ++ [ArmatureSlot.other], p.2)
      | ArmatureSlot.webgl s =>
        (s.render p.2 display).map (fun q => (p.1 ++ [ArmatureSlot.webgl q.1], q.2))))
      (some (done, r)) =
    (WebGLArmatureDisplay.renderSlots display slots r).map (fun q => (done ++ q.1, q.2)) := by
  induction slots generalizing done r with
  | nil => simp [renderSlots_nil]
  | cons a rest ih =>
    cases a with
    | other =>
      rw [List.foldl_cons, Option.some_bind]
      simp only []
      rw [ih, renderSlots_other]
      cases WebGLArmatureDisplay.renderSlots display rest r with
      | none => rfl
      | some p => simp
    | webgl s =>
      rw [List.foldl_cons, Option.some_bind, renderSlots_webgl]
      simp only []
      cases hr : s.render r display with
      | none =>
        simp only [Option.map_none', Option.none_bind]
        exact foldl_bind_none _ rest
      | some q =>
        obtain ⟨s1, r2⟩ := q
        simp only [Option.map_some', Option.some_bind]
        rw [ih]
        cases WebGLArmatureDisplay.renderSlots display rest r2 with
        | none => rfl
        | some p => simp

theorem renderSlots_eq_renderInOrder (display : WebGLArmatureDisplay)
    (slots : List ArmatureSlot) (r : DragonBonesRenderer) :
    WebGLArmatureDisplay.renderSlots display slots r = renderInOrder display slots r := by
  unfold renderInOrder
  rw [renderInOrder_fold]
  cases WebGLArmatureDisplay.renderSlots display slots r with
  | none => rfl
  | some p => simp

theorem render_single (display : WebGLArmatureDisplay) (s s1 : WebGLSlot)
    (r r1 : DragonBonesRenderer)
    (harm : display._armature = some { slots := [ArmatureSlot.webgl s] })
    (h : s.render r display = some (s1, r1)) :
    display.render r =
      some ({ display with _armature := some { slots := [ArmatureSlot.webgl s1] } }, r1) := by
  unfold WebGLArmatureDisplay.render
  rw [harm]
  simp only [renderSlots_webgl, h, renderSlots_nil, Option.some_bind, Option.map_some']

/-- The built quad slot submits four vertices and its six indices, whatever the renderer and
the container. -/
theorem builtQuadSlot_render (r : DragonBonesRenderer) (display : WebGLArmatureDisplay) :
    ∃ s1 out, out.length = 8 ∧ builtQuadSlot.render r display =
      some (s1, r.renderMesh (some 0) out [0, 0, 1 / 2, 0, 1 / 2, 1 / 2, 0, 1 / 2]
        [0, 1, 2, 0, 2, 3] [1, 1, 1, 1]) :=
  ⟨_, _, pairs_length _ _ 4, render_rigid builtQuadSlot r display
    (imageFrame (plainTexture 0 0 64 64 false)) (plainTexture 0 0 64 64 false)
    [0, 0, 64, 0, 64, 64, 0, 64] [0, 0, 0, 0, 0, 0, 0, 0]
    [0, 0, 1 / 2, 0, 1 / 2, 1 / 2, 0, 1 / 2] [0, 1, 2, 0, 2, 3]
    builtQuadSlot_hidden rfl rfl rfl rfl rfl rfl rfl rfl rfl⟩

theorem builtQuadSlot_submitsVertex : builtQuadSlot.SubmitsVertex := by
  intro idx res hidx hres _
  cases hres
  decide

/-- C15, counterexample. The renderer `onePending` has one vertex and one index pending and has
never cleared. `WebGLArmatureDisplay.render` on an armature with one built quad slot returns with
five vertices and seven indices pending, no draw call issued and no clear: the counts were not
reset at the start and nothing was flushed at the end. -/
theorem armature_render_leaves_pending :
    onePending.vertexCount = 1 ∧ onePending.indexCount = 1 ∧
    Option.map (fun p => (p.2.vertexCount, p.2.indexCount, p.2.draws.length, p.2.clears))
      (quadArmatureDisplay.render onePending) = some (5, 7, 0, 0) ∧
    Option.map (fun p => (p.2.vertexCount, p.2.indexCount))
      (quadArmatureDisplay.render onePending) ≠ some (0, 0) := by
  obtain ⟨s1, out, hlen, hr⟩ := builtQuadSlot_render onePending quadArmatureDisplay
  have hrun := render_single quadArmatureDisplay builtQuadSlot s1 onePending _ rfl hr
  have hflush : onePending.renderMeshFlush (some 0) (out.length / 2)
      [0, 1, 2, 0, 2, 3].length = onePending := by
    rw [hlen]
    exact renderMeshFlush_eq_self onePending (some 0) _ _ (by decide) (by decide) (by decide)
  have e : Option.map (fun p => (p.2.vertexCount, p.2.indexCount, p.2.draws.length, p.2.clears))
      (quadArmatureDisplay.render onePending) = some (5, 7, 0, 0) := by
    rw [hrun, Option.map_some', renderMesh_vertexCount, renderMesh_indexCount, renderMesh_draws,
      renderMesh_clears, hflush, hlen]
    decide
  refine ⟨by decide, by decide, e, ?_⟩
  rw [hrun, Option.map_some', renderMesh_vertexCount, renderMesh_indexCount, hflush, hlen]
  decide

/-- C15, amended. `WebGLArmatureDisplay.render(renderer)` neither resets the batcher counts nor
flushes. Without an armature it returns at once; with one it renders the `WebGLSlot`s one after
the other in the order `getSlots()` lists them, passing over slots of other classes, and it never
clears. When the caller brackets it as `begin(); render(renderer); flush()`, `vertexCount` is `0`
afterwards, and `indexCount` is `0` as well provided every slot that submits an index submits a
vertex. -/
theorem armature_render_submits_in_order (display : WebGLArmatureDisplay)
    (r : DragonBonesRenderer) :
    (display._armature = none → display.render r = some (display, r)) ∧
    (∀ armature, display._armature = some armature →
      display.render r = (renderInOrder display armature.slots r).map
        (fun p => ({ display with _armature := some { slots := p.1 } }, p.2))) ∧
    (∀ d1 r1, display.render r = some (d1, r1) → r1.clears = r.clears) ∧
    (∀ d1 r1, display.render r.begin = some (d1, r1) →
      r1.flush.vertexCount = 0 ∧
      ((∀ armature s, display._armature = some armature →
          ArmatureSlot.webgl s ∈ armature.slots → s.SubmitsVertex) →
        r1.flush.indexCount = 0)) := by
  refine ⟨?_, ?_, ?_, ?_⟩
  · intro h
    unfold WebGLArmatureDisplay.render
    rw [h]
  · intro armature h
    unfold WebGLArmatureDisplay.render
    rw [h]
    simp only []
    rw [← renderSlots_eq_renderInOrder]
    cases WebGLArmatureDisplay.renderSlots display armature.slots r with
    | none => rfl
    | some p => rfl
  · intro d1 r1 h
    unfold WebGLArmatureDisplay.render at h
    cases harm : display._armature with
    | none =>
      simp only [harm, Option.some.injEq, Prod.mk.injEq] at h
      rw [← h.2]
    | some armature =>
      simp only [harm] at h
      cases hs : WebGLArmatureDisplay.renderSlots display armature.slots r with
      | none => simp [hs] at h
      | some p =>
        obtain ⟨slots1, r2⟩ := p
        simp only [hs, Option.some.injEq, Prod.mk.injEq] at h
        rw [← h.2]
        exact renderSlots_clears display _ _ _ _ hs
  · intro d1 r1 h
    refine ⟨flush_vertexCount r1, ?_⟩
    intro hall
    have hinv : r1.vertexCount = 0 → r1.indexCount = 0 := by
      unfold WebGLArmatureDisplay.render at h
      cases harm : display._armature with
      | none =>
        simp only [harm, Option.some.injEq, Prod.mk.injEq] at h
        rw [← h.2]
        intro _
        rfl
      | some armature =>
        simp only [harm] at h
        cases hs : WebGLArmatureDisplay.renderSlots display armature.slots r.begin with
        | none => simp [hs] at h
        | some p =>
          obtain ⟨slots1, r2⟩ := p
          simp only [hs, Option.some.injEq, Prod.mk.injEq] at h
          rw [← h.2]
          exact renderSlots_inv display _ _ _ _ hs (fun s hmem => hall armature s harm hmem)
            (fun _ => rfl)
    rw [flush_indexCount]
    split
    · rename_i h0
      exact hinv h0
    · rfl

/-- C15, witness: the armature with one built quad slot, rendered between `begin()` and
`flush()` on the renderer `onePending`. -/
theorem armature_render_submits_in_order_witness :
    ∃ d1 r1, quadArmatureDisplay.render onePending.begin = some (d1, r1) ∧
      r1.vertexCount = 4 ∧ r1.indexCount = 6 ∧
      r1.flush.vertexCount = 0 ∧ r1.flush.indexCount = 0 := by
  obtain ⟨s1, out, hlen, hr⟩ := builtQuadSlot_render onePending.begin quadArmatureDisplay
  have hrun := render_single quadArmatureDisplay builtQuadSlot s1 onePending.begin _ rfl hr
  have hcount : (onePending.begin.renderMeshFlush (some 0) (out.length / 2)
      [0, 1, 2, 0, 2, 3].length).vertexCount = 0 ∧
      (onePending.begin.renderMeshFlush (some 0) (out.length / 2)
      [0, 1, 2, 0, 2, 3].length).indexCount = 0 :=
    renderMeshFlush_of_zero onePending.begin _ _ _ rfl
  have h := (armature_render_submits_in_order quadArmatureDisplay onePending).2.2.2 _ _ hrun
  refine ⟨_, _, hrun, ?_, ?_, h.1, h.2 ?_⟩
  · rw [renderMesh_vertexCount, hcount.1, hlen]
  · rw [renderMesh_indexCount, hcount.2]
    rfl
  · intro armature s harm hmem
    cases harm
    simp only [List.mem_singleton, ArmatureSlot.webgl.injEq] at hmem
    rw [hmem]
    exact builtQuadSlot_submitsVertex

/-! ## Claim C21: batching is transparent -/

theorem vertexRecord_length (v u c : List ℚ) (i : Nat) : (vertexRecord v u c i).length = 8 := rfl

theorem records_length (v u c : List ℚ) (n : Nat) :
    ((List.range n).flatMap (vertexRecord v u c)).length = n * 8 := by
  induction n with
  | zero => rfl
  | succ n ih =>
    rw [List.range_succ, List.flatMap_append, List.length_append, ih]
    simp [vertexRecord_length]
    omega

/-- The eight floats at stride position `k` of the interleaved records are the record of
vertex `k`. -/
theorem records_lookup (v u c : List ℚ) (n k : Nat) (hk : k < n) :
    (((List.range n).flatMap (vertexRecord v u c)).drop (k * 8)).take 8 =
      vertexRecord v u c k := by
  induction n with
  | zero => omega
  | succ n ih =>
    rw [List.range_succ, List.flatMap_append]
    have hlen := records_length v u c n
    by_cases h : k < n
    · rw [List.drop_append_of_le_length (by omega),
        List.take_append_of_le_length (by rw [List.length_drop]; omega)]
      exact ih h
    · have hkn : k = n := by omega
      subst hkn
      rw [← hlen, List.drop_left]
      simp [vertexRecord]

theorem subarray_vertices_length (r : DragonBonesRenderer) (h : r.vertexCount ≤ MAX_VERTICES) :
    (subarray r.vertices VERTICES_LENGTH (r.vertexCount * 8)).length = r.vertexCount * 8 := by
  rw [subarray_length, VERTICES_LENGTH_eq]
  omega

theorem subarray_indices_length (r : DragonBonesRenderer) (h : r.indexCount ≤ MAX_INDICES) :
    (subarray r.indices INDICES_LENGTH r.indexCount).length = r.indexCount := by
  rw [subarray_length]
  exact min_eq_left h

theorem mem_subarray {α : Type} (f : Nat → α) (len e : Nat) (x : α)
    (h : x ∈ subarray f len e) : ∃ j, j < e ∧ x = f j := by
  unfold subarray at h
  rw [List.mem_map] at h
  obtain ⟨j, hj, e1⟩ := h
  rw [List.mem_range] at hj
  exact ⟨j, by omega, e1.symm⟩

theorem pendingDraw_drawn_of_zero (r : DragonBonesRenderer) (h : r.indexCount = 0) :
    r.pendingDraw.drawn = [] := by
  simp [DrawCall.drawn, DragonBonesRenderer.pendingDraw, h]

/-- An append adds to what a flush would draw exactly what the submission draws by itself. -/
theorem renderMeshAppend_drawn (r : DragonBonesRenderer) (v u : List ℚ) (idx : List Nat)
    (c : List ℚ) (hv : r.vertexCount + v.length / 2 ≤ MAX_VERTICES)
    (hi : r.indexCount + idx.length ≤ MAX_INDICES)
    (hold : ∀ j, j < r.indexCount → r.indices j < r.vertexCount)
    (hidx : ∀ k ∈ idx, k < v.length / 2) :
    (r.renderMeshAppend v u idx c).pendingDraw.drawn =
      r.pendingDraw.drawn ++ idx.map (fun k => (r.currentTexture, vertexRecord v u c k)) := by
  have hV := renderMeshAppend_subarray_vertices r v u idx c hv
  have hI := renderMeshAppend_subarray_indices r v u idx c hi
  have hlenV := subarray_vertices_length r (by omega)
  have hlenI := subarray_indices_length r (by omega)
  have hrec := records_length v u c (v.length / 2)
  have e1 : (r.renderMeshAppend v u idx c).pendingDraw.drawn =
      ((subarray r.indices INDICES_LENGTH r.indexCount ++
        idx.map (fun k => toUint16 (r.vertexCount + k))).take (r.indexCount + idx.length)).map
      (fun k => (r.currentTexture,
        ((subarray r.vertices VERTICES_LENGTH (r.vertexCount * 8) ++
          (List.range (v.length / 2)).flatMap (vertexRecord v u c)).drop (k * 8)).take 8)) := by
    rw [← hV, ← hI]
    rfl
  have e2 : r.pendingDraw.drawn =
      ((subarray r.indices INDICES_LENGTH r.indexCount).take r.indexCount).map
      (fun k => (r.currentTexture,
        ((subarray r.vertices VERTICES_LENGTH (r.vertexCount * 8)).drop (k * 8)).take 8)) := rfl
  rw [e1, e2, List.take_of_length_le (by rw [List.length_append, hlenI, List.length_map]),
    List.take_of_length_le (by rw [hlenI]), List.map_append, List.map_map]
  congr 1
  · apply List.map_congr_left
    intro k hk
    obtain ⟨j, hj, rfl⟩ := mem_subarray _ _ _ _ hk
    have hlt := hold j hj
    rw [List.drop_append_of_le_length (by rw [hlenV]; omega),
      List.take_append_of_le_length (by rw [List.length_drop, hlenV]; omega)]
  · apply List.map_congr_left
    intro k hk
    have hlt := hidx k hk
    have hw : toUint16 (r.vertexCount + k) = r.vertexCount + k := by
      unfold toUint16
      have : MAX_VERTICES = 8000 := rfl
      omega
    simp only [Function.comp_apply, hw]
    have e3 : (r.vertexCount + k) * 8 =
        (subarray r.vertices VERTICES_LENGTH (r.vertexCount * 8)).length + k * 8 := by
      rw [hlenV]
      ring
    rw [e3, List.drop_append, records_lookup v u c _ k hlt]

/-- A flush draws what was pending, in one draw call or, when nothing was pending, none. -/
theorem flush_drawn (r : DragonBonesRenderer) (hinv : r.vertexCount = 0 → r.indexCount = 0) :
    ∃ extra, r.flush.draws = r.draws ++ extra ∧ extra.length ≤ 1 ∧
      extra.flatMap DrawCall.drawn = r.pendingDraw.drawn ∧
      r.flush.vertexCount = 0 ∧ r.flush.indexCount = 0 := by
  by_cases h0 : r.vertexCount = 0
  · refine ⟨[], ?_, by simp, ?_, ?_, ?_⟩
    · rw [flush_of_zero r h0, List.append_nil]
    · rw [pendingDraw_drawn_of_zero r (hinv h0)]
      rfl
    · rw [flush_of_zero r h0, h0]
    · rw [flush_of_zero r h0, hinv h0]
  · refine ⟨[r.pendingDraw], flush_draws_of_pos r h0, by simp, by simp, flush_vertexCount r, ?_⟩
    rw [flush_indexCount, if_neg h0]

/-- The guarded block of `renderMesh` draws what was pending when it flushes, and leaves a state
with room for the submission and the submitted texture bound. -/
theorem renderMeshFlush_drawn (r : DragonBonesRenderer) (t : Texture) (n m : Nat)
    (hr : r.WellStaged) (hn : n ≤ MAX_VERTICES) (hm : m ≤ MAX_INDICES) :
    (∃ extra, (r.renderMeshFlush t n m).draws = r.draws ++ extra ∧
      extra.flatMap DrawCall.drawn ++ (r.renderMeshFlush t n m).pendingDraw.drawn =
        r.pendingDraw.drawn) ∧
    (r.renderMeshFlush t n m).currentTexture = t ∧
    (r.renderMeshFlush t n m).vertexCount + n ≤ MAX_VERTICES ∧
    (r.renderMeshFlush t n m).indexCount + m ≤ MAX_INDICES ∧
    ((r.renderMeshFlush t n m).vertexCount = 0 → (r.renderMeshFlush t n m).indexCount = 0) ∧
    (∀ j, j < (r.renderMeshFlush t n m).indexCount →
      (r.renderMeshFlush t n m).indices j < (r.renderMeshFlush t n m).vertexCount) := by
  obtain ⟨hv, hi, hinv, hold⟩ := hr
  obtain ⟨h1, h2, h3⟩ := renderMeshFlush_room r t n m hinv hn hm
  refine ⟨?_, renderMeshFlush_currentTexture r t n m, h1, h2, h3, ?_⟩
  · by_cases hg : r.currentTexture ≠ t ∨ r.vertexCount + n > MAX_VERTICES ∨
        r.indexCount + m > MAX_INDICES
    · have hrf : r.renderMeshFlush t n m = { r.flush with currentTexture := t } := if_pos hg
      obtain ⟨extra, e1, -, e2, e3, e4⟩ := flush_drawn r hinv
      have hz : (r.renderMeshFlush t n m).indexCount = 0 := by
        rw [hrf]
        exact e4
      refine ⟨extra, ?_, ?_⟩
      · rw [hrf]
        exact e1
      · rw [pendingDraw_drawn_of_zero _ hz, List.append_nil, e2]
    · have hrf : r.renderMeshFlush t n m = r := if_neg hg
      rw [hrf]
      exact ⟨[], by simp, by simp⟩
  · by_cases hg : r.currentTexture ≠ t ∨ r.vertexCount + n > MAX_VERTICES ∨
        r.indexCount + m > MAX_INDICES
    · have hrf : r.renderMeshFlush t n m = { r.flush with currentTexture := t } := if_pos hg
      obtain ⟨extra, -, -, -, e3, e4⟩ := flush_drawn r hinv
      have hz : (r.renderMeshFlush t n m).indexCount = 0 := by
        rw [hrf]
        exact e4
      intro j hj
      omega
    · have hrf : r.renderMeshFlush t n m = r := if_neg hg
      rw [hrf]
      exact hold

/-- One submission from a well-staged state: the state stays well staged, and what has been
drawn or is pending grows by what the submission draws by itself. -/
theorem submit_drawn (r : DragonBonesRenderer) (t : Texture) (m : Mesh)
    (hr : r.WellStaged) (hm : m.Submittable) :
    (r.submit t m).WellStaged ∧
    ∃ extra, (r.submit t m).draws = r.draws ++ extra ∧
      extra.flatMap DrawCall.drawn ++ (r.submit t m).pendingDraw.drawn =
        r.pendingDraw.drawn ++ m.drawnAlone t := by
  obtain ⟨-, -, -, hnv, hni, hidx⟩ := hm
  obtain ⟨⟨extra, hd, hsum⟩, htex, hroomV, hroomI, hinv, hold⟩ :=
    renderMeshFlush_drawn r t m.numVerts m.numIndices hr hnv hni
  have happ := renderMeshAppend_drawn (r.renderMeshFlush t m.numVerts m.numIndices)
    m.vertices m.uvs m.indices m.color hroomV hroomI hold hidx
  rw [htex] at happ
  have hsub : r.submit t m = (r.renderMeshFlush t m.numVerts m.numIndices).renderMeshAppend
      m.vertices m.uvs m.indices m.color := rfl
  refine ⟨⟨?_, ?_, ?_, ?_⟩, extra, ?_, ?_⟩
  · rw [submit_vertexCount]
    exact hroomV
  · rw [submit_indexCount]
    exact hroomI
  · rw [submit_vertexCount, submit_indexCount]
    intro h0
    have hz : m.numVerts = 0 := by omega
    have hi0 : m.numIndices = 0 := by
      unfold Mesh.numIndices
      rw [List.length_eq_zero]
      apply List.eq_nil_iff_forall_not_mem.mpr
      intro k hk
      have := hidx k hk
      omega
    have := hinv (by omega)
    omega
  · rw [submit_vertexCount, submit_indexCount]
    intro j hj
    rw [hsub, renderMeshAppend_indices]
    split
    · rename_i hin
      have hlt : j - (r.renderMeshFlush t m.numVerts m.numIndices).indexCount <
          m.indices.length := by
        have := hin.2.1
        omega
      have hmem : m.indices.getD
          (j - (r.renderMeshFlush t m.numVerts m.numIndices).indexCount) 0 ∈ m.indices := by
        rw [List.getD_eq_getElem _ _ hlt]
        exact List.getElem_mem hlt
      have := hidx _ hmem
      have hle := Nat.mod_le ((r.renderMeshFlush t m.numVerts m.numIndices).vertexCount +
        m.indices.getD (j - (r.renderMeshFlush t m.numVerts m.numIndices).indexCount) 0) 65536
      unfold toUint16
      omega
    · rename_i hout
      have hlen : INDICES_LENGTH = MAX_INDICES := rfl
      have hNI : m.numIndices = m.indices.length := rfl
      have hj2 : j < (r.renderMeshFlush t m.numVerts m.numIndices).indexCount := by
        by_contra hge
        exact hout ⟨by omega, by omega, by omega⟩
      have := hold j hj2
      omega
  · rw [submit_draws, hd]
  · rw [hsub, happ, ← List.append_assoc, hsum]
    rfl

/-- A run of submissions from a well-staged state. -/
theorem runCalls_drawn (subs : List (Texture × Mesh)) (r : DragonBonesRenderer)
    (hr : r.WellStaged) (hsubs : ∀ p ∈ subs, p.2.Submittable) :
    (runCalls r (subs.map (fun p => Call.renderMesh p.1 p.2))).WellStaged ∧
    ∃ extra, (runCalls r (subs.map (fun p => Call.renderMesh p.1 p.2))).draws =
        r.draws ++ extra ∧
      extra.flatMap DrawCall.drawn ++
          (runCalls r (subs.map (fun p => Call.renderMesh p.1 p.2))).pendingDraw.drawn =
        r.pendingDraw.drawn ++ subs.flatMap (fun p => p.2.drawnAlone p.1) := by
  induction subs generalizing r with
  | nil => exact ⟨hr, [], by simp [runCalls], by simp [runCalls]⟩
  | cons p rest ih =>
    obtain ⟨hw1, extra1, hd1, hs1⟩ := submit_drawn r p.1 p.2 hr
      (hsubs p (List.mem_cons_self _ _))
    obtain ⟨hw2, extra2, hd2, hs2⟩ := ih (r.submit p.1 p.2) hw1
      (fun q hq => hsubs q (List.mem_cons_of_mem _ hq))
    have hrun : runCalls r ((p :: rest).map (fun p => Call.renderMesh p.1 p.2)) =
        runCalls (r.submit p.1 p.2) (rest.map (fun p => Call.renderMesh p.1 p.2)) := rfl
    rw [hrun]
    refine ⟨hw2, extra1 ++ extra2, ?_, ?_⟩
    · rw [hd2, hd1, List.append_assoc]
    · rw [List.flatMap_append, List.append_assoc, hs2, ← List.append_assoc, hs1,
        List.flatMap_cons, List.append_assoc]

theorem begin_wellStaged (r : DragonBonesRenderer) : r.begin.WellStaged :=
  ⟨Nat.zero_le _, Nat.zero_le _, fun _ => rfl, fun j hj => absurd hj (Nat.not_lt_zero j)⟩

theorem runCalls_begin (r : DragonBonesRenderer) (calls : List Call) :
    runCalls r (Call.begin :: calls) = runCalls r.begin calls := rfl

theorem runCalls_frameCalls (r : DragonBonesRenderer) (subs : List (Texture × Mesh)) :
    runCalls r (frameCalls subs) =
      (runCalls r.begin (subs.map (fun p => Call.renderMesh p.1 p.2))).flush := by
  unfold frameCalls
  rw [List.cons_append, runCalls_begin, runCalls_append]
  rfl

/-- Drawn with its own draw call, a submission whose indices name its own vertices draws, for
each index, the record of the vertex the index names. -/
theorem ownDraw_drawn (t : Texture) (m : Mesh) (hidx : ∀ k ∈ m.indices, k < m.numVerts) :
    (m.ownDraw t).drawn = m.drawnAlone t := by
  unfold DrawCall.drawn Mesh.ownDraw Mesh.drawnAlone Mesh.numIndices
  rw [List.take_length]
  apply List.map_congr_left
  intro k hk
  have := records_lookup m.vertices m.uvs m.color m.numVerts k (hidx k hk)
  unfold Mesh.records
  simp only [VERTEX_SIZE]
  rw [this]

theorem flatMap_ownDraw (subs : List (Texture × Mesh))
    (hsubs : ∀ p ∈ subs, p.2.Submittable) :
    subs.flatMap (fun p => (p.2.ownDraw p.1).drawn) =
      subs.flatMap (fun p => p.2.drawnAlone p.1) := by
  induction subs with
  | nil => rfl
  | cons p rest ih =>
    rw [List.flatMap_cons, List.flatMap_cons, ih (fun q hq => hsubs q (List.mem_cons_of_mem _ hq)),
      ownDraw_drawn p.1 p.2 (hsubs p (List.mem_cons_self _ _)).2.2.2.2.2]

theorem fits_of_submittable (m : Mesh) (hm : m.Submittable) : m.Fits := by
  obtain ⟨heven, -, -, hnv, hni, -⟩ := hm
  unfold Mesh.numVerts at hnv
  exact ⟨by omega, hni⟩

/-- C21. Take any renderer state and any frame: `begin()`, then `renderMesh` submissions, then
one `flush()`, where each submission holds whole vertex pairs with one UV pair per vertex and four
colour components, fits the capacity by itself and has every index below its own vertex count.
The draw calls issued during the frame, taken in order, draw for each of their indices the bound
texture and the eight floats the index resolves to; this list equals the list, in submission
order, of each submission's texture with the record `[x, y, u, v, color]` of the vertex each of
its indices names, which is also what drawing each mesh with its own draw call draws. Nothing is
left pending. At each submission, with `base` vertices pending when it is appended, its vertices
are staged in the slots `base .. base + n - 1`, and each of its indices `k` is staged as
`base + k` without wrapping, below `base + n`, so inside its own slots. -/
theorem batching_is_transparent (r : DragonBonesRenderer) (subs : List (Texture × Mesh))
    (hsubs : ∀ p ∈ subs, p.2.Submittable) :
    (∃ issued, (runCalls r (frameCalls subs)).draws = r.draws ++ issued ∧
      issued.flatMap DrawCall.drawn = subs.flatMap (fun p => p.2.drawnAlone p.1) ∧
      issued.flatMap DrawCall.drawn = subs.flatMap (fun p => (p.2.ownDraw p.1).drawn)) ∧
    (runCalls r (frameCalls subs)).vertexCount = 0 ∧
    (runCalls r (frameCalls subs)).indexCount = 0 ∧
    ∀ (pre post : List (Texture × Mesh)) (t : Texture) (m : Mesh)
      (before : DragonBonesRenderer) (base i0 : Nat),
      subs = pre ++ (t, m) :: post →
      before = runCalls r (Call.begin :: pre.map (fun p => Call.renderMesh p.1 p.2)) →
      base = (before.renderMeshFlush t m.numVerts m.numIndices).vertexCount →
      i0 = (before.renderMeshFlush t m.numVerts m.numIndices).indexCount →
      base + m.numVerts ≤ MAX_VERTICES ∧
      (∀ i, i < m.numVerts →
        (List.range 8).map (fun s => (before.submit t m).vertices ((base + i) * 8 + s)) =
          vertexRecord m.vertices m.uvs m.color i) ∧
      (∀ k, k < m.numIndices →
        (before.submit t m).indices (i0 + k) = base + m.indices.getD k 0 ∧
        base + m.indices.getD k 0 < base + m.numVerts ∧
        base + m.indices.getD k 0 < 65536) := by
  obtain ⟨hw, extra, hd, hs⟩ := runCalls_drawn subs r.begin (begin_wellStaged r) hsubs
  obtain ⟨extra2, hd2, -, hs2, hv0, hi0⟩ := flush_drawn _ hw.2.2.1
  refine ⟨⟨extra ++ extra2, ?_, ?_, ?_⟩, ?_, ?_, ?_⟩
  · rw [runCalls_frameCalls, hd2, hd, List.append_assoc]
    rfl
  · rw [List.flatMap_append, hs2, hs, pendingDraw_drawn_of_zero r.begin rfl, List.nil_append]
  · rw [List.flatMap_append, hs2, hs, pendingDraw_drawn_of_zero r.begin rfl, List.nil_append,
      flatMap_ownDraw subs hsubs]
  · rw [runCalls_frameCalls]
    exact hv0
  · rw [runCalls_frameCalls]
    exact hi0
  · intro pre post t m before base i0 hsplit hbefore hbase hi0
    have hm : m.Submittable := hsubs (t, m) (by rw [hsplit]; simp)
    have hpre : ∀ p ∈ pre, p.2.Submittable := fun p hp => hsubs p (by rw [hsplit]; simp [hp])
    obtain ⟨hwb, -⟩ := runCalls_drawn pre r.begin (begin_wellStaged r) hpre
    rw [runCalls_begin] at hbefore
    rw [← hbefore] at hwb
    obtain ⟨-, -, hroomV, -, -, -⟩ :=
      renderMeshFlush_drawn before t m.numVerts m.numIndices hwb hm.2.2.2.1 hm.2.2.2.2.1
    rw [← hbase] at hroomV
    have hidx : ∀ k ∈ m.indices, k < m.numVerts := hm.2.2.2.2.2
    have hmax : MAX_VERTICES = 8000 := rfl
    obtain ⟨l1, l2, -, -, -, -⟩ := renderMesh_layout before t m base i0 hbase hi0 hwb.2.2.1 hm.1
      (fits_of_submittable m hm) (fun k hk => by
        have := hidx k hk
        omega)
    refine ⟨hroomV, fun i hi => l1 i hi, fun k hk => ⟨l2 k hk, ?_, ?_⟩⟩
    · have hmem : m.indices.getD k 0 ∈ m.indices := by
        rw [List.getD_eq_getElem _ _ hk]
        exact List.getElem_mem hk
      have := hidx _ hmem
      omega
    · have hmem : m.indices.getD k 0 ∈ m.indices := by
        rw [List.getD_eq_getElem _ _ hk]
        exact List.getElem_mem hk
      have := hidx _ hmem
      omega

theorem twoTextureFrame_submittable : ∀ p ∈ twoTextureFrame, p.2.Submittable := by
  intro p hp
  simp only [twoTextureFrame, List.mem_cons, List.mem_singleton, List.not_mem_nil, or_false] at hp
  rcases hp with rfl | rfl | rfl
  · exact ⟨by decide, by decide, by decide, by decide, by decide, by decide⟩
  · exact ⟨by decide, by decide, by decide, by decide, by decide, by decide⟩
  · exact ⟨by decide, by decide, by decide, by decide, by decide, by decide⟩

/-- C21, witness: from a freshly constructed renderer, two quads with texture `0` and one point
with texture `1` are drawn by two draw calls. -/
theorem batching_is_transparent_witness :
    (runCalls DragonBonesRenderer.create (frameCalls twoTextureFrame)).draws.length = 2 ∧
    ∃ issued, (runCalls DragonBonesRenderer.create (frameCalls twoTextureFrame)).draws =
        DragonBonesRenderer.create.draws ++ issued ∧
      issued.flatMap DrawCall.drawn = twoTextureFrame.flatMap (fun p => p.2.drawnAlone p.1) ∧
      (runCalls DragonBonesRenderer.create (frameCalls twoTextureFrame)).vertexCount = 0 ∧
      (runCalls DragonBonesRenderer.create (frameCalls twoTextureFrame)).indexCount = 0 := by
  obtain ⟨⟨issued, h1, h2, -⟩, h3, h4, -⟩ :=
    batching_is_transparent DragonBonesRenderer.create twoTextureFrame
      twoTextureFrame_submittable
  exact ⟨by decide, issued, h1, h2, h3, h4⟩

/-! ## Claim C8: one bone at weight 1, with the stores of the typed arrays -/

theorem updateMeshWith_id (s : WebGLSlot) : s._updateMeshWith id = s._updateMesh := rfl

theorem renderWith_id (s : WebGLSlot) (renderer : DragonBonesRenderer)
    (display : WebGLArmatureDisplay) :
    s.renderWith id renderer display = s.render renderer display := rfl

theorem roundHalfEven_of_near (y : ℚ) (n : ℤ) (h1 : (n : ℚ) - 1 / 2 < y)
    (h2 : y < (n : ℚ) + 1 / 2) : roundHalfEven y = n := by
  unfold roundHalfEven
  by_cases hge : (n : ℚ) ≤ y
  · have hf : ⌊y⌋ = n := Int.floor_eq_iff.mpr ⟨hge, by linarith⟩
    simp only [hf]
    rw [if_pos (by linarith)]
  · push_neg at hge
    have hf : ⌊y⌋ = n - 1 := Int.floor_eq_iff.mpr ⟨by push_cast; linarith, by push_cast; linarith⟩
    simp only [hf]
    rw [if_neg (by push_cast; linarith), if_pos (by push_cast; linarith)]
    ring

/-- The value of `fround` at a number whose binary exponent is `e`. -/
theorem fround_of_exponent (x : ℚ) (e n : ℤ) (he : -126 ≤ e) (hlo : (2 : ℚ) ^ e ≤ |x|)
    (hhi : |x| < (2 : ℚ) ^ (e + 1)) (hn : roundHalfEven (x / 2 ^ (e - 23)) = n) :
    fround x = n * 2 ^ (e - 23) := by
  have hpos : 0 < |x| := lt_of_lt_of_le (by positivity) hlo
  have hx : x ≠ 0 := abs_pos.mp hpos
  have hlog : Int.log 2 |x| = e := by
    apply le_antisymm
    · have := (Int.lt_zpow_iff_log_lt (b := 2) (by norm_num) hpos).mp (by exact_mod_cast hhi)
      omega
    · exact (Int.zpow_le_iff_le_log (b := 2) (by norm_num) hpos).mp (by exact_mod_cast hlo)
  unfold fround
  rw [if_neg hx]
  simp only [hlog, max_eq_left he, hn]

theorem fround_zero : fround 0 = 0 := by
  simp [fround]

theorem skin_outer_with (store : ℚ → ℚ) (bones : List (Option Bone)) (T : List (List Influence))
    (bi pre post : List Nat) (raw fpre fpost res : List ℚ)
    (hbi : bi = pre ++ encodeBoneIndices T ++ post)
    (hraw : raw = fpre ++ encodeWeights T ++ fpost)
    (hres : 2 * T.length ≤ res.length) (i : Nat) (hi : i ≤ T.length) :
    (List.range i).foldl (WebGLSlot.skinVertexBodyWith store bones bi raw)
        (pre.length, fpre.length, res) =
      (pre.length + (encodeBoneIndices (T.take i)).length,
        fpre.length + (encodeWeights (T.take i)).length,
        (T.take i).flatMap (fun infl => [store (skinnedX bones infl), store (skinnedY bones infl)]) ++
          res.drop (2 * i)) := by
  induction i with
  | zero => simp [encodeBoneIndices, encodeWeights]
  | succ i ih =>
    have hlt : i < T.length := by omega
    rw [List.range_succ, List.foldl_append, ih (by omega)]
    simp only [List.foldl_cons, List.foldl_nil]
    have htake : T.take (i + 1) = T.take i ++ [T[i]] := by
      rw [← List.take_concat_get T i hlt, List.concat_eq_append]
    have hsplit : T = T.take i ++ (T[i] :: T.drop (i + 1)) := by
      rw [← List.drop_eq_getElem_cons hlt, List.take_append_drop]
    have hbi2 : bi = (pre ++ encodeBoneIndices (T.take i)) ++
        (T[i].length :: (T[i].map Influence.bone ++
          (encodeBoneIndices (T.drop (i + 1)) ++ post))) := by
      have henc : encodeBoneIndices T = encodeBoneIndices (T.take i) ++
          (T[i].length :: (T[i].map Influence.bone ++ encodeBoneIndices (T.drop (i + 1)))) := by
        conv_lhs => rw [hsplit]
        rw [encodeBoneIndices_append]
        rfl
      rw [hbi, henc]
      simp only [List.append_assoc, List.cons_append]
    have hbi3 : bi = (pre ++ encodeBoneIndices (T.take i) ++ [T[i].length]) ++
        (T[i].map Influence.bone ++ (encodeBoneIndices (T.drop (i + 1)) ++ post)) := by
      rw [hbi2]
      simp
    have hraw2 : raw = (fpre ++ encodeWeights (T.take i)) ++
        (T[i].flatMap (fun f => [f.weight, f.x, f.y]) ++
          (encodeWeights (T.drop (i + 1)) ++ fpost)) := by
      have henc : encodeWeights T = encodeWeights (T.take i) ++
          (T[i].flatMap (fun f => [f.weight, f.x, f.y]) ++ encodeWeights (T.drop (i + 1))) := by
        conv_lhs => rw [hsplit]
        rw [encodeWeights_append]
        rfl
      rw [hraw, henc]
      simp only [List.append_assoc]
    have hcount : bi.getD (pre.length + (encodeBoneIndices (T.take i)).length) 0 =
        T[i].length := by
      have := getD_append_add (pre ++ encodeBoneIndices (T.take i))
        (T[i].length :: (T[i].map Influence.bone ++
          (encodeBoneIndices (T.drop (i + 1)) ++ post))) 0 0
      rw [hbi2]
      simpa using this
    have hinner := skin_inner bones T[i] bi
      (pre ++ encodeBoneIndices (T.take i) ++ [T[i].length])
      (encodeBoneIndices (T.drop (i + 1)) ++ post) raw
      (fpre ++ encodeWeights (T.take i)) (encodeWeights (T.drop (i + 1)) ++ fpost) 0 0
      hbi3 hraw2
    have hA : (pre ++ encodeBoneIndices (T.take i) ++ [T[i].length]).length =
        pre.length + (encodeBoneIndices (T.take i)).length + 1 := by
      rw [List.length_append, List.length_append]
      rfl
    have hFA : (fpre ++ encodeWeights (T.take i)).length =
        fpre.length + (encodeWeights (T.take i)).length := by
      simp
    rw [hA, hFA] at hinner
    unfold WebGLSlot.skinVertexBodyWith
    simp only [hcount, hinner]
    have hpl : ((T.take i).flatMap
        (fun infl => [store (skinnedX bones infl), store (skinnedY bones infl)])).length = i * 2 := by
      rw [flatMap_pair_length, List.length_take]
      omega
    have h1 : 2 * i < res.length := by omega
    have h2 : 2 * i + 1 < res.length := by omega
    have hd : res.drop (2 * i) = res[2 * i] :: res[2 * i + 1] :: res.drop (2 * (i + 1)) := by
      rw [List.drop_eq_getElem_cons h1, List.drop_eq_getElem_cons h2]
      rfl
    rw [hd, set_set_pair _ _ _ _ _ _ (i * 2) hpl, htake, encodeBoneIndices_append,
      encodeWeights_append, List.flatMap_append]
    have e1 : (encodeBoneIndices [T[i]]).length = 1 + T[i].length := by
      simp [encodeBoneIndices]
      omega
    have e2 : (encodeWeights [T[i]]).length = 3 * T[i].length := by
      simp only [encodeWeights, List.flatMap_cons, List.flatMap_nil, List.append_nil]
      exact flatMap_triple_length _
    rw [List.length_append, List.length_append, e1, e2]
    simp only [List.flatMap_cons, List.flatMap_nil, List.append_nil, zero_add, List.append_assoc,
      List.cons_append, List.nil_append, Prod.mk.injEq, and_true]
    constructor <;> omega

/-- The skinning path of `_updateMeshWith` on a well-formed weight table: each weighted sum
passes through `store`. -/
theorem updateMeshWith_skinned (store : ℚ → ℚ) (s : WebGLSlot) (frame : DisplayFrame)
    (d : DisplayData)
    (weight : WeightData) (table : List (List Influence)) (loc : List ℚ)
    (hf : s._displayFrame = some frame) (hd : frame.display = some d) (hmesh : d.type = 2)
    (hw : d.geometry.weight = some weight) (hloc : s._localVertices = some loc)
    (hlen : loc.length = 2 * table.length)
    (htable : WeightTableOf d.geometry weight table) :
    s._updateMeshWith store = some { s with _localVertices := some (table.flatMap (fun infl =>
      [store (skinnedX s._geometryBones infl), store (skinnedY s._geometryBones infl)])) } := by
  obtain ⟨pre, post, fpre, fpost, hbi, hpre, hraw, hfpre⟩ := htable
  have hn : loc.length / 2 = table.length := by omega
  have hout := skin_outer_with store s._geometryBones table d.geometry.intArray pre post
    d.geometry.floatArray fpre fpost loc hbi hraw (by omega) table.length le_rfl
  rw [List.take_length, List.drop_of_length_le (by omega), List.append_nil] at hout
  unfold WebGLSlot._updateMeshWith
  simp only [hf, hd, hmesh, hw, hloc, ne_eq, not_true_eq_false, if_false, hn, ← hpre, ← hfpre,
    hout]

/-- The rigid branch of `renderWith` on an eligible slot with all buffers set. -/
theorem renderWith_rigid (store : ℚ → ℚ) (s : WebGLSlot) (renderer : DragonBonesRenderer)
    (display : WebGLArmatureDisplay) (frame : DisplayFrame) (td : TextureData)
    (loc result uvs : List ℚ) (indices : List Nat)
    (hvis : s.hidden = false)
    (hloc : s._localVertices = some loc) (hres : s._resultVertices = some result)
    (huvs : s._uvs = some uvs) (hidx : s._indices = some indices)
    (hlen : result.length = loc.length) (heven : loc.length % 2 = 0)
    (hf : s._displayFrame = some frame) (htd : frame.textureData = some td)
    (hrigid : hasWeight frame.display = false) :
    s.renderWith store renderer display =
      some ({ s with _resultVertices := some ((List.range (loc.length / 2)).flatMap (fun i =>
          [store ((s.globalTransformMatrix.a * loc.getD (i * 2) 0 +
              s.globalTransformMatrix.c * loc.getD (i * 2 + 1) 0 +
              s.globalTransformMatrix.tx) * display.scaleX + display.x),
           store ((s.globalTransformMatrix.b * loc.getD (i * 2) 0 +
              s.globalTransformMatrix.d * loc.getD (i * 2 + 1) 0 +
              s.globalTransformMatrix.ty) * display.scaleY + display.y)])) },
        renderer.renderMesh td.parent.renderTexture
          ((List.range (loc.length / 2)).flatMap (fun i =>
          [store ((s.globalTransformMatrix.a * loc.getD (i * 2) 0 +
              s.globalTransformMatrix.c * loc.getD (i * 2 + 1) 0 +
              s.globalTransformMatrix.tx) * display.scaleX + display.x),
           store ((s.globalTransformMatrix.b * loc.getD (i * 2) 0 +
              s.globalTransformMatrix.d * loc.getD (i * 2 + 1) 0 +
              s.globalTransformMatrix.ty) * display.scaleY + display.y)]))
          uvs indices s._color) := by
  have hfold := pair_fold_full
    (fun i => store ((s.globalTransformMatrix.a * loc.getD (i * 2) 0 +
      s.globalTransformMatrix.c * loc.getD (i * 2 + 1) 0 +
      s.globalTransformMatrix.tx) * display.scaleX + display.x))
    (fun i => store ((s.globalTransformMatrix.b * loc.getD (i * 2) 0 +
      s.globalTransformMatrix.d * loc.getD (i * 2 + 1) 0 +
      s.globalTransformMatrix.ty) * display.scaleY + display.y))
    result (loc.length / 2) (by omega)
  unfold WebGLSlot.renderWith
  simp only [hvis, hloc, hres, huvs, hidx, hf, htd, hrigid, Bool.false_eq_true, if_false]
  unfold WebGLSlot.rigidResultBodyWith
  rw [hfold]

/-- The skinned branch of `renderWith` on an eligible slot with all buffers set. -/
theorem renderWith_skinned (store : ℚ → ℚ) (s : WebGLSlot) (renderer : DragonBonesRenderer)
    (display : WebGLArmatureDisplay) (frame : DisplayFrame) (td : TextureData)
    (loc result uvs : List ℚ) (indices : List Nat)
    (hvis : s.hidden = false)
    (hloc : s._localVertices = some loc) (hres : s._resultVertices = some result)
    (huvs : s._uvs = some uvs) (hidx : s._indices = some indices)
    (hlen : result.length = loc.length) (heven : loc.length % 2 = 0)
    (hf : s._displayFrame = some frame) (htd : frame.textureData = some td)
    (hskin : hasWeight frame.display = true) :
    s.renderWith store renderer display =
      some ({ s with _resultVertices := some ((List.range (loc.length / 2)).flatMap (fun i =>
          [store (loc.getD (i * 2) 0 * display.scaleX + display.x),
           store (loc.getD (i * 2 + 1) 0 * display.scaleY + display.y)])) },
        renderer.renderMesh td.parent.renderTexture
          ((List.range (loc.length / 2)).flatMap (fun i =>
          [store (loc.getD (i * 2) 0 * display.scaleX + display.x),
           store (loc.getD (i * 2 + 1) 0 * display.scaleY + display.y)]))
          uvs indices s._color) := by
  have hfold := pair_fold_full
    (fun i => store (loc.getD (i * 2) 0 * display.scaleX + display.x))
    (fun i => store (loc.getD (i * 2 + 1) 0 * display.scaleY + display.y))
    result (loc.length / 2) (by omega)
  unfold WebGLSlot.renderWith
  simp only [hvis, hloc, hres, huvs, hidx, hf, htd, hskin, if_true, Bool.false_eq_true,
    if_false]
  unfold WebGLSlot.skinnedResultBodyWith
  rw [hfold]

theorem fround_near_one : fround (1 + 1 / 2 ^ 30) = 1 := by
  have hn : roundHalfEven ((1 + 1 / 2 ^ 30 : ℚ) / 2 ^ ((0 : ℤ) - 23)) = 8388608 :=
    roundHalfEven_of_near _ _ (by norm_num) (by norm_num)
  rw [fround_of_exponent (1 + 1 / 2 ^ 30) 0 8388608 (by norm_num)
    (by rw [abs_of_pos (by norm_num)]; norm_num)
    (by rw [abs_of_pos (by norm_num)]; norm_num) hn]
  norm_num

theorem fround_small : fround (1 / 2 ^ 30) = 1 / 2 ^ 30 := by
  have hn : roundHalfEven ((1 / 2 ^ 30 : ℚ) / 2 ^ ((-30 : ℤ) - 23)) = 8388608 :=
    roundHalfEven_of_near _ _ (by norm_num) (by norm_num)
  rw [fround_of_exponent (1 / 2 ^ 30) (-30) 8388608 (by norm_num)
    (by rw [abs_of_pos (by norm_num)]; norm_num)
    (by rw [abs_of_pos (by norm_num)]; norm_num) hn]
  norm_num

theorem fround_one : fround 1 = 1 := by
  have hn : roundHalfEven ((1 : ℚ) / 2 ^ ((0 : ℤ) - 23)) = 8388608 :=
    roundHalfEven_of_near _ _ (by norm_num) (by norm_num)
  rw [fround_of_exponent 1 0 8388608 (by norm_num) (by norm_num) (by norm_num) hn]
  norm_num

theorem range_pairs_eq_flatMap {α : Type} (L : List α) (g1 g2 : Nat → ℚ) (F G : α → ℚ)
    (h : ∀ i (hi : i < L.length), g1 i = F L[i] ∧ g2 i = G L[i]) :
    (List.range L.length).flatMap (fun i => [g1 i, g2 i]) = L.flatMap (fun x => [F x, G x]) := by
  apply List.ext_getElem?
  intro k
  by_cases hk : k / 2 < L.length
  · have hp := pairs_getElem? g1 g2 L.length (k / 2) hk
    have hq := flatMap_pair_getElem? L F G (k / 2)
    rw [List.getElem?_eq_getElem hk] at hq
    obtain ⟨e1, e2⟩ := h (k / 2) hk
    rcases Nat.mod_two_eq_zero_or_one k with h0 | h1
    · have ek : k = 2 * (k / 2) := by omega
      rw [ek, hp.1, hq.1, e1]
      rfl
    · have ek : k = 2 * (k / 2) + 1 := by omega
      rw [ek, hp.2, hq.2, e2]
      rfl
  · rw [List.getElem?_eq_none (by rw [pairs_length]; omega),
      List.getElem?_eq_none (by rw [flatMap_pair_length]; omega)]

/-- One bone at weight `1` against the rigid branch, for any conversion `store` of the stores
into the typed arrays: the two results, and their equality when `store` leaves each coordinate
of `M p_i` as it is. -/
theorem single_bone_with (store : ℚ → ℚ) (sW sR : WebGLSlot) (rW rR : DragonBonesRenderer)
    (display : WebGLArmatureDisplay) (M : Matrix) (infl : List Influence)
    (frameW frameR : DisplayFrame) (dW : DisplayData) (weight : WeightData)
    (tdW tdR : TextureData) (locW resW uvsW resR uvsR : List ℚ) (idxW idxR : List Nat)
    (hWvis : sW.hidden = false) (hWf : sW._displayFrame = some frameW)
    (hWd : frameW.display = some dW) (hWmesh : dW.type = 2)
    (hWw : dW.geometry.weight = some weight) (hWtd : frameW.textureData = some tdW)
    (hWloc : sW._localVertices = some locW) (hWres : sW._resultVertices = some resW)
    (hWuvs : sW._uvs = some uvsW) (hWidx : sW._indices = some idxW)
    (hWlen : locW.length = 2 * infl.length) (hWrlen : resW.length = locW.length)
    (htable : WeightTableOf dW.geometry weight (infl.map (fun f => [f])))
    (hbone : ∀ f ∈ infl, f.weight = 1 ∧ ∃ bone,
      resolvedBone sW._geometryBones f.bone = some bone ∧ bone.globalTransformMatrix = M)
    (hRvis : sR.hidden = false) (hRf : sR._displayFrame = some frameR)
    (hRtd : frameR.textureData = some tdR) (hRrigid : hasWeight frameR.display = false)
    (hRM : sR.globalTransformMatrix = M)
    (hRloc : sR._localVertices = some (infl.flatMap (fun f => [f.x, f.y])))
    (hRres : sR._resultVertices = some resR) (hRrlen : resR.length = 2 * infl.length)
    (hRuvs : sR._uvs = some uvsR) (hRidx : sR._indices = some idxR) :
    ∃ sW1 sW2 rW2 sR2 rR2,
      sW._updateMeshWith store = some sW1 ∧
      sW1._localVertices = some (infl.flatMap (fun f =>
        [store (M.a * f.x + M.c * f.y + M.tx), store (M.b * f.x + M.d * f.y + M.ty)])) ∧
      sW1.renderWith store rW display = some (sW2, rW2) ∧
      sR.renderWith store rR display = some (sR2, rR2) ∧
      sW2._resultVertices = some (infl.flatMap (fun f =>
        [store (store (M.a * f.x + M.c * f.y + M.tx) * display.scaleX + display.x),
         store (store (M.b * f.x + M.d * f.y + M.ty) * display.scaleY + display.y)])) ∧
      sR2._resultVertices = some (infl.flatMap (fun f =>
        [store ((M.a * f.x + M.c * f.y + M.tx) * display.scaleX + display.x),
         store ((M.b * f.x + M.d * f.y + M.ty) * display.scaleY + display.y)])) ∧
      ((∀ f ∈ infl, store (M.a * f.x + M.c * f.y + M.tx) = M.a * f.x + M.c * f.y + M.tx ∧
          store (M.b * f.x + M.d * f.y + M.ty) = M.b * f.x + M.d * f.y + M.ty) →
        sW2._resultVertices = sR2._resultVertices) := by
  have h1 := updateMeshWith_skinned store sW frameW dW weight (infl.map (fun f => [f])) locW
    hWf hWd hWmesh hWw hWloc (by rw [List.length_map]; exact hWlen) htable
  have hL1 : (infl.map (fun f => [f])).flatMap (fun infl =>
      [store (skinnedX sW._geometryBones infl), store (skinnedY sW._geometryBones infl)]) =
      infl.flatMap (fun f => [store (skinnedX sW._geometryBones [f]),
        store (skinnedY sW._geometryBones [f])]) := by
    rw [List.flatMap_def, List.flatMap_def, List.map_map]
    rfl
  rw [hL1] at h1
  have hlenW : (infl.flatMap (fun f => [store (skinnedX sW._geometryBones [f]),
      store (skinnedY sW._geometryBones [f])])).length = 2 * infl.length :=
    flatMap_pair_length _ _ _
  have hlenR : (infl.flatMap (fun f => [f.x, f.y])).length = 2 * infl.length :=
    flatMap_pair_length _ _ _
  have hskin : hasWeight frameW.display = true := by
    rw [hWd]
    simp [hasWeight, hWmesh, hWw]
  have h2 := renderWith_skinned store
    { sW with _localVertices := some (infl.flatMap (fun f =>
      [store (skinnedX sW._geometryBones [f]), store (skinnedY sW._geometryBones [f])])) }
    rW display frameW tdW _ resW uvsW idxW
    (by simpa [WebGLSlot.hidden] using hWvis) rfl hWres hWuvs hWidx
    (by rw [hlenW, hWrlen, hWlen]) (by rw [hlenW]; omega) hWf hWtd hskin
  have h3 := renderWith_rigid store sR rR display frameR tdR _ resR uvsR idxR hRvis hRloc hRres
    hRuvs hRidx (by rw [hlenR, hRrlen]) (by rw [hlenR]; omega) hRf hRtd hRrigid
  have hn : 2 * infl.length / 2 = infl.length := by omega
  have eW : (List.range ((infl.flatMap (fun f => [store (skinnedX sW._geometryBones [f]),
        store (skinnedY sW._geometryBones [f])])).length / 2)).flatMap (fun i =>
      [store ((infl.flatMap (fun f => [store (skinnedX sW._geometryBones [f]),
          store (skinnedY sW._geometryBones [f])])).getD (i * 2) 0 * display.scaleX +
          display.x),
       store ((infl.flatMap (fun f => [store (skinnedX sW._geometryBones [f]),
          store (skinnedY sW._geometryBones [f])])).getD (i * 2 + 1) 0 * display.scaleY +
          display.y)]) =
      infl.flatMap (fun f =>
        [store (store (M.a * f.x + M.c * f.y + M.tx) * display.scaleX + display.x),
         store (store (M.b * f.x + M.d * f.y + M.ty) * display.scaleY + display.y)]) := by
    rw [hlenW, hn]
    apply range_pairs_eq_flatMap
    intro i hi
    obtain ⟨hw1, bone, hb, hbM⟩ := hbone infl[i] (List.getElem_mem hi)
    have hX := flatMap_pair_getD infl (fun f => store (skinnedX sW._geometryBones [f]))
      (fun f => store (skinnedY sW._geometryBones [f])) i hi
    rw [hX.1, hX.2]
    simp only [skinnedX, skinnedY, List.filterMap_cons, hb, Option.map_some',
      List.filterMap_nil, List.sum_cons, List.sum_nil, hw1, hbM, one_mul, add_zero]
    exact ⟨trivial, trivial⟩
  have eR : (List.range ((infl.flatMap (fun f => [f.x, f.y])).length / 2)).flatMap (fun i =>
      [store ((sR.globalTransformMatrix.a * (infl.flatMap (fun f => [f.x, f.y])).getD (i * 2) 0 +
          sR.globalTransformMatrix.c * (infl.flatMap (fun f => [f.x, f.y])).getD (i * 2 + 1) 0 +
          sR.globalTransformMatrix.tx) * display.scaleX + display.x),
       store ((sR.globalTransformMatrix.b * (infl.flatMap (fun f => [f.x, f.y])).getD (i * 2) 0 +
          sR.globalTransformMatrix.d * (infl.flatMap (fun f => [f.x, f.y])).getD (i * 2 + 1) 0 +
          sR.globalTransformMatrix.ty) * display.scaleY + display.y)]) =
      infl.flatMap (fun f =>
        [store ((M.a * f.x + M.c * f.y + M.tx) * display.scaleX + display.x),
         store ((M.b * f.x + M.d * f.y + M.ty) * display.scaleY + display.y)]) := by
    rw [hlenR, hn]
    apply range_pairs_eq_flatMap
    intro i hi
    have hP := flatMap_pair_getD infl (fun f => f.x) (fun f => f.y) i hi
    rw [hP.1, hP.2, hRM]
    exact ⟨rfl, rfl⟩
  rw [eW] at h2
  rw [eR] at h3
  refine ⟨_, _, _, _, _, h1, ?_, h2, h3, rfl, rfl, ?_⟩
  · show some _ = some _
    congr 1
    apply List.flatMap_congr
    intro f hf
    obtain ⟨hw1, bone, hb, hbM⟩ := hbone f hf
    simp only [skinnedX, skinnedY, List.filterMap_cons, hb, Option.map_some',
      List.filterMap_nil, List.sum_cons, List.sum_nil, hw1, hbM, one_mul, add_zero]
  intro hexact
  show some _ = some _
  congr 1
  apply List.flatMap_congr
  intro f hf
  rw [(hexact f hf).1, (hexact f hf).2]

theorem unitSkinSlot_hidden (M : Matrix) : (unitSkinSlot M).hidden = false := by
  simp [WebGLSlot.hidden, unitSkinSlot, freshSlot, WebGLSlot.create]

theorem unitRigidSlot_hidden (M : Matrix) : (unitRigidSlot M).hidden = false := by
  simp [WebGLSlot.hidden, unitRigidSlot, freshSlot, WebGLSlot.create]

theorem unitInfluences_ok (M : Matrix) : ∀ f ∈ unitInfluences, f.weight = 1 ∧ ∃ bone,
    resolvedBone (unitSkinSlot M)._geometryBones f.bone = some bone ∧
      bone.globalTransformMatrix = M := by
  intro f hf
  simp only [unitInfluences, List.mem_singleton] at hf
  rw [hf]
  exact ⟨rfl, { globalTransformMatrix := M }, rfl, rfl⟩

theorem unitGeometry_table :
    WeightTableOf unitGeometry { offset := 4, bones := [0] }
      (unitInfluences.map (fun f => [f])) :=
  ⟨[1, 0, 0, 4, 1, 4, 0], [], [0, 0, 0, 0], [], rfl, rfl, rfl, rfl⟩

/-- C8, counterexample. One vertex `(1, 0)` is skinned to one bone at weight `1` whose matrix
scales `x` by `1 + 2^-30`; the container is at `(-1, 0)` with scale `(1, 1)`. `_updateMesh`
stores `M p = (1 + 2^-30, 0)` in the `Float32Array` `_localVertices` as `(1, 0)`, so the skinned
branch of `render` gives `(0, 0)`. The rigid branch on the local vertex `(1, 0)` with slot matrix
`M` computes `(1 + 2^-30) * 1 + (-1) = 2^-30` before its store and gives `(2^-30, 0)`. -/
theorem single_bone_rounds_before_scaling :
    ∃ sW1 sW2 rW2 sR2 rR2,
      (unitSkinSlot nearIdentity)._updateMeshWith fround = some sW1 ∧
      sW1._localVertices = some [1, 0] ∧
      sW1.renderWith fround DragonBonesRenderer.create shiftedDisplay = some (sW2, rW2) ∧
      (unitRigidSlot nearIdentity).renderWith fround DragonBonesRenderer.create shiftedDisplay =
        some (sR2, rR2) ∧
      sW2._resultVertices = some [0, 0] ∧
      sR2._resultVertices = some [1 / 2 ^ 30, 0] ∧
      sW2._resultVertices ≠ sR2._resultVertices := by
  obtain ⟨sW1, sW2, rW2, sR2, rR2, h1, hloc, h2, h3, hW, hR, -⟩ :=
    single_bone_with fround (unitSkinSlot nearIdentity) (unitRigidSlot nearIdentity)
      DragonBonesRenderer.create DragonBonesRenderer.create shiftedDisplay nearIdentity
      unitInfluences (meshFrame unitGeometry) (imageFrame (plainTexture 0 0 64 64 false))
      (meshDisplay unitGeometry) { offset := 4, bones := [0] }
      (plainTexture 0 0 64 64 false) (plainTexture 0 0 64 64 false)
      [0, 0] [0, 0] [0, 0] [0, 0] [0, 0] [] []
      (unitSkinSlot_hidden _) rfl rfl rfl rfl rfl rfl rfl rfl rfl rfl rfl
      unitGeometry_table (unitInfluences_ok _)
      (unitRigidSlot_hidden _) rfl rfl rfl rfl rfl rfl rfl rfl rfl
  have eX : nearIdentity.a * (1 : ℚ) + nearIdentity.c * 0 + nearIdentity.tx = 1 + 1 / 2 ^ 30 := by
    norm_num [nearIdentity]
  have eY : nearIdentity.b * (1 : ℚ) + nearIdentity.d * 0 + nearIdentity.ty = 0 := by
    norm_num [nearIdentity]
  have e1 : (1 : ℚ) * shiftedDisplay.scaleX + shiftedDisplay.x = 0 := by
    norm_num [shiftedDisplay]
  have e2 : (0 : ℚ) * shiftedDisplay.scaleY + shiftedDisplay.y = 0 := by
    norm_num [shiftedDisplay]
  have e3 : (1 + 1 / 2 ^ 30 : ℚ) * shiftedDisplay.scaleX + shiftedDisplay.x = 1 / 2 ^ 30 := by
    norm_num [shiftedDisplay]
  have hlocv : sW1._localVertices = some [1, 0] := by
    rw [hloc]
    simp only [unitInfluences, List.flatMap_cons, List.flatMap_nil, List.append_nil,
      List.singleton_append, eX, eY, fround_near_one, fround_zero]
  have hWv : sW2._resultVertices = some [0, 0] := by
    rw [hW]
    simp only [unitInfluences, List.flatMap_cons, List.flatMap_nil, List.append_nil,
      List.singleton_append, eX, eY, fround_near_one, fround_zero, e1, e2]
  have hRv : sR2._resultVertices = some [1 / 2 ^ 30, 0] := by
    rw [hR]
    simp only [unitInfluences, List.flatMap_cons, List.flatMap_nil, List.append_nil,
      List.singleton_append, eX, eY, e3, e2, fround_small, fround_zero]
  refine ⟨sW1, sW2, rW2, sR2, rR2, h1, hlocv, h2, h3, hWv, hRv, ?_⟩
  rw [hWv, hRv]
  norm_num

/-- C8, amended. Take a weighted mesh in which each vertex `i` has one influence, a resolved
bone with global matrix `M` at weight `1` and local offset `p_i`, and a rigid slot with slot
matrix `M` and local vertices `p_i`, under one container transform, with every store into a
`Float32Array` rounding as `Math.fround`. `_updateMesh` leaves `fround (M p_i)` in
`_localVertices`; the skinned branch of `render` then gives
`fround (fround (M p_i) * scale + translate)` where the rigid branch gives
`fround (M p_i * scale + translate)`. The two `_resultVertices` are the same whenever each
coordinate of each `M p_i` is a value that the store leaves unchanged. -/
theorem single_bone_reproduces_rigid_when_exact (sW sR : WebGLSlot)
    (rW rR : DragonBonesRenderer)
    (display : WebGLArmatureDisplay) (M : Matrix) (infl : List Influence)
    (frameW frameR : DisplayFrame) (dW : DisplayData) (weight : WeightData)
    (tdW tdR : TextureData) (locW resW uvsW resR uvsR : List ℚ) (idxW idxR : List Nat)
    (hWvis : sW.hidden = false) (hWf : sW._displayFrame = some frameW)
    (hWd : frameW.display = some dW) (hWmesh : dW.type = 2)
    (hWw : dW.geometry.weight = some weight) (hWtd : frameW.textureData = some tdW)
    (hWloc : sW._localVertices = some locW) (hWres : sW._resultVertices = some resW)
    (hWuvs : sW._uvs = some uvsW) (hWidx : sW._indices = some idxW)
    (hWlen : locW.length = 2 * infl.length) (hWrlen : resW.length = locW.length)
    (htable : WeightTableOf dW.geometry weight (infl.map (fun f => [f])))
    (hbone : ∀ f ∈ infl, f.weight = 1 ∧ ∃ bone,
      resolvedBone sW._geometryBones f.bone = some bone ∧ bone.globalTransformMatrix = M)
    (hRvis : sR.hidden = false) (hRf : sR._displayFrame = some frameR)
    (hRtd : frameR.textureData = some tdR) (hRrigid : hasWeight frameR.display = false)
    (hRM : sR.globalTransformMatrix = M)
    (hRloc : sR._localVertices = some (infl.flatMap (fun f => [f.x, f.y])))
    (hRres : sR._resultVertices = some resR) (hRrlen : resR.length = 2 * infl.length)
    (hRuvs : sR._uvs = some uvsR) (hRidx : sR._indices = some idxR) :
    ∃ sW1 sW2 rW2 sR2 rR2,
      sW._updateMeshWith fround = some sW1 ∧
      sW1._localVertices = some (infl.flatMap (fun f =>
        [fround (M.a * f.x + M.c * f.y + M.tx), fround (M.b * f.x + M.d * f.y + M.ty)])) ∧
      sW1.renderWith fround rW display = some (sW2, rW2) ∧
      sR.renderWith fround rR display = some (sR2, rR2) ∧
      sW2._resultVertices = some (infl.flatMap (fun f =>
        [fround (fround (M.a * f.x + M.c * f.y + M.tx) * display.scaleX + display.x),
         fround (fround (M.b * f.x + M.d * f.y + M.ty) * display.scaleY + display.y)])) ∧
      sR2._resultVertices = some (infl.flatMap (fun f =>
        [fround ((M.a * f.x + M.c * f.y + M.tx) * display.scaleX + display.x),
         fround ((M.b * f.x + M.d * f.y + M.ty) * display.scaleY + display.y)])) ∧
      ((∀ f ∈ infl, fround (M.a * f.x + M.c * f.y + M.tx) = M.a * f.x + M.c * f.y + M.tx ∧
          fround (M.b * f.x + M.d * f.y + M.ty) = M.b * f.x + M.d * f.y + M.ty) →
        sW2._resultVertices = sR2._resultVertices) :=
  single_bone_with fround sW sR rW rR display M infl frameW frameR dW weight tdW tdR
    locW resW uvsW resR uvsR idxW idxR hWvis hWf hWd hWmesh hWw hWtd hWloc hWres hWuvs hWidx
    hWlen hWrlen htable hbone hRvis hRf hRtd hRrigid hRM hRloc hRres hRrlen hRuvs hRidx

/-- C8, witness: the vertex `(1, 0)` skinned to a bone with the identity matrix, against the
rigid slot with the identity matrix, under a moved and scaled container. -/
theorem single_bone_reproduces_rigid_when_exact_witness :
    ∃ sW1 sW2 rW2 sR2 rR2,
      (unitSkinSlot identityMatrix)._updateMeshWith fround = some sW1 ∧
      sW1.renderWith fround DragonBonesRenderer.create movedDisplay = some (sW2, rW2) ∧
      (unitRigidSlot identityMatrix).renderWith fround DragonBonesRenderer.create movedDisplay =
        some (sR2, rR2) ∧
      sW2._resultVertices = sR2._resultVertices := by
  obtain ⟨sW1, sW2, rW2, sR2, rR2, h1, -, h2, h3, -, -, h6⟩ :=
    single_bone_reproduces_rigid_when_exact (unitSkinSlot identityMatrix)
      (unitRigidSlot identityMatrix)
      DragonBonesRenderer.create DragonBonesRenderer.create movedDisplay identityMatrix
      unitInfluences (meshFrame unitGeometry) (imageFrame (plainTexture 0 0 64 64 false))
      (meshDisplay unitGeometry) { offset := 4, bones := [0] }
      (plainTexture 0 0 64 64 false) (plainTexture 0 0 64 64 false)
      [0, 0] [0, 0] [0, 0] [0, 0] [0, 0] [] []
      (unitSkinSlot_hidden _) rfl rfl rfl rfl rfl rfl rfl rfl rfl rfl rfl
      unitGeometry_table (unitInfluences_ok _)
      (unitRigidSlot_hidden _) rfl rfl rfl rfl rfl rfl rfl rfl rfl
  refine ⟨sW1, sW2, rW2, sR2, rR2, h1, h2, h3, h6 ?_⟩
  intro f hf
  simp only [unitInfluences, List.mem_singleton] at hf
  rw [hf]
  have eX : identityMatrix.a * (1 : ℚ) + identityMatrix.c * 0 + identityMatrix.tx = 1 := by
    norm_num [identityMatrix]
  have eY : identityMatrix.b * (1 : ℚ) + identityMatrix.d * 0 + identityMatrix.ty = 0 := by
    norm_num [identityMatrix]
  simp only [eX, eY, fround_one, fround_zero]
  exact ⟨trivial, trivial⟩

end DragonBonesWebGL
